import Mathlib

/-!
# Blur editing (`src/svgcanvas/blur-event.js`)

A shallow embedding of the blur module of the editor: the three exported
operations `setBlurNoUndo`, `setBlurOffsets`, `setBlur` and the private helper
`finishChange`, over an explicit state that holds everything the module reaches
through `svgCanvas`: the document, the selection, the edited-filter reference,
the hidden flag, the current command, the history stack and the open
undoable-change scopes of the undo manager.

The collaborators behind `svgCanvas` (attribute mutation, element lookup and
creation, the undo manager, the command classes of `history.js`) are not part of
the module's source file; each is modelled from its contract in section 6 of the
specification and is marked as such.
-/

namespace Blur

/-! ## Data model -/

/-- A reference to a DOM node: its index in the node store of the document. -/
abbrev Ref := Nat

/-- An attribute value. The module writes strings (`'url(#..)'`, `'-50%'`) and one
number, the `stdDeviation`; a `Float` is modelled by a rational. -/
inductive Value where
  | str (s : String)
  | num (q : ℚ)
deriving DecidableEq, Repr

/-- The attributes of an element, in document order. -/
abbrev Attrs := List (String × Value)

/-- A DOM element: tag name, attributes, and the references of its children. -/
structure Node where
  tagName : String
  attrs : Attrs
  children : List Ref
deriving DecidableEq, Repr

/-- Modelled from the spec: the command classes of `history.js` (imported on line 7,
not part of this module). `insertElement` is `new InsertElementCommand(elem)`;
`changeElement` is `new ChangeElementCommand(elem, attrs)`, holding the before values
it is given and the after values found on the element when it is built ("the change
to the target's filter attribute (before/after values)"); `undoableChange` is the
command that closing an attribute scope returns: per scoped element, the value when
the scope was begun and the value when it was closed. -/
inductive Command where
  | insertElement (elem : Ref)
  | changeElement (elem : Ref) (oldValues newValues : List (String × Option Value))
  | undoableChange (attrName : String) (changes : List (Ref × Option Value × Option Value))
deriving DecidableEq, Repr

/-- The sub-commands of a `BatchCommand`, in the order `addSubCommand` received them. -/
abbrev BatchCommand := List Command

/-- Modelled from the spec: an open scope of the undo manager
(`beginAttributeScope(targets, attributeName) -> Scope`): the attribute name and,
per target, the value the attribute had when the scope was begun. -/
structure Scope where
  attrName : String
  oldValues : List (Ref × Option Value)
deriving DecidableEq, Repr

/-- Everything the module reads or writes through `svgCanvas`. -/
structure State where
  /-- the nodes of the document; a `Ref` is an index into this list -/
  nodes : List Node
  /-- `findDefs()`: the defs container -/
  defs : Ref
  /-- `getSelectedElements()` -/
  selectedElements : List Ref
  /-- `isWebkit()`: the quirk flag -/
  isWebkit : Bool
  /-- `getFilter()` / `setFilter()`: the edited-filter reference -/
  filter : Option Ref
  /-- `getFilterHidden()` / `setFilterHidden()` -/
  filterHidden : Bool
  /-- `getCurCommand()` / `setCurCommand()` -/
  curCommand : Option BatchCommand
  /-- the history stack, oldest entry first: the commands pushed by
  `addCommandToHistory` and the records of the tracked attribute setter -/
  history : List BatchCommand
  /-- the open undoable-change scopes of `undoMgr`, innermost first -/
  scopes : List Scope
  /-- the attribute writes made through the tracked setter, oldest first -/
  tracked : List (String × Value × List Ref)
deriving DecidableEq, Repr

/-! ## Attributes -/

/-- Look up an attribute by name (`null` when absent). -/
def getAttr (k : String) : Attrs → Option Value
  | [] => none
  | (k', v) :: rest => if k' = k then some v else getAttr k rest

/-- Remove an attribute by name. -/
def removeAttr (k : String) : Attrs → Attrs
  | [] => []
  | (k', v) :: rest => if k' = k then removeAttr k rest else (k', v) :: removeAttr k rest

/-- Set an attribute: overwrite it in place when present, append it when absent. -/
def setAttr (k : String) (v : Value) : Attrs → Attrs
  | [] => [(k, v)]
  | (k', v') :: rest =>
    if k' = k then (k, v) :: removeAttr k rest else (k', v') :: setAttr k v rest

/-- Apply `f` to the node stored at `r`; a reference outside the store names no node. -/
def updateNode (nodes : List Node) (r : Ref) (f : Node → Node) : List Node :=
  match nodes[r]? with
  | some n => nodes.set r (f n)
  | none => nodes

/-- The attribute `name` of the node at `elem` in a node store. -/
def attrOf (nodes : List Node) (elem : Ref) (name : String) : Option Value :=
  match nodes[elem]? with
  | some n => getAttr name n.attrs
  | none => none

/-- Set an attribute of the node at `elem` in a node store. -/
def setAttrAt (elem : Ref) (name : String) (value : Value) (nodes : List Node) : List Node :=
  updateNode nodes elem (fun n => { n with attrs := setAttr name value n.attrs })

/-- Remove an attribute of the node at `elem` in a node store. -/
def removeAttrAt (elem : Ref) (name : String) (nodes : List Node) : List Node :=
  updateNode nodes elem (fun n => { n with attrs := removeAttr name n.attrs })

/-- Set an attribute on every non-null element of a set. -/
def setAttrAll (name : String) (value : Value) (elems : List (Option Ref)) (nodes : List Node) :
    List Node :=
  elems.foldl (fun ns e => match e with
    | some r => setAttrAt r name value ns
    | none => ns) nodes

/-- Make `child` the last child of `parent`, after taking it out of every child list. -/
def appendAt (parent child : Ref) (nodes : List Node) : List Node :=
  updateNode
    (nodes.map (fun n => { n with children := n.children.filter (fun c => c != child) }))
    parent (fun n => { n with children := n.children ++ [child] })

/-- `elem.getAttribute(name)` (`null` when absent). -/
def getAttribute (s : State) (elem : Ref) (name : String) : Option Value :=
  attrOf s.nodes elem name

/-- `elem.setAttribute(name, value)`. -/
def setAttribute (elem : Ref) (name : String) (value : Value) (s : State) : State :=
  { s with nodes := setAttrAt elem name value s.nodes }

/-- `elem.removeAttribute(name)`. -/
def removeAttribute (elem : Ref) (name : String) (s : State) : State :=
  { s with nodes := removeAttrAt elem name s.nodes }

/-- `elem.id`: the `id` attribute, the empty string when there is none. -/
def elementId (s : State) (elem : Ref) : String :=
  match getAttribute s elem "id" with
  | some (.str i) => i
  | _ => ""

/-- `elem.firstChild` (`null` when there is no child). -/
def firstChild (s : State) (elem : Ref) : Option Ref :=
  match s.nodes[elem]? with
  | some n => n.children.head?
  | none => none

/-- The children of an element, in order. -/
def childrenOf (s : State) (elem : Ref) : List Ref :=
  match s.nodes[elem]? with
  | some n => n.children
  | none => []

/-- `elem.tagName`. -/
def tagOf (s : State) (elem : Ref) : Option String :=
  (s.nodes[elem]?).map (fun n => n.tagName)

/-- `parent.append(child)`: the child leaves its former parent, if any, and becomes the
last child of `parent`. -/
def append (parent child : Ref) (s : State) : State :=
  { s with nodes := appendAt parent child s.nodes }

/-! ## Collaborators reached through `svgCanvas` -/

/-- The first index at or after `i` whose node carries the id. -/
def findId (id : String) : List Node → Nat → Option Ref
  | [], _ => none
  | n :: rest, i => if getAttr "id" n.attrs = some (.str id) then some i else findId id rest (i + 1)

/-- Modelled from the spec: `svgCanvas.getElem(id)` (`findById(id) -> Element?`): the
first node of the document whose `id` attribute is `id`, `null` when there is none. -/
def getElem (s : State) (id : String) : Option Ref :=
  findId id s.nodes 0

/-- Modelled from the spec: `svgCanvas.addSVGElemensFromJson({ element, attr })`
(`createElement(tag, attributes) -> Element`): a new element with the given tag and
attributes and no children; returns its reference. -/
def addSVGElemensFromJson (element : String) (attr : Attrs) (s : State) : Ref × State :=
  (s.nodes.length, { s with nodes := s.nodes ++ [{ tagName := element, attrs := attr, children := [] }] })

/-- Modelled from the spec: `svgCanvas.assignAttributes(elem, attrs, ..)`: sets every
listed attribute on the element, in order. -/
def assignAttributes (elem : Ref) (attrs : Attrs) (s : State) : State :=
  { s with nodes := attrs.foldl (fun ns kv => setAttrAt elem kv.1 kv.2 ns) s.nodes }

/-- Modelled from the spec: `svgCanvas.changeSelectedAttributeNoUndoMethod(attr, val, elems)`
(`setAttributeUntracked(elementSet, name, value)`, live-only, no history): sets the
attribute on every element of the set, skipping `null` members. -/
def changeSelectedAttributeNoUndoMethod (attr : String) (val : Value) (elems : List (Option Ref))
    (s : State) : State :=
  { s with nodes := setAttrAll attr val elems s.nodes }

/-- `svgCanvas.setFilter(f)`. -/
def setFilter (f : Option Ref) (s : State) : State := { s with filter := f }

/-- `svgCanvas.setFilterHidden(b)`. -/
def setFilterHidden (b : Bool) (s : State) : State := { s with filterHidden := b }

/-- `svgCanvas.setCurCommand(c)`. -/
def setCurCommand (c : Option BatchCommand) (s : State) : State := { s with curCommand := c }

/-- `svgCanvas.addCommandToHistory(cmd)` (`pushEntry(command)`). -/
def addCommandToHistory (cmd : BatchCommand) (s : State) : State :=
  { s with history := s.history ++ [cmd] }

/-- `new ChangeElementCommand(elem, attrs)`: see `Command.changeElement`. -/
def ChangeElementCommand (s : State) (elem : Ref) (attrs : List (String × Option Value)) : Command :=
  .changeElement elem attrs (attrs.map (fun kv => (kv.1, getAttribute s elem kv.1)))

/-- The scope that `beginUndoableChange` opens in state `s`: the current value of the
attribute on every non-null element. -/
def newScope (s : State) (attrName : String) (elems : List (Option Ref)) : Scope :=
  { attrName := attrName,
    oldValues := elems.filterMap (fun e => e.map (fun r => (r, getAttribute s r attrName))) }

/-- Modelled from the spec: `svgCanvas.undoMgr.beginUndoableChange(attrName, elems)`
(`beginAttributeScope`): opens a scope that remembers the current value of the
attribute on every non-null element. -/
def beginUndoableChange (attrName : String) (elems : List (Option Ref)) (s : State) : State :=
  { s with scopes := newScope s attrName elems :: s.scopes }

/-- The command a scope yields when it is closed in state `s`. -/
def closeScope (s : State) (sc : Scope) : Command :=
  .undoableChange sc.attrName
    (sc.oldValues.map (fun p => (p.1, p.2, getAttribute s p.1 sc.attrName)))

/-- The history entry of a tracked write of `attr := val` on the selection in state `s`:
per selected element, the value of the attribute before and after the write. -/
def trackedEntry (attr : String) (val : Value) (s : State) : BatchCommand :=
  [closeScope (changeSelectedAttributeNoUndoMethod attr val (s.selectedElements.map some) s)
    (newScope s attr (s.selectedElements.map some))]

/-- Modelled from the spec: `svgCanvas.changeSelectedAttributeMethod(attr, val)`
(`setAttributeTracked(elementSet, name, value)`, records into history): sets the
attribute on the selected elements and records the change into history, as one entry
pushed onto the history stack. The write is also noted in `tracked`. -/
def changeSelectedAttributeMethod (attr : String) (val : Value) (s : State) : State :=
  let s1 := changeSelectedAttributeNoUndoMethod attr val (s.selectedElements.map some) s
  { s1 with
    history := s1.history ++ [trackedEntry attr val s],
    tracked := s1.tracked ++ [(attr, val, s.selectedElements)] }

/-- Modelled from the spec: `svgCanvas.undoMgr.finishUndoableChange()`
(`endAttributeScope(Scope) -> Command`): closes the innermost open scope and returns
its command; with no scope open there is nothing to close and the call fails. -/
def finishUndoableChange (s : State) : Option (Command × State) :=
  match s.scopes with
  | [] => none
  | sc :: rest => some (closeScope s sc, { s with scopes := rest })

/-! ## The module -/

/-- `finishChange` (lines 60-66). Fails when `getCurCommand()` is `null`
(`addSubCommand` of `null`) or no scope is open. -/
def finishChange (s : State) : Option State := do
  let (bCmd, s) ← finishUndoableChange s
  let cur ← s.curCommand
  let s := setCurCommand (some (cur ++ [bCmd])) s        -- getCurCommand().addSubCommand(bCmd)
  let cur ← s.curCommand
  let s := addCommandToHistory cur s
  let s := setCurCommand none s
  pure (setFilter none s)

/-- `setBlurOffsets` (lines 76-92). -/
def setBlurOffsets (filterElem : Ref) (stdDev : ℚ) (s : State) : State :=
  if stdDev > 3 then
    assignAttributes filterElem
      [("x", .str "-50%"), ("y", .str "-50%"), ("width", .str "200%"), ("height", .str "200%")] s
  else if !s.isWebkit then
    removeAttribute filterElem "height"
      (removeAttribute filterElem "width"
        (removeAttribute filterElem "y"
          (removeAttribute filterElem "x" s)))
  else s

/-- The filter reference `'url(#' + id + '_blur)'`. -/
def blurUrl (id : String) : Value := .str ("url(#" ++ id ++ "_blur)")

/-- `setBlurNoUndo` (lines 30-54), with the `svgCanvas.setBlur(val)` it defers to on
line 33 passed in. Reading `.id` of a missing first selected element fails. -/
def setBlurNoUndoWith (setBlur : ℚ → State → Option State) (val : ℚ) (s : State) : Option State :=
  match s.filter with
  | none => setBlur val s
  | some _ =>
    if val = 0 then
      let s := changeSelectedAttributeNoUndoMethod "filter" (.str "") (s.selectedElements.map some) s
      some (setFilterHidden true s)
    else do
      let elem := s.selectedElements.head?
      let s ← if s.filterHidden then do
            let e ← elem
            pure (changeSelectedAttributeNoUndoMethod "filter" (blurUrl (elementId s e))
              (s.selectedElements.map some) s)
          else pure s
      let s ← if s.isWebkit then do
            let e ← elem
            let s := removeAttribute e "filter" s
            pure (setAttribute e "filter" (blurUrl (elementId s e)) s)
          else pure s
      let filter ← s.filter
      let s := changeSelectedAttributeNoUndoMethod "stdDeviation" (.num val) [firstChild s filter] s
      pure (setBlurOffsets filter val s)

/-- `setBlur` (lines 101-160), with the `svgCanvas.setBlurNoUndo(val)` it calls on
line 157 passed in. Reading `.id` of a missing first selected element fails. -/
def setBlurWith (setBlurNoUndo : ℚ → State → Option State) (val : ℚ) (complete : Bool)
    (s : State) : Option State :=
  match s.curCommand with
  | some _ => finishChange s
  | none => do
    -- Looks for associated blur, creates one if not found
    let elem ← s.selectedElements.head?
    let elemId := elementId s elem
    let s := setFilter (getElem s (elemId ++ "_blur")) s
    -- `val -= 0` leaves a number as it is
    let batchCmd : BatchCommand := []
    let (s, batchCmd) :=
      match s.filter with
      | some _ =>
        -- Blur found!
        (if val = 0 then setFilter none s else s, batchCmd)
      | none =>
        -- Not found, so create
        let (newblur, s) := addSVGElemensFromJson "feGaussianBlur"
          [("in", .str "SourceGraphic"), ("stdDeviation", .num val)] s
        let (f, s) := addSVGElemensFromJson "filter" [("id", .str (elemId ++ "_blur"))] s
        let s := setFilter (some f) s
        let s := append f newblur s
        let s := append s.defs f s
        (s, batchCmd ++ [Command.insertElement f])
    let changes := [("filter", getAttribute s elem "filter")]
    if val = 0 then
      let s := removeAttribute elem "filter" s
      let _batchCmd := batchCmd ++ [ChangeElementCommand s elem changes]
      pure s
    else do
      let s := changeSelectedAttributeMethod "filter" (blurUrl elemId) s
      let batchCmd := batchCmd ++ [ChangeElementCommand s elem changes]
      let f ← s.filter                                   -- `getFilter()`, not `null` here
      let s := setBlurOffsets f val s
      let filter := s.filter
      let s := setCurCommand (some batchCmd) s
      let s := beginUndoableChange "stdDeviation" [filter.bind (firstChild s)] s
      if complete then do
        let s ← setBlurNoUndo val s
        finishChange s
      else pure s

/-- `setBlurNoUndo` (lines 30-54). The `svgCanvas.setBlur(val)` of line 33 passes no
`complete`, so that call never comes back to `setBlurNoUndo`. -/
def setBlurNoUndo (val : ℚ) (s : State) : Option State :=
  setBlurNoUndoWith (setBlurWith (fun _ _ => none) · false) val s

/-- `setBlur` (lines 101-160). -/
def setBlur (val : ℚ) (complete : Bool) (s : State) : Option State :=
  setBlurWith setBlurNoUndo val complete s

/-! ## Call sequences and observations -/

/-- The live-preview calls of a drag: `setBlurNoUndo` with each value in turn. -/
def previews : List ℚ → State → Option State
  | [], s => some s
  | v :: vs, s => (setBlurNoUndo v s).bind (previews vs)

/-- A drag: the opening `setBlur(v1, false)`, the previews, the closing `setBlur(vn, c)`. -/
def dragSequence (v1 : ℚ) (vs : List ℚ) (vn : ℚ) (c : Bool) (s : State) : Option State :=
  ((setBlur v1 false s).bind (previews vs)).bind (setBlur vn c)

/-- A finite sequence of `setBlur(val, complete)` calls. -/
def runSetBlur : List (ℚ × Bool) → State → Option State
  | [], s => some s
  | (v, c) :: calls, s => (setBlur v c s).bind (runSetBlur calls)

/-- The children of the node at `r` in a node store (`none` when `r` names no node). -/
def kidsAt (nodes : List Node) (r : Ref) : Option (List Ref) :=
  (nodes[r]?).map (fun n => n.children)

/-- The FilterResource of a target: the element found under the id `<targetId>_blur`. -/
def filterResource (s : State) (target : Ref) : Option Ref :=
  getElem s (elementId s target ++ "_blur")

/-- The `stdDeviation` on the blur primitive (first child) of the target's FilterResource. -/
def blurDeviation (s : State) (target : Ref) : Option Value :=
  ((filterResource s target).bind (firstChild s)).bind (fun p => getAttribute s p "stdDeviation")

/-- The document of the scenarios: a defs container and the target `rect1`, which has
no filter; nothing is being edited. -/
def rect1Doc : State :=
  { nodes := [⟨"defs", [], []⟩, ⟨"rect", [("id", .str "rect1")], []⟩],
    defs := 0, selectedElements := [1], isWebkit := false, filter := none,
    filterHidden := false, curCommand := none, history := [], scopes := [], tracked := [] }

/-- Scenario A: `setBlur(5, true)` on `rect1`. -/
def scenarioA : Option State := setBlur 5 true rect1Doc

/-- Scenario B, continuing from A: `setBlur(8, false)`, previews 9 and 10,
`setBlur(10, true)`. -/
def scenarioB : Option State := scenarioA.bind (dragSequence 8 [9, 10] 10 true)

/-- Scenario C, continuing from B: `setBlur(0, true)`. -/
def scenarioC : Option State := scenarioB.bind (setBlur 0 true)

/-! ## The blocks of `setBlur`, named for the proofs -/

/-- Lines 124-137 of `setBlur`: create the blur primitive and the filter, hang the
primitive under the filter and the filter under the defs container. -/
def createFilter (val : ℚ) (elemId : String) (s : State) : State :=
  let (newblur, s) := addSVGElemensFromJson "feGaussianBlur"
    [("in", .str "SourceGraphic"), ("stdDeviation", .num val)] s
  let (f, s) := addSVGElemensFromJson "filter" [("id", .str (elemId ++ "_blur"))] s
  let s := setFilter (some f) s
  let s := append f newblur s
  append s.defs f s

/-- Lines 150-155 of `setBlur`: attach the filter to the selection, size its region,
make the batch command current and open the `stdDeviation` scope. -/
def openChange (val : ℚ) (elem : Ref) (elemId : String) (changes : List (String × Option Value))
    (batchCmd : BatchCommand) (s : State) : Option State := do
  let s := changeSelectedAttributeMethod "filter" (blurUrl elemId) s
  let batchCmd := batchCmd ++ [ChangeElementCommand s elem changes]
  let f ← s.filter
  let s := setBlurOffsets f val s
  let filter := s.filter
  let s := setCurCommand (some batchCmd) s
  pure (beginUndoableChange "stdDeviation" [filter.bind (firstChild s)] s)

/-- The document after scenario A: `rect1` carries the filter `rect1_blur`, whose blur
primitive has deviation 5; the history holds the record of the tracked write of `filter`
and the composite command; nothing is being edited. -/
def blurredDoc : State :=
  { nodes := [⟨"defs", [], [3]⟩,
      ⟨"rect", [("id", .str "rect1"), ("filter", .str "url(#rect1_blur)")], []⟩,
      ⟨"feGaussianBlur", [("in", .str "SourceGraphic"), ("stdDeviation", .num 5)], []⟩,
      ⟨"filter", [("id", .str "rect1_blur"), ("x", .str "-50%"), ("y", .str "-50%"),
        ("width", .str "200%"), ("height", .str "200%")], [2]⟩],
    defs := 0, selectedElements := [1], isWebkit := false, filter := none,
    filterHidden := false, curCommand := none,
    history := [[.undoableChange "filter" [(1, none, some (.str "url(#rect1_blur)"))]],
      [.insertElement 3,
       .changeElement 1 [("filter", none)] [("filter", some (.str "url(#rect1_blur)"))],
       .undoableChange "stdDeviation" [(2, some (.num 5), some (.num 5))]]],
    scopes := [],
    tracked := [("filter", .str "url(#rect1_blur)", [1])] }

/-- The document of `blurredDoc` in the middle of a drag: after `setBlur(8, false)`. -/
def draggingDoc : State :=
  { blurredDoc with
    filter := some 3,
    curCommand := some [.changeElement 1 [("filter", some (.str "url(#rect1_blur)"))]
      [("filter", some (.str "url(#rect1_blur)"))]],
    history := blurredDoc.history ++ [[.undoableChange "filter"
      [(1, some (.str "url(#rect1_blur)"), some (.str "url(#rect1_blur)"))]]],
    scopes := [⟨"stdDeviation", [(2, some (.num 5))]⟩],
    tracked := [("filter", .str "url(#rect1_blur)", [1]), ("filter", .str "url(#rect1_blur)", [1])] }

/-- The skeleton of a node: its tag, its `id` and its children, the parts that no
attribute write of this module touches. -/
def skel (n : Node) : String × Option Value × List Ref :=
  (n.tagName, getAttr "id" n.attrs, n.children)

/-- Lines 43-49 of `setBlurNoUndo`: put the `filter` attribute back on the selection when
the filter was hidden and, on WebKit, remove it from the first selected element and set
it again. -/
def reattach (elem : Ref) (s : State) : State :=
  let s := if s.filterHidden then
      changeSelectedAttributeNoUndoMethod "filter" (blurUrl (elementId s elem))
        (s.selectedElements.map some) s
    else s
  if s.isWebkit then
    let s := removeAttribute elem "filter" s
    setAttribute elem "filter" (blurUrl (elementId s elem)) s
  else s

/-- The coordinator is in step with the undo manager: the selection starts with the
target, and a current command comes with an open scope. -/
def Steady (t : Ref) (sel : List Ref) (s : State) : Prop :=
  s.selectedElements = t :: sel ∧ (s.curCommand = none ∨ s.scopes ≠ [])

/-- The target is an element of the document and, when its FilterResource exists, the
filter has a first child in the document (its blur primitive). -/
def ResourceSound (t : Ref) (s : State) : Prop :=
  t < s.nodes.length ∧
  ∀ f, filterResource s t = some f → ∃ p, firstChild s f = some p ∧ p < s.nodes.length

/-- Lines 108-140 of `setBlur` for a nonzero value: the state once the filter of the
target has been looked up or created. -/
def resolved (val : ℚ) (elem : Ref) (s : State) : State :=
  match getElem s (elementId s elem ++ "_blur") with
  | some f => setFilter (some f) s
  | none => createFilter val (elementId s elem) (setFilter none s)

/-- The batch command of `setBlur` after lines 108-140: the insertion of the filter when
one was created, nothing otherwise. -/
def insertion (elem : Ref) (s : State) : BatchCommand :=
  match getElem s (elementId s elem ++ "_blur") with
  | some _ => []
  | none => [Command.insertElement (s.nodes.length + 1)]

/-- A call into the module: `setBlur(val, complete)` or `setBlurNoUndo(val)`. -/
inductive Call where
  | setBlur (val : ℚ) (complete : Bool)
  | setBlurNoUndo (val : ℚ)
deriving DecidableEq, Repr

/-- Make one call. -/
def Call.run : Call → State → Option State
  | .setBlur val complete, s => Blur.setBlur val complete s
  | .setBlurNoUndo val, s => Blur.setBlurNoUndo val s

/-- A finite sequence of calls into the module. -/
def runCalls : List Call → State → Option State
  | [], s => some s
  | c :: calls, s => (c.run s).bind (runCalls calls)

/-- At most one element of the document per id. -/
def UniqueIds (s : State) : Prop :=
  ∀ (id : String) (i j : Ref),
    getAttribute s i "id" = some (.str id) → getAttribute s j "id" = some (.str id) → i = j

/-- What holds while a transaction opened by this module is open: the edited-filter
reference is the FilterResource of the target, and the target's `filter` attribute
points at it unless the filter was hidden by a preview of 0. -/
def Dragging (t : Ref) (s : State) : Prop :=
  ∀ b, s.curCommand = some b →
    (∃ f, s.filter = some f ∧ filterResource s t = some f) ∧
    (s.filterHidden = true ∨ getAttribute s t "filter" = some (blurUrl (elementId s t)))

/-! ## Attribute lists -/

theorem getAttr_removeAttr_same (k : String) (l : Attrs) : getAttr k (removeAttr k l) = none := by
  induction l with
  | nil => rfl
  | cons p rest ih =>
    obtain ⟨k', v⟩ := p
    by_cases h : k' = k <;> simp [removeAttr, getAttr, h, ih]

theorem getAttr_removeAttr_ne (k k' : String) (l : Attrs) (h : k' ≠ k) :
    getAttr k' (removeAttr k l) = getAttr k' l := by
  have hk : ¬ k = k' := fun e => h e.symm
  induction l with
  | nil => rfl
  | cons p rest ih =>
    obtain ⟨k₀, v⟩ := p
    by_cases h₀ : k₀ = k
    · subst h₀
      simp [removeAttr, getAttr, ih, hk]
    · by_cases h₁ : k₀ = k'
      · subst h₁
        simp [removeAttr, getAttr, h]
      · simp [removeAttr, getAttr, h₀, h₁, ih]

theorem getAttr_setAttr_same (k : String) (v : Value) (l : Attrs) :
    getAttr k (setAttr k v l) = some v := by
  induction l with
  | nil => simp [setAttr, getAttr]
  | cons p rest ih =>
    obtain ⟨k', v'⟩ := p
    by_cases h : k' = k <;> simp [setAttr, getAttr, h, ih]

theorem getAttr_setAttr_ne (k k' : String) (v : Value) (l : Attrs) (h : k' ≠ k) :
    getAttr k' (setAttr k v l) = getAttr k' l := by
  have hk : ¬ k = k' := fun e => h e.symm
  induction l with
  | nil => simp [setAttr, getAttr, hk]
  | cons p rest ih =>
    obtain ⟨k₀, v₀⟩ := p
    by_cases h₀ : k₀ = k
    · subst h₀
      simp [setAttr, getAttr, hk, getAttr_removeAttr_ne k₀ k' rest h]
    · by_cases h₁ : k₀ = k'
      · subst h₁
        simp [setAttr, getAttr, h]
      · simp [setAttr, getAttr, h₀, h₁, ih]

/-! ## Node stores -/

theorem length_updateNode (ns : List Node) (r : Ref) (f : Node → Node) :
    (updateNode ns r f).length = ns.length := by
  unfold updateNode
  split <;> simp

theorem getElem?_updateNode (ns : List Node) (r : Ref) (f : Node → Node) (i : Nat) :
    (updateNode ns r f)[i]? = if i = r then (ns[r]?).map f else ns[i]? := by
  unfold updateNode
  cases h : ns[r]? with
  | none =>
    by_cases hi : i = r
    · subst hi; simp [h]
    · simp [hi]
  | some n =>
    have hr : r < ns.length := by
      by_contra hc
      rw [List.getElem?_eq_none (Nat.le_of_not_lt hc)] at h
      cases h
    by_cases hi : i = r
    · subst hi; simp [List.getElem?_set, hr]
    · have : ¬ r = i := fun e => hi e.symm
      simp [List.getElem?_set, hi, this]

theorem length_setAttrAt (e : Ref) (k : String) (v : Value) (ns : List Node) :
    (setAttrAt e k v ns).length = ns.length := length_updateNode _ _ _

theorem length_removeAttrAt (e : Ref) (k : String) (ns : List Node) :
    (removeAttrAt e k ns).length = ns.length := length_updateNode _ _ _

theorem length_setAttrAll (k : String) (v : Value) (es : List (Option Ref)) (ns : List Node) :
    (setAttrAll k v es ns).length = ns.length := by
  unfold setAttrAll
  induction es generalizing ns with
  | nil => rfl
  | cons e rest ih =>
    cases e with
    | none => simpa using ih ns
    | some r => simpa [length_setAttrAt] using ih (setAttrAt r k v ns)

theorem length_appendAt (p c : Ref) (ns : List Node) : (appendAt p c ns).length = ns.length := by
  simp [appendAt, length_updateNode]

theorem attrOf_setAttrAt (e : Ref) (k : String) (v : Value) (ns : List Node) (r : Ref) (k' : String) :
    attrOf (setAttrAt e k v ns) r k' =
      if r = e ∧ k' = k ∧ e < ns.length then some v else attrOf ns r k' := by
  unfold attrOf setAttrAt
  rw [getElem?_updateNode]
  by_cases hr : r = e
  · subst hr
    cases h : ns[r]? with
    | none =>
      have : ¬ r < ns.length := by
        intro hlt
        rw [List.getElem?_eq_getElem hlt] at h
        cases h
      simp [this]
    | some n =>
      have hlt : r < ns.length := by
        by_contra hc
        rw [List.getElem?_eq_none (Nat.le_of_not_lt hc)] at h
        cases h
      by_cases hk : k' = k
      · subst hk; simp [hlt, getAttr_setAttr_same]
      · simp [hlt, hk, getAttr_setAttr_ne k k' v n.attrs hk]
  · simp [hr]

theorem attrOf_removeAttrAt (e : Ref) (k : String) (ns : List Node) (r : Ref) (k' : String) :
    attrOf (removeAttrAt e k ns) r k' = if r = e ∧ k' = k then none else attrOf ns r k' := by
  unfold attrOf removeAttrAt
  rw [getElem?_updateNode]
  by_cases hr : r = e
  · subst hr
    cases h : ns[r]? with
    | none => simp
    | some n =>
      by_cases hk : k' = k
      · subst hk; simp [getAttr_removeAttr_same]
      · simp [hk, getAttr_removeAttr_ne k k' n.attrs hk]
  · simp [hr]

theorem attrOf_setAttrAll (k : String) (v : Value) (es : List (Option Ref)) (ns : List Node)
    (r : Ref) (k' : String) :
    attrOf (setAttrAll k v es ns) r k' =
      if some r ∈ es ∧ k' = k ∧ r < ns.length then some v else attrOf ns r k' := by
  unfold setAttrAll
  induction es generalizing ns with
  | nil => simp
  | cons e rest ih =>
    cases e with
    | none => simpa using ih ns
    | some e =>
      have h := ih (setAttrAt e k v ns)
      simp only [List.foldl_cons]
      rw [h, length_setAttrAt, attrOf_setAttrAt]
      by_cases h1 : some r ∈ rest <;> by_cases h2 : k' = k <;> by_cases h3 : r < ns.length <;>
        by_cases h4 : r = e <;> simp [h1, h2, h3, h4]
      all_goals (subst h4; simp [h3])

theorem kidsAt_setAttrAt (e : Ref) (k : String) (v : Value) (ns : List Node) (r : Ref) :
    kidsAt (setAttrAt e k v ns) r = kidsAt ns r := by
  unfold kidsAt setAttrAt
  rw [getElem?_updateNode]
  by_cases hr : r = e
  · subst hr; cases ns[r]? <;> simp
  · simp [hr]

theorem kidsAt_removeAttrAt (e : Ref) (k : String) (ns : List Node) (r : Ref) :
    kidsAt (removeAttrAt e k ns) r = kidsAt ns r := by
  unfold kidsAt removeAttrAt
  rw [getElem?_updateNode]
  by_cases hr : r = e
  · subst hr; cases ns[r]? <;> simp
  · simp [hr]

theorem kidsAt_setAttrAll (k : String) (v : Value) (es : List (Option Ref)) (ns : List Node)
    (r : Ref) : kidsAt (setAttrAll k v es ns) r = kidsAt ns r := by
  unfold setAttrAll
  induction es generalizing ns with
  | nil => rfl
  | cons e rest ih =>
    cases e with
    | none => simpa using ih ns
    | some e => simpa [kidsAt_setAttrAt] using ih (setAttrAt e k v ns)

/-! ## `setBlurOffsets` -/

theorem setBlurOffsets_frame (f : Ref) (v : ℚ) (s : State) :
    setBlurOffsets f v s = { s with nodes := (setBlurOffsets f v s).nodes } := by
  unfold setBlurOffsets
  split_ifs <;> rfl

theorem length_setBlurOffsets (f : Ref) (v : ℚ) (s : State) :
    (setBlurOffsets f v s).nodes.length = s.nodes.length := by
  unfold setBlurOffsets
  split_ifs <;>
    simp [assignAttributes, removeAttribute, length_setAttrAt, length_removeAttrAt]

theorem kidsAt_setBlurOffsets (f : Ref) (v : ℚ) (s : State) (r : Ref) :
    kidsAt (setBlurOffsets f v s).nodes r = kidsAt s.nodes r := by
  unfold setBlurOffsets
  split_ifs <;>
    simp [assignAttributes, removeAttribute, kidsAt_setAttrAt, kidsAt_removeAttrAt]

theorem attr_setBlurOffsets_other (f : Ref) (v : ℚ) (s : State) (r : Ref) (k : String)
    (h : r ≠ f ∨ (k ≠ "x" ∧ k ≠ "y" ∧ k ≠ "width" ∧ k ≠ "height")) :
    getAttribute (setBlurOffsets f v s) r k = getAttribute s r k := by
  unfold setBlurOffsets getAttribute
  split_ifs
  · simp only [assignAttributes, List.foldl, attrOf_setAttrAt]
    rcases h with h | ⟨h1, h2, h3, h4⟩
    · simp [h]
    · simp [h1, h2, h3, h4]
  · simp only [removeAttribute, attrOf_removeAttrAt]
    rcases h with h | ⟨h1, h2, h3, h4⟩
    · simp [h]
    · simp [h1, h2, h3, h4]
  · rfl

theorem attr_setBlurOffsets_large (f : Ref) (v : ℚ) (s : State) (hv : 3 < v)
    (hf : f < s.nodes.length) :
    getAttribute (setBlurOffsets f v s) f "x" = some (.str "-50%") ∧
    getAttribute (setBlurOffsets f v s) f "y" = some (.str "-50%") ∧
    getAttribute (setBlurOffsets f v s) f "width" = some (.str "200%") ∧
    getAttribute (setBlurOffsets f v s) f "height" = some (.str "200%") := by
  unfold setBlurOffsets getAttribute
  simp only [hv, gt_iff_lt, if_true, assignAttributes, List.foldl, attrOf_setAttrAt,
    length_setAttrAt]
  simp [hf]

theorem attr_setBlurOffsets_small (f : Ref) (v : ℚ) (s : State) (hv : v ≤ 3)
    (hw : s.isWebkit = false) :
    getAttribute (setBlurOffsets f v s) f "x" = none ∧
    getAttribute (setBlurOffsets f v s) f "y" = none ∧
    getAttribute (setBlurOffsets f v s) f "width" = none ∧
    getAttribute (setBlurOffsets f v s) f "height" = none := by
  unfold setBlurOffsets getAttribute
  have : ¬ (3 < v) := not_lt.mpr hv
  simp [this, hw, removeAttribute, attrOf_removeAttrAt]

theorem setBlurOffsets_small_webkit (f : Ref) (v : ℚ) (s : State) (hv : v ≤ 3)
    (hw : s.isWebkit = true) : setBlurOffsets f v s = s := by
  unfold setBlurOffsets
  have : ¬ (3 < v) := not_lt.mpr hv
  simp [this, hw]

theorem getElem?_appendAt (p c : Ref) (ns : List Node) (r : Ref) :
    (appendAt p c ns)[r]? =
      (ns[r]?).map (fun n => Node.mk n.tagName n.attrs
        (if r = p then n.children.filter (fun x => x != c) ++ [c]
         else n.children.filter (fun x => x != c))) := by
  unfold appendAt
  rw [getElem?_updateNode]
  by_cases hr : r = p
  · subst hr; cases h : ns[r]? <;> simp [List.getElem?_map, h]
  · cases h : ns[r]? <;> simp [hr, List.getElem?_map, h]

theorem attrOf_appendAt (p c : Ref) (ns : List Node) (r : Ref) (k : String) :
    attrOf (appendAt p c ns) r k = attrOf ns r k := by
  unfold attrOf
  rw [getElem?_appendAt]
  cases ns[r]? <;> simp

theorem kidsAt_appendAt (p c : Ref) (ns : List Node) (r : Ref) :
    kidsAt (appendAt p c ns) r =
      (kidsAt ns r).map (fun l =>
        if r = p then l.filter (fun x => x != c) ++ [c] else l.filter (fun x => x != c)) := by
  unfold kidsAt
  rw [getElem?_appendAt]
  cases ns[r]? <;> simp

theorem attrOf_snoc (ns : List Node) (n : Node) (r : Ref) (k : String) :
    attrOf (ns ++ [n]) r k =
      if r < ns.length then attrOf ns r k
      else if r = ns.length then getAttr k n.attrs else none := by
  unfold attrOf
  by_cases h1 : r < ns.length
  · simp [h1, List.getElem?_append_left h1]
  · by_cases h2 : r = ns.length
    · subst h2; simp
    · have h3 : ns.length + 1 ≤ r :=
        Nat.succ_le_of_lt (Nat.lt_of_le_of_ne (Nat.le_of_not_lt h1) (Ne.symm h2))
      have h4 : (ns ++ [n]).length ≤ r := by simpa using h3
      simp [h1, h2, List.getElem?_eq_none h4]

theorem kidsAt_snoc (ns : List Node) (n : Node) (r : Ref) :
    kidsAt (ns ++ [n]) r =
      if r < ns.length then kidsAt ns r
      else if r = ns.length then some n.children else none := by
  unfold kidsAt
  by_cases h1 : r < ns.length
  · simp [h1, List.getElem?_append_left h1]
  · by_cases h2 : r = ns.length
    · subst h2; simp
    · have h3 : ns.length + 1 ≤ r :=
        Nat.succ_le_of_lt (Nat.lt_of_le_of_ne (Nat.le_of_not_lt h1) (Ne.symm h2))
      have h4 : (ns ++ [n]).length ≤ r := by simpa using h3
      simp [h1, h2, List.getElem?_eq_none h4]

theorem attrOf_of_ge (ns : List Node) (r : Ref) (k : String) (h : ns.length ≤ r) :
    attrOf ns r k = none := by
  unfold attrOf
  rw [List.getElem?_eq_none h]

/-! ## Control state -/

theorem finishChange_eq (s : State) (b : BatchCommand) (sc : Scope) (rest : List Scope)
    (hb : s.curCommand = some b) (hsc : s.scopes = sc :: rest) :
    finishChange s = some { s with
      history := s.history ++ [b ++ [closeScope s sc]],
      curCommand := none, filter := none, scopes := rest } := by
  simp [finishChange, finishUndoableChange, hsc, hb, setCurCommand, addCommandToHistory, setFilter]

theorem setBlur_of_open (v : ℚ) (c : Bool) (s : State) (b : BatchCommand)
    (hb : s.curCommand = some b) : setBlur v c s = finishChange s := by
  simp [setBlur, setBlurWith, hb]

theorem setBlurNoUndo_frame (v : ℚ) (s : State) (f t : Ref) (sel : List Ref)
    (hf : s.filter = some f) (hsel : s.selectedElements = t :: sel) :
    ∃ ns, setBlurNoUndo v s =
      some { s with nodes := ns, filterHidden := (if v = 0 then true else s.filterHidden) } := by
  unfold setBlurNoUndo setBlurNoUndoWith
  simp only [hf]
  by_cases hv : v = 0
  · simp [hv, changeSelectedAttributeNoUndoMethod, setFilterHidden]
    exact hf
  · simp only [hv, if_false, hsel, List.head?_cons]
    cases hh : s.filterHidden <;> cases hw : s.isWebkit <;>
      simp [hh, hw, hf, changeSelectedAttributeNoUndoMethod, setAttribute, removeAttribute] <;>
      rw [setBlurOffsets_frame] <;> simp [hh, hw]
    all_goals exact hsel

theorem setBlurWith_found (g : ℚ → State → Option State) (v : ℚ) (c : Bool) (s : State)
    (t f : Ref) (sel : List Ref)
    (hidle : s.curCommand = none) (hsel : s.selectedElements = t :: sel)
    (hfound : getElem s (elementId s t ++ "_blur") = some f) :
    setBlurWith g v c s =
      if v = 0 then some (removeAttribute t "filter" (setFilter none s))
      else (openChange v t (elementId s t) [("filter", getAttribute s t "filter")] []
              (setFilter (some f) s)).bind
            (fun s2 => if c then (g v s2).bind finishChange else some s2) := by
  unfold setBlurWith
  rw [hidle]
  simp only [hsel, List.head?_cons, Option.bind_eq_bind, Option.some_bind, hfound]
  by_cases hv : v = 0
  · simp [hv, setFilter]
  · simp only [hv, if_false]
    rfl

theorem setBlurWith_created (g : ℚ → State → Option State) (v : ℚ) (c : Bool) (s : State)
    (t : Ref) (sel : List Ref)
    (hidle : s.curCommand = none) (hsel : s.selectedElements = t :: sel)
    (hfound : getElem s (elementId s t ++ "_blur") = none) :
    setBlurWith g v c s =
      if v = 0 then
        some (removeAttribute t "filter" (createFilter v (elementId s t) (setFilter none s)))
      else (openChange v t (elementId s t)
              [("filter", getAttribute (createFilter v (elementId s t) (setFilter none s)) t "filter")]
              [Command.insertElement (s.nodes.length + 1)]
              (createFilter v (elementId s t) (setFilter none s))).bind
            (fun s2 => if c then (g v s2).bind finishChange else some s2) := by
  unfold setBlurWith
  rw [hidle]
  simp only [hsel, List.head?_cons, Option.bind_eq_bind, Option.some_bind, hfound]
  by_cases hv : v = 0
  · simp only [hv, if_true]
    rfl
  · simp only [hv, if_false]
    rw [show s.nodes.length + 1 = (s.nodes ++ [(⟨"feGaussianBlur",
      [("in", .str "SourceGraphic"), ("stdDeviation", .num v)], []⟩ : Node)]).length from by simp]
    rfl

@[simp] theorem setBlurOffsets_defs (f : Ref) (v : ℚ) (s : State) :
    (setBlurOffsets f v s).defs = s.defs := by rw [setBlurOffsets_frame]

@[simp] theorem setBlurOffsets_selectedElements (f : Ref) (v : ℚ) (s : State) :
    (setBlurOffsets f v s).selectedElements = s.selectedElements := by rw [setBlurOffsets_frame]

@[simp] theorem setBlurOffsets_isWebkit (f : Ref) (v : ℚ) (s : State) :
    (setBlurOffsets f v s).isWebkit = s.isWebkit := by rw [setBlurOffsets_frame]

@[simp] theorem setBlurOffsets_filter (f : Ref) (v : ℚ) (s : State) :
    (setBlurOffsets f v s).filter = s.filter := by rw [setBlurOffsets_frame]

@[simp] theorem setBlurOffsets_filterHidden (f : Ref) (v : ℚ) (s : State) :
    (setBlurOffsets f v s).filterHidden = s.filterHidden := by rw [setBlurOffsets_frame]

@[simp] theorem setBlurOffsets_curCommand (f : Ref) (v : ℚ) (s : State) :
    (setBlurOffsets f v s).curCommand = s.curCommand := by rw [setBlurOffsets_frame]

@[simp] theorem setBlurOffsets_history (f : Ref) (v : ℚ) (s : State) :
    (setBlurOffsets f v s).history = s.history := by rw [setBlurOffsets_frame]

@[simp] theorem setBlurOffsets_scopes (f : Ref) (v : ℚ) (s : State) :
    (setBlurOffsets f v s).scopes = s.scopes := by rw [setBlurOffsets_frame]

@[simp] theorem setBlurOffsets_tracked (f : Ref) (v : ℚ) (s : State) :
    (setBlurOffsets f v s).tracked = s.tracked := by rw [setBlurOffsets_frame]

/-- The node store after `createFilter`: the two new nodes at the end, the primitive
under the filter, the filter under the defs container. -/
theorem createFilter_eq (v : ℚ) (id : String) (s : State) :
    createFilter v id s =
      { s with
        nodes := appendAt s.defs (s.nodes.length + 1)
          (appendAt (s.nodes.length + 1) s.nodes.length
            (s.nodes ++ [⟨"feGaussianBlur",
                [("in", .str "SourceGraphic"), ("stdDeviation", .num v)], []⟩]
              ++ [⟨"filter", [("id", .str (id ++ "_blur"))], []⟩])),
        filter := some (s.nodes.length + 1) } := by
  simp [createFilter, addSVGElemensFromJson, setFilter, append]

theorem openChange_eq (v : ℚ) (t : Ref) (id : String) (changes : List (String × Option Value))
    (b : BatchCommand) (s : State) (f : Ref) (hf : s.filter = some f) :
    openChange v t id changes b s =
      some { s with
        nodes := (setBlurOffsets f v (changeSelectedAttributeMethod "filter" (blurUrl id) s)).nodes,
        curCommand := some (b ++
          [ChangeElementCommand (changeSelectedAttributeMethod "filter" (blurUrl id) s) t changes]),
        scopes := newScope (setBlurOffsets f v (changeSelectedAttributeMethod "filter" (blurUrl id) s))
            "stdDeviation"
            [firstChild (setBlurOffsets f v (changeSelectedAttributeMethod "filter" (blurUrl id) s)) f]
          :: s.scopes,
        history := s.history ++ [trackedEntry "filter" (blurUrl id) s],
        tracked := s.tracked ++ [("filter", blurUrl id, s.selectedElements)] } := by
  have h1 : (changeSelectedAttributeMethod "filter" (blurUrl id) s).filter = some f := hf
  unfold openChange
  simp only [Option.bind_eq_bind, h1, Option.some_bind, Option.pure_def, setBlurOffsets_filter]
  rw [setBlurOffsets_frame]
  simp [beginUndoableChange, setCurCommand, newScope, firstChild, getAttribute,
    changeSelectedAttributeMethod, changeSelectedAttributeNoUndoMethod]

/-- The opening call when the lookup finds the filter `f`. -/
theorem setBlur_open_found (v : ℚ) (s : State) (t f : Ref) (sel : List Ref)
    (hidle : s.curCommand = none) (hsel : s.selectedElements = t :: sel)
    (hfound : getElem s (elementId s t ++ "_blur") = some f) (hv : v ≠ 0) :
    setBlur v false s =
      openChange v t (elementId s t) [("filter", getAttribute s t "filter")] []
        (setFilter (some f) s) := by
  unfold setBlur
  rw [setBlurWith_found _ v false s t f sel hidle hsel hfound]
  simp only [hv, if_false]
  cases openChange v t (elementId s t) [("filter", getAttribute s t "filter")] []
    (setFilter (some f) s) <;> simp

/-- The opening call when the lookup finds no filter. -/
theorem setBlur_open_created (v : ℚ) (s : State) (t : Ref) (sel : List Ref)
    (hidle : s.curCommand = none) (hsel : s.selectedElements = t :: sel)
    (hfound : getElem s (elementId s t ++ "_blur") = none) (hv : v ≠ 0) :
    setBlur v false s =
      openChange v t (elementId s t)
        [("filter", getAttribute (createFilter v (elementId s t) (setFilter none s)) t "filter")]
        [Command.insertElement (s.nodes.length + 1)]
        (createFilter v (elementId s t) (setFilter none s)) := by
  unfold setBlur
  rw [setBlurWith_created _ v false s t sel hidle hsel hfound]
  simp only [hv, if_false]
  cases openChange v t (elementId s t)
    [("filter", getAttribute (createFilter v (elementId s t) (setFilter none s)) t "filter")]
    [Command.insertElement (s.nodes.length + 1)]
    (createFilter v (elementId s t) (setFilter none s)) <;> simp

/-- With `complete` set, `setBlur` is the opening call, one preview with the same value,
and `finishChange`. -/
theorem setBlur_complete (v : ℚ) (s : State) (t : Ref) (sel : List Ref)
    (hidle : s.curCommand = none) (hsel : s.selectedElements = t :: sel) (hv : v ≠ 0) :
    setBlur v true s = ((setBlur v false s).bind (setBlurNoUndo v)).bind finishChange := by
  cases hfound : getElem s (elementId s t ++ "_blur") with
  | none =>
    rw [setBlur_open_created v s t sel hidle hsel hfound hv]
    unfold setBlur
    rw [setBlurWith_created _ v true s t sel hidle hsel hfound]
    simp only [hv, if_false]
    cases openChange v t (elementId s t)
      [("filter", getAttribute (createFilter v (elementId s t) (setFilter none s)) t "filter")]
      [Command.insertElement (s.nodes.length + 1)]
      (createFilter v (elementId s t) (setFilter none s)) <;> simp
  | some f =>
    rw [setBlur_open_found v s t f sel hidle hsel hfound hv]
    unfold setBlur
    rw [setBlurWith_found _ v true s t f sel hidle hsel hfound]
    simp only [hv, if_false]
    cases openChange v t (elementId s t) [("filter", getAttribute s t "filter")] []
      (setFilter (some f) s) <;> simp

/-- With value `0` and no transaction open, `setBlur` ends on line 147. -/
theorem setBlur_zero (c : Bool) (s : State) (t : Ref) (sel : List Ref)
    (hidle : s.curCommand = none) (hsel : s.selectedElements = t :: sel) :
    setBlur 0 c s =
      match getElem s (elementId s t ++ "_blur") with
      | some _ => some (removeAttribute t "filter" (setFilter none s))
      | none => some (removeAttribute t "filter" (createFilter 0 (elementId s t) (setFilter none s))) := by
  unfold setBlur
  cases hfound : getElem s (elementId s t ++ "_blur") with
  | none => rw [setBlurWith_created _ 0 c s t sel hidle hsel hfound]; simp
  | some f => rw [setBlurWith_found _ 0 c s t f sel hidle hsel hfound]; simp

/-- The value the target's `filter` attribute has after `createFilter` is the one it had. -/
theorem attr_filter_createFilter (v : ℚ) (id : String) (s : State) (t : Ref) :
    getAttribute (createFilter v id s) t "filter" = getAttribute s t "filter" := by
  rw [createFilter_eq]
  unfold getAttribute
  simp only [attrOf_appendAt, attrOf_snoc, List.length_append, List.length_singleton]
  by_cases h1 : t < s.nodes.length
  · have h2 : t < s.nodes.length + 1 := Nat.lt_succ_of_lt h1
    simp [h1, h2]
  · rw [attrOf_of_ge s.nodes t "filter" (Nat.le_of_not_lt h1)]
    by_cases h2 : t < s.nodes.length + 1
    · have h3 : t = s.nodes.length := Nat.le_antisymm (Nat.le_of_lt_succ h2) (Nat.le_of_not_lt h1)
      simp [h1, h2, h3, getAttr]
    · simp [h1, h2, getAttr]

/-- The control state after the opening call. -/
theorem setBlur_open_control (v : ℚ) (s : State) (t : Ref) (sel : List Ref)
    (hidle : s.curCommand = none) (hsel : s.selectedElements = t :: sel) (hv : v ≠ 0) :
    ∃ s1 f n sc rec,
      setBlur v false s = some s1 ∧
      s1.history = s.history ++ [rec] ∧
      s1.curCommand = some
        ((match getElem s (elementId s t ++ "_blur") with
          | some _ => []
          | none => [Command.insertElement (s.nodes.length + 1)]) ++
          [Command.changeElement t [("filter", getAttribute s t "filter")] [("filter", n)]]) ∧
      s1.filter = some f ∧
      s1.scopes = sc :: s.scopes ∧ sc.attrName = "stdDeviation" ∧
      s1.selectedElements = s.selectedElements ∧
      s1.isWebkit = s.isWebkit ∧ s1.filterHidden = s.filterHidden ∧ s1.defs = s.defs := by
  cases hfound : getElem s (elementId s t ++ "_blur") with
  | none =>
    rw [setBlur_open_created v s t sel hidle hsel hfound hv, attr_filter_createFilter]
    rw [openChange_eq v t _ _ _ _ (s.nodes.length + 1) (by rw [createFilter_eq]; rfl)]
    refine ⟨_, s.nodes.length + 1,
      getAttribute (changeSelectedAttributeMethod "filter" (blurUrl (elementId s t))
        (createFilter v (elementId s t) (setFilter none s))) t "filter",
      newScope (setBlurOffsets (s.nodes.length + 1) v
          (changeSelectedAttributeMethod "filter" (blurUrl (elementId s t))
            (createFilter v (elementId s t) (setFilter none s))))
        "stdDeviation"
        [firstChild (setBlurOffsets (s.nodes.length + 1) v
          (changeSelectedAttributeMethod "filter" (blurUrl (elementId s t))
            (createFilter v (elementId s t) (setFilter none s)))) (s.nodes.length + 1)],
      trackedEntry "filter" (blurUrl (elementId s t))
        (createFilter v (elementId s t) (setFilter none s)),
      rfl, ?_, ?_, ?_, ?_, rfl, ?_, ?_, ?_, ?_⟩ <;>
      simp [createFilter_eq, setFilter, ChangeElementCommand, getAttribute]
  | some f =>
    rw [setBlur_open_found v s t f sel hidle hsel hfound hv]
    rw [openChange_eq v t _ _ _ _ f rfl]
    refine ⟨_, f,
      getAttribute (changeSelectedAttributeMethod "filter" (blurUrl (elementId s t))
        (setFilter (some f) s)) t "filter",
      newScope (setBlurOffsets f v
          (changeSelectedAttributeMethod "filter" (blurUrl (elementId s t)) (setFilter (some f) s)))
        "stdDeviation"
        [firstChild (setBlurOffsets f v
          (changeSelectedAttributeMethod "filter" (blurUrl (elementId s t))
            (setFilter (some f) s))) f],
      trackedEntry "filter" (blurUrl (elementId s t)) (setFilter (some f) s),
      rfl, ?_, ?_, ?_, ?_, rfl, ?_, ?_, ?_, ?_⟩ <;>
      simp [setFilter, ChangeElementCommand, getAttribute]

/-! ## The scenario documents -/

theorem scenarioA_eq : scenarioA = some blurredDoc := by decide

theorem draggingDoc_eq : setBlur 8 false blurredDoc = some draggingDoc := by decide

/-! ## Previews -/

/-- Previews with the edited-filter reference set change only the document and the
hidden flag. -/
theorem previews_frame (vs : List ℚ) (s : State) (f t : Ref) (sel : List Ref)
    (hf : s.filter = some f) (hsel : s.selectedElements = t :: sel) :
    ∃ ns h, previews vs s = some { s with nodes := ns, filterHidden := h } := by
  induction vs generalizing s with
  | nil => exact ⟨s.nodes, s.filterHidden, rfl⟩
  | cons v vs ih =>
    obtain ⟨ns, h1⟩ := setBlurNoUndo_frame v s f t sel hf hsel
    obtain ⟨ns', h', h2⟩ :=
      ih ({ s with nodes := ns, filterHidden := (if v = 0 then true else s.filterHidden) }) hf hsel
    refine ⟨ns', h', ?_⟩
    show (setBlurNoUndo v s).bind (previews vs) = _
    rw [h1]
    exact h2

/-! ## Skeletons -/

theorem findId_skel (id : String) (ns ns' : List Node) (i : Nat)
    (h : ns'.map skel = ns.map skel) : findId id ns' i = findId id ns i := by
  induction ns generalizing ns' i with
  | nil =>
    cases ns' with
    | nil => rfl
    | cons a rest => simp at h
  | cons n rest ih =>
    cases ns' with
    | nil => simp at h
    | cons n' rest' =>
      simp only [List.map_cons, List.cons.injEq] at h
      obtain ⟨h1, h2⟩ := h
      have h3 : getAttr "id" n'.attrs = getAttr "id" n.attrs := by
        have := congrArg (fun p => p.2.1) h1
        simpa [skel] using this
      simp only [findId, h3, ih rest' (i + 1) h2]

theorem getElem?_skel (ns ns' : List Node) (r : Ref) (h : ns'.map skel = ns.map skel) :
    (ns'[r]?).map skel = (ns[r]?).map skel := by
  rw [← List.getElem?_map, ← List.getElem?_map, h]

theorem kidsAt_skel (ns ns' : List Node) (r : Ref) (h : ns'.map skel = ns.map skel) :
    kidsAt ns' r = kidsAt ns r := by
  have h1 := getElem?_skel ns ns' r h
  unfold kidsAt
  cases h2 : ns'[r]? <;> cases h3 : ns[r]? <;> simp [h2, h3, skel] at h1 ⊢
  exact h1.2.2

theorem attrOf_id_skel (ns ns' : List Node) (r : Ref) (h : ns'.map skel = ns.map skel) :
    attrOf ns' r "id" = attrOf ns r "id" := by
  have h1 := getElem?_skel ns ns' r h
  unfold attrOf
  cases h2 : ns'[r]? <;> cases h3 : ns[r]? <;> simp [h2, h3, skel] at h1 ⊢
  exact h1.2.1

theorem tag_skel (ns ns' : List Node) (r : Ref) (h : ns'.map skel = ns.map skel) :
    (ns'[r]?).map (fun n => n.tagName) = (ns[r]?).map (fun n => n.tagName) := by
  have h1 := getElem?_skel ns ns' r h
  cases h2 : ns'[r]? <;> cases h3 : ns[r]? <;> simp [h2, h3, skel] at h1 ⊢
  exact h1.1

theorem length_skel (ns ns' : List Node) (h : ns'.map skel = ns.map skel) :
    ns'.length = ns.length := by
  have := congrArg List.length h
  simpa using this

theorem map_skel_updateNode (ns : List Node) (r : Ref) (f : Node → Node)
    (hf : ∀ n, skel (f n) = skel n) : (updateNode ns r f).map skel = ns.map skel := by
  apply List.ext_getElem?
  intro i
  rw [List.getElem?_map, List.getElem?_map, getElem?_updateNode]
  by_cases hi : i = r
  · subst hi
    cases ns[i]? <;> simp [hf]
  · simp [hi]

theorem map_skel_setAttrAt (e : Ref) (k : String) (v : Value) (ns : List Node) (hk : k ≠ "id") :
    (setAttrAt e k v ns).map skel = ns.map skel := by
  apply map_skel_updateNode
  intro n
  simp [skel, getAttr_setAttr_ne k "id" v n.attrs (Ne.symm hk)]

theorem map_skel_removeAttrAt (e : Ref) (k : String) (ns : List Node) (hk : k ≠ "id") :
    (removeAttrAt e k ns).map skel = ns.map skel := by
  apply map_skel_updateNode
  intro n
  simp [skel, getAttr_removeAttr_ne k "id" n.attrs (Ne.symm hk)]

theorem map_skel_setAttrAll (k : String) (v : Value) (es : List (Option Ref)) (ns : List Node)
    (hk : k ≠ "id") : (setAttrAll k v es ns).map skel = ns.map skel := by
  unfold setAttrAll
  induction es generalizing ns with
  | nil => rfl
  | cons e rest ih =>
    cases e with
    | none => simpa using ih ns
    | some e =>
      simp only [List.foldl_cons]
      rw [ih (setAttrAt e k v ns), map_skel_setAttrAt e k v ns hk]

theorem map_skel_setBlurOffsets (f : Ref) (v : ℚ) (s : State) :
    (setBlurOffsets f v s).nodes.map skel = s.nodes.map skel := by
  unfold setBlurOffsets
  split_ifs
  · simp only [assignAttributes, List.foldl]
    rw [map_skel_setAttrAt _ _ _ _ (by decide), map_skel_setAttrAt _ _ _ _ (by decide),
      map_skel_setAttrAt _ _ _ _ (by decide), map_skel_setAttrAt _ _ _ _ (by decide)]
  · simp only [removeAttribute]
    rw [map_skel_removeAttrAt _ _ _ (by decide), map_skel_removeAttrAt _ _ _ (by decide),
      map_skel_removeAttrAt _ _ _ (by decide), map_skel_removeAttrAt _ _ _ (by decide)]
  · rfl

/-! State-level consequences of equal skeletons. -/

theorem elementId_skel (s s' : State) (r : Ref) (h : s'.nodes.map skel = s.nodes.map skel) :
    elementId s' r = elementId s r := by
  unfold elementId getAttribute
  rw [attrOf_id_skel s.nodes s'.nodes r h]

theorem getElem_skel (s s' : State) (id : String) (h : s'.nodes.map skel = s.nodes.map skel) :
    getElem s' id = getElem s id := findId_skel id s.nodes s'.nodes 0 h

theorem firstChild_eq_kidsAt (s : State) (r : Ref) :
    firstChild s r = (kidsAt s.nodes r).bind List.head? := by
  unfold firstChild kidsAt
  cases s.nodes[r]? <;> rfl

theorem childrenOf_eq_kidsAt (s : State) (r : Ref) :
    childrenOf s r = (kidsAt s.nodes r).getD [] := by
  unfold childrenOf kidsAt
  cases s.nodes[r]? <;> rfl

theorem firstChild_skel (s s' : State) (r : Ref) (h : s'.nodes.map skel = s.nodes.map skel) :
    firstChild s' r = firstChild s r := by
  rw [firstChild_eq_kidsAt, firstChild_eq_kidsAt, kidsAt_skel s.nodes s'.nodes r h]

theorem childrenOf_skel (s s' : State) (r : Ref) (h : s'.nodes.map skel = s.nodes.map skel) :
    childrenOf s' r = childrenOf s r := by
  rw [childrenOf_eq_kidsAt, childrenOf_eq_kidsAt, kidsAt_skel s.nodes s'.nodes r h]

theorem tagOf_skel (s s' : State) (r : Ref) (h : s'.nodes.map skel = s.nodes.map skel) :
    tagOf s' r = tagOf s r := tag_skel s.nodes s'.nodes r h

theorem filterResource_skel (s s' : State) (t : Ref) (h : s'.nodes.map skel = s.nodes.map skel) :
    filterResource s' t = filterResource s t := by
  unfold filterResource
  rw [elementId_skel s s' t h, getElem_skel s s' _ h]

/-! ## Previews, in detail -/

theorem setBlurNoUndo_zero (s : State) (f : Ref) (hf : s.filter = some f) :
    setBlurNoUndo 0 s =
      some (setFilterHidden true
        (changeSelectedAttributeNoUndoMethod "filter" (.str "") (s.selectedElements.map some) s)) := by
  unfold setBlurNoUndo setBlurNoUndoWith
  simp only [hf]
  simp

theorem reattach_frame (t : Ref) (s : State) :
    reattach t s = { s with nodes := (reattach t s).nodes } := by
  unfold reattach
  dsimp only
  split_ifs <;> rfl

theorem setBlurNoUndo_nonzero (v : ℚ) (s : State) (f t : Ref) (sel : List Ref)
    (hf : s.filter = some f) (hsel : s.selectedElements = t :: sel) (hv : v ≠ 0) :
    setBlurNoUndo v s =
      some (setBlurOffsets f v
        (changeSelectedAttributeNoUndoMethod "stdDeviation" (.num v)
          [firstChild (reattach t s) f] (reattach t s))) := by
  have hrf : (reattach t s).filter = some f := by rw [reattach_frame]; exact hf
  unfold setBlurNoUndo setBlurNoUndoWith
  simp only [hf, hv, if_false, hsel, List.head?_cons]
  rw [← hsel]
  cases hh : s.filterHidden <;> cases hw : s.isWebkit <;>
    simp [reattach, hh, hw, hf, changeSelectedAttributeNoUndoMethod, setAttribute, removeAttribute]

theorem map_skel_reattach (t : Ref) (s : State) :
    (reattach t s).nodes.map skel = s.nodes.map skel := by
  unfold reattach
  dsimp only
  split_ifs <;>
    simp [changeSelectedAttributeNoUndoMethod, setAttribute, removeAttribute,
      map_skel_setAttrAll, map_skel_setAttrAt, map_skel_removeAttrAt]

/-- A preview with the edited-filter reference set leaves every skeleton as it was. -/
theorem map_skel_setBlurNoUndo (v : ℚ) (s s' : State) (f t : Ref) (sel : List Ref)
    (hf : s.filter = some f) (hsel : s.selectedElements = t :: sel)
    (h : setBlurNoUndo v s = some s') : s'.nodes.map skel = s.nodes.map skel := by
  by_cases hv : v = 0
  · subst hv
    rw [setBlurNoUndo_zero s f hf] at h
    cases h
    exact map_skel_setAttrAll "filter" _ _ s.nodes (by decide)
  · rw [setBlurNoUndo_nonzero v s f t sel hf hsel hv] at h
    cases h
    rw [map_skel_setBlurOffsets]
    show (setAttrAll "stdDeviation" _ _ (reattach t s).nodes).map skel = _
    rw [map_skel_setAttrAll _ _ _ _ (by decide), map_skel_reattach]

/-! ## The opening call, in detail -/

theorem setBlur_open_eq (v : ℚ) (s : State) (t : Ref) (sel : List Ref)
    (hidle : s.curCommand = none) (hsel : s.selectedElements = t :: sel) (hv : v ≠ 0) :
    setBlur v false s =
      openChange v t (elementId s t) [("filter", getAttribute s t "filter")] (insertion t s)
        (resolved v t s) := by
  unfold insertion resolved
  cases hfound : getElem s (elementId s t ++ "_blur") with
  | none =>
    rw [setBlur_open_created v s t sel hidle hsel hfound hv, attr_filter_createFilter]
    rfl
  | some f =>
    rw [setBlur_open_found v s t f sel hidle hsel hfound hv]

theorem resolved_frame (v : ℚ) (t : Ref) (s : State) :
    resolved v t s =
      { s with nodes := (resolved v t s).nodes, filter := (resolved v t s).filter } := by
  unfold resolved
  cases getElem s (elementId s t ++ "_blur") with
  | none => rw [createFilter_eq]; rfl
  | some f => rfl

theorem resolved_filter (v : ℚ) (t : Ref) (s : State) :
    (resolved v t s).filter =
      some (match getElem s (elementId s t ++ "_blur") with
        | some f => f
        | none => s.nodes.length + 1) := by
  unfold resolved
  cases getElem s (elementId s t ++ "_blur") with
  | none => rw [createFilter_eq]; rfl
  | some f => rfl

/-- The state the opening call leaves. -/
theorem setBlur_open_state (v : ℚ) (s : State) (t : Ref) (sel : List Ref) (F : Ref)
    (hidle : s.curCommand = none) (hsel : s.selectedElements = t :: sel) (hv : v ≠ 0)
    (hF : (resolved v t s).filter = some F) :
    setBlur v false s =
      some { s with
        nodes := (setBlurOffsets F v
          (changeSelectedAttributeMethod "filter" (blurUrl (elementId s t)) (resolved v t s))).nodes,
        filter := some F,
        curCommand := some (insertion t s ++
          [ChangeElementCommand
            (changeSelectedAttributeMethod "filter" (blurUrl (elementId s t)) (resolved v t s)) t
            [("filter", getAttribute s t "filter")]]),
        scopes := newScope (setBlurOffsets F v
              (changeSelectedAttributeMethod "filter" (blurUrl (elementId s t)) (resolved v t s)))
            "stdDeviation"
            [firstChild (setBlurOffsets F v
              (changeSelectedAttributeMethod "filter" (blurUrl (elementId s t)) (resolved v t s))) F]
          :: s.scopes,
        history := s.history ++ [trackedEntry "filter" (blurUrl (elementId s t)) (resolved v t s)],
        tracked := s.tracked ++ [("filter", blurUrl (elementId s t), s.selectedElements)] } := by
  rw [setBlur_open_eq v s t sel hidle hsel hv, openChange_eq v t _ _ _ _ F hF]
  have h := resolved_frame v t s
  have h1 : (resolved v t s).defs = s.defs := by rw [h]
  have h2 : (resolved v t s).selectedElements = s.selectedElements := by rw [h]
  have h3 : (resolved v t s).isWebkit = s.isWebkit := by rw [h]
  have h4 : (resolved v t s).filterHidden = s.filterHidden := by rw [h]
  have h5 : (resolved v t s).history = s.history := by rw [h]
  have h6 : (resolved v t s).scopes = s.scopes := by rw [h]
  have h7 : (resolved v t s).tracked = s.tracked := by rw [h]
  simp only [h1, h2, h3, h4, h5, h6, h7, hF]

/-! ## One `setBlur` call from a steady state -/

theorem map_skel_changeSelectedAttributeMethod (v : Value) (s : State) :
    (changeSelectedAttributeMethod "filter" v s).nodes.map skel = s.nodes.map skel :=
  map_skel_setAttrAll "filter" v _ s.nodes (by decide)

/-- The complete call, step by step: the opened state, the previewed state, the result. -/
theorem setBlur_complete_steps (v : ℚ) (s : State) (t : Ref) (sel : List Ref)
    (hidle : s.curCommand = none) (hsel : s.selectedElements = t :: sel) (hv : v ≠ 0) :
    ∃ s1 s2 F b sc rec,
      setBlur v false s = some s1 ∧ s1.filter = some F ∧ (resolved v t s).filter = some F ∧
      s1.selectedElements = t :: sel ∧
      s1.curCommand = some b ∧ s1.scopes = sc :: s.scopes ∧ s1.history = s.history ++ [rec] ∧
      s1.nodes = (setBlurOffsets F v
        (changeSelectedAttributeMethod "filter" (blurUrl (elementId s t)) (resolved v t s))).nodes ∧
      s1.isWebkit = s.isWebkit ∧ s1.filterHidden = s.filterHidden ∧
      setBlurNoUndo v s1 = some s2 ∧
      setBlur v true s = some { s2 with
        history := s.history ++ [rec, b ++ [closeScope s2 sc]],
        curCommand := none, filter := none, scopes := s.scopes } := by
  obtain ⟨F, hF⟩ : ∃ F, (resolved v t s).filter = some F := ⟨_, resolved_filter v t s⟩
  have h1 := setBlur_open_state v s t sel F hidle hsel hv hF
  obtain ⟨ns, h2⟩ := setBlurNoUndo_frame v _ F t sel
    (show ({ s with
        nodes := (setBlurOffsets F v
          (changeSelectedAttributeMethod "filter" (blurUrl (elementId s t)) (resolved v t s))).nodes,
        filter := some F,
        curCommand := some (insertion t s ++
          [ChangeElementCommand
            (changeSelectedAttributeMethod "filter" (blurUrl (elementId s t)) (resolved v t s)) t
            [("filter", getAttribute s t "filter")]]),
        scopes := newScope (setBlurOffsets F v
              (changeSelectedAttributeMethod "filter" (blurUrl (elementId s t)) (resolved v t s)))
            "stdDeviation"
            [firstChild (setBlurOffsets F v
              (changeSelectedAttributeMethod "filter" (blurUrl (elementId s t)) (resolved v t s))) F]
          :: s.scopes,
        history := s.history ++ [trackedEntry "filter" (blurUrl (elementId s t)) (resolved v t s)],
        tracked := s.tracked ++ [("filter", blurUrl (elementId s t), s.selectedElements)] } :
        State).filter = some F from rfl) hsel
  refine ⟨_, _, F, _, _, trackedEntry "filter" (blurUrl (elementId s t)) (resolved v t s),
    h1, rfl, hF, hsel, rfl, rfl, rfl, rfl, rfl, rfl, h2, ?_⟩
  rw [setBlur_complete v s t sel hidle hsel hv, h1]
  simp only [Option.some_bind]
  rw [h2]
  simp only [Option.some_bind]
  rw [finishChange_eq _ _ _ s.scopes rfl rfl]
  simp

theorem setBlur_steady (v : ℚ) (c : Bool) (s : State) (t : Ref) (sel : List Ref)
    (hst : Steady t sel s) :
    ∃ s', setBlur v c s = some s' ∧ Steady t sel s' ∧
      (∀ b, s.curCommand = some b → s'.nodes = s.nodes ∧ s'.curCommand = none) ∧
      (s.curCommand = none → s'.nodes.map skel = (resolved v t s).nodes.map skel) := by
  obtain ⟨hsel, hcs⟩ := hst
  cases hcur : s.curCommand with
  | some b =>
    have hne : s.scopes ≠ [] := by
      rcases hcs with h | h
      · rw [hcur] at h; cases h
      · exact h
    obtain ⟨sc, rest, hsc⟩ := List.exists_cons_of_ne_nil hne
    rw [setBlur_of_open v c s b hcur, finishChange_eq s b sc rest hcur hsc]
    exact ⟨_, rfl, ⟨hsel, Or.inl rfl⟩, fun _ _ => ⟨rfl, rfl⟩, (fun h => by cases h)⟩
  | none =>
    by_cases hv : v = 0
    · subst hv
      rw [setBlur_zero c s t sel hcur hsel]
      unfold resolved
      cases hfound : getElem s (elementId s t ++ "_blur") with
      | none =>
        refine ⟨_, rfl, ⟨?_, Or.inl ?_⟩, (fun b hb => by cases hb), fun _ => ?_⟩
        · rw [createFilter_eq]; exact hsel
        · rw [createFilter_eq]; exact hcur
        · exact map_skel_removeAttrAt t "filter" _ (by decide)
      | some f =>
        exact ⟨_, rfl, ⟨hsel, Or.inl hcur⟩, (fun b hb => by cases hb),
          fun _ => map_skel_removeAttrAt t "filter" _ (by decide)⟩
    · obtain ⟨s1, s2, F, b, sc, rec, h1, hf1, hF, hsel1, hb1, hsc1, hh1, hn1, -, -, h2, h3⟩ :=
        setBlur_complete_steps v s t sel hcur hsel hv
      have hsk1 : s1.nodes.map skel = (resolved v t s).nodes.map skel := by
        rw [hn1, map_skel_setBlurOffsets, map_skel_changeSelectedAttributeMethod]
      cases c with
      | false =>
        refine ⟨s1, h1, ⟨hsel1, Or.inr ?_⟩, (fun b hb => by cases hb), fun _ => hsk1⟩
        rw [hsc1]; exact List.cons_ne_nil _ _
      | true =>
        have hsk2 := map_skel_setBlurNoUndo v s1 s2 F t sel hf1 hsel1 h2
        obtain ⟨ns, h2'⟩ := setBlurNoUndo_frame v s1 F t sel hf1 hsel1
        rw [h2] at h2'
        cases h2'
        exact ⟨_, h3, ⟨hsel1, Or.inl rfl⟩, (fun b hb => by cases hb), fun _ => hsk2.trans hsk1⟩

/-- A sequence of `setBlur` calls from a steady state always returns, in a steady state. -/
theorem runSetBlur_steady (calls : List (ℚ × Bool)) (s : State) (t : Ref) (sel : List Ref)
    (hst : Steady t sel s) : ∃ s', runSetBlur calls s = some s' ∧ Steady t sel s' := by
  induction calls generalizing s with
  | nil => exact ⟨s, rfl, hst⟩
  | cons vc calls ih =>
    obtain ⟨v, c⟩ := vc
    obtain ⟨s1, h1, hst1, -, -⟩ := setBlur_steady v c s t sel hst
    obtain ⟨s2, h2, hst2⟩ := ih s1 hst1
    exact ⟨s2, by simp [runSetBlur, h1, h2], hst2⟩

theorem runSetBlur_append (calls calls' : List (ℚ × Bool)) (s : State) :
    runSetBlur (calls ++ calls') s = (runSetBlur calls s).bind (runSetBlur calls') := by
  induction calls generalizing s with
  | nil => rfl
  | cons vc calls ih =>
    obtain ⟨v, c⟩ := vc
    simp only [List.cons_append, runSetBlur]
    cases setBlur v c s with
    | none => rfl
    | some s1 => simp [ih s1]

/-! ## Lookup by id and the created filter -/

theorem findId_ids (id : String) (ns ns' : List Node) (i : Nat)
    (h : ns'.map (fun n => getAttr "id" n.attrs) = ns.map (fun n => getAttr "id" n.attrs)) :
    findId id ns' i = findId id ns i := by
  induction ns generalizing ns' i with
  | nil =>
    cases ns' with
    | nil => rfl
    | cons a rest => simp at h
  | cons n rest ih =>
    cases ns' with
    | nil => simp at h
    | cons n' rest' =>
      simp only [List.map_cons, List.cons.injEq] at h
      obtain ⟨h1, h2⟩ := h
      simp only [findId, h1, ih rest' (i + 1) h2]

theorem findId_appendAt (id : String) (p c : Ref) (ns : List Node) (i : Nat) :
    findId id (appendAt p c ns) i = findId id ns i := by
  apply findId_ids
  apply List.ext_getElem?
  intro r
  rw [List.getElem?_map, List.getElem?_map, getElem?_appendAt]
  cases ns[r]? <;> simp

theorem findId_append_none (id : String) (ns ms : List Node) (i : Nat)
    (h : findId id ns i = none) : findId id (ns ++ ms) i = findId id ms (i + ns.length) := by
  induction ns generalizing i with
  | nil => simp
  | cons n rest ih =>
    simp only [findId] at h
    split at h
    · cases h
    · rename_i hne
      simp only [List.cons_append, findId, hne, if_false, List.length_cons]
      show findId id (rest ++ ms) (i + 1) = _
      rw [ih (i + 1) h, Nat.add_assoc, Nat.add_comm 1]

theorem findId_lt (id : String) (ns : List Node) (i : Nat) (r : Nat)
    (h : findId id ns i = some r) : r < i + ns.length := by
  induction ns generalizing i with
  | nil => simp [findId] at h
  | cons n rest ih =>
    simp only [findId] at h
    split at h
    · cases h; simp
    · have := ih (i + 1) h
      simp only [List.length_cons]
      omega

/-- The node store that `createFilter` builds on the store `ns` with defs container `d`. -/
theorem createFilter_nodes (v : ℚ) (id : String) (s : State) :
    (createFilter v id s).nodes =
      appendAt s.defs (s.nodes.length + 1)
        (appendAt (s.nodes.length + 1) s.nodes.length
          (s.nodes ++ [⟨"feGaussianBlur",
              [("in", .str "SourceGraphic"), ("stdDeviation", .num v)], []⟩]
            ++ [⟨"filter", [("id", .str (id ++ "_blur"))], []⟩])) := by
  rw [createFilter_eq]

theorem length_createFilter (v : ℚ) (id : String) (s : State) :
    (createFilter v id s).nodes.length = s.nodes.length + 2 := by
  rw [createFilter_nodes]
  simp [length_appendAt]

theorem attrOf_createFilter_old (v : ℚ) (id : String) (s : State) (r : Ref) (k : String)
    (hr : r < s.nodes.length) :
    attrOf (createFilter v id s).nodes r k = attrOf s.nodes r k := by
  rw [createFilter_nodes]
  simp only [attrOf_appendAt, attrOf_snoc, List.length_append, List.length_singleton]
  have h2 : r < s.nodes.length + 1 := Nat.lt_succ_of_lt hr
  simp [hr, h2]

theorem attrOf_createFilter_blur (v : ℚ) (id : String) (s : State) (k : String) :
    attrOf (createFilter v id s).nodes s.nodes.length k =
      getAttr k [("in", .str "SourceGraphic"), ("stdDeviation", .num v)] := by
  rw [createFilter_nodes]
  simp only [attrOf_appendAt, attrOf_snoc, List.length_append, List.length_singleton]
  simp

theorem attrOf_createFilter_filter (v : ℚ) (id : String) (s : State) (k : String) :
    attrOf (createFilter v id s).nodes (s.nodes.length + 1) k =
      getAttr k [("id", .str (id ++ "_blur"))] := by
  rw [createFilter_nodes]
  simp only [attrOf_appendAt, attrOf_snoc, List.length_append, List.length_singleton]
  simp

theorem getElem_createFilter (v : ℚ) (id : String) (s : State)
    (h : getElem s (id ++ "_blur") = none) :
    getElem (createFilter v id s) (id ++ "_blur") = some (s.nodes.length + 1) := by
  unfold getElem at h ⊢
  rw [createFilter_nodes, findId_appendAt, findId_appendAt, List.append_assoc,
    findId_append_none _ _ _ _ h]
  simp [findId, getAttr]

theorem kidsAt_createFilter_filter (v : ℚ) (id : String) (s : State) :
    kidsAt (createFilter v id s).nodes (s.nodes.length + 1) =
      some (if s.nodes.length + 1 = s.defs then [s.nodes.length, s.nodes.length + 1]
        else [s.nodes.length]) := by
  rw [createFilter_nodes]
  simp only [kidsAt_appendAt, kidsAt_snoc, List.length_append, List.length_singleton]
  by_cases hd : s.nodes.length + 1 = s.defs
  · have hne : s.nodes.length ≠ s.defs := hd ▸ Nat.ne_of_lt (Nat.lt_succ_self _)
    simp [hd, hne]
  · simp [hd]

theorem kidsAt_createFilter_old (v : ℚ) (id : String) (s : State) (r : Ref)
    (hr : r < s.nodes.length) :
    kidsAt (createFilter v id s).nodes r =
      (kidsAt s.nodes r).map (fun l =>
        if r = s.defs then
          (l.filter (fun x => x != s.nodes.length)).filter (fun x => x != s.nodes.length + 1)
            ++ [s.nodes.length + 1]
        else (l.filter (fun x => x != s.nodes.length)).filter (fun x => x != s.nodes.length + 1)) := by
  rw [createFilter_nodes]
  simp only [kidsAt_appendAt, kidsAt_snoc, List.length_append, List.length_singleton]
  have h2 : r < s.nodes.length + 1 := Nat.lt_succ_of_lt hr
  have h3 : r ≠ s.nodes.length + 1 := Nat.ne_of_lt h2
  cases kidsAt s.nodes r <;> simp [hr, h2, h3]

theorem tag_createFilter (v : ℚ) (id : String) (s : State) :
    tagOf (createFilter v id s) s.nodes.length = some "feGaussianBlur" ∧
    tagOf (createFilter v id s) (s.nodes.length + 1) = some "filter" := by
  unfold tagOf
  rw [createFilter_nodes]
  simp only [getElem?_appendAt]
  constructor
  · rw [List.getElem?_append_left (by simp)]
    simp
  · rw [List.getElem?_append_right (by simp)]
    simp

/-! ## The resolved filter -/

theorem resolved_length (v : ℚ) (t : Ref) (s : State) :
    s.nodes.length ≤ (resolved v t s).nodes.length := by
  unfold resolved
  cases getElem s (elementId s t ++ "_blur") with
  | none => rw [length_createFilter]; exact Nat.le_add_right _ _
  | some f => exact Nat.le_refl _

theorem resolved_attr_old (v : ℚ) (t : Ref) (s : State) (r : Ref) (k : String)
    (hr : r < s.nodes.length) :
    getAttribute (resolved v t s) r k = getAttribute s r k := by
  unfold resolved getAttribute
  cases getElem s (elementId s t ++ "_blur") with
  | none => exact attrOf_createFilter_old v _ (setFilter none s) r k hr
  | some f => rfl

theorem resolved_elementId (v : ℚ) (t : Ref) (s : State) (r : Ref) (hr : r < s.nodes.length) :
    elementId (resolved v t s) r = elementId s r := by
  unfold elementId
  rw [resolved_attr_old v t s r "id" hr]

theorem resolved_filterResource (v : ℚ) (t : Ref) (s : State) (ht : t < s.nodes.length) :
    filterResource (resolved v t s) t = (resolved v t s).filter := by
  unfold filterResource
  rw [resolved_elementId v t s t ht]
  unfold resolved
  cases hfound : getElem s (elementId s t ++ "_blur") with
  | none =>
    have h := getElem_createFilter v (elementId s t) (setFilter none s) hfound
    rw [h, createFilter_eq]
  | some f => exact hfound

theorem resourceSound_skel (t : Ref) (s s' : State) (h : s'.nodes.map skel = s.nodes.map skel)
    (hs : ResourceSound t s) : ResourceSound t s' := by
  obtain ⟨ht, hres⟩ := hs
  have hlen := length_skel s.nodes s'.nodes h
  refine ⟨by rw [hlen]; exact ht, ?_⟩
  intro f hf
  rw [filterResource_skel s s' t h] at hf
  obtain ⟨p, hp, hlt⟩ := hres f hf
  exact ⟨p, by rw [firstChild_skel s s' f h]; exact hp, by rw [hlen]; exact hlt⟩

theorem resolved_sound (v : ℚ) (t : Ref) (s : State) (hs : ResourceSound t s) :
    ResourceSound t (resolved v t s) := by
  obtain ⟨ht, hres⟩ := hs
  refine ⟨Nat.lt_of_lt_of_le ht (resolved_length v t s), ?_⟩
  intro f hf
  rw [resolved_filterResource v t s ht] at hf
  revert hf
  unfold resolved
  cases hfound : getElem s (elementId s t ++ "_blur") with
  | none =>
    intro hf
    rw [createFilter_eq] at hf
    simp only [setFilter, Option.some.injEq] at hf
    subst hf
    refine ⟨s.nodes.length, ?_, ?_⟩
    · rw [firstChild_eq_kidsAt]
      have := kidsAt_createFilter_filter v (elementId s t) (setFilter none s)
      simp only [setFilter] at this ⊢
      rw [this]
      by_cases hd : s.nodes.length + 1 = s.defs <;> simp [hd]
    · rw [length_createFilter]
      exact Nat.lt_add_of_pos_right (by decide)
  | some f' =>
    intro hf
    simp only [setFilter, Option.some.injEq] at hf
    subst hf
    exact hres f' hfound

/-! ## Reattaching -/

theorem attr_reattach_other (t : Ref) (s : State) (r : Ref) (k : String) (hk : k ≠ "filter") :
    getAttribute (reattach t s) r k = getAttribute s r k := by
  unfold reattach getAttribute
  dsimp only
  split_ifs <;>
    simp [changeSelectedAttributeNoUndoMethod, setAttribute, removeAttribute,
      attrOf_setAttrAll, attrOf_setAttrAt, attrOf_removeAttrAt, hk]

theorem length_reattach (t : Ref) (s : State) : (reattach t s).nodes.length = s.nodes.length :=
  length_skel _ _ (map_skel_reattach t s)

theorem attr_reattach_filter (t : Ref) (s : State) (ht : t < s.nodes.length)
    (h : getAttribute s t "filter" = some (blurUrl (elementId s t))) :
    getAttribute (reattach t s) t "filter" = some (blurUrl (elementId s t)) := by
  have hid : ∀ (u : Value) (es : List (Option Ref)),
      elementId (removeAttribute t "filter"
        (changeSelectedAttributeNoUndoMethod "filter" u es s)) t = elementId s t := by
    intro u es
    apply elementId_skel
    show (removeAttrAt t "filter" (setAttrAll "filter" u es s.nodes)).map skel = _
    rw [map_skel_removeAttrAt _ _ _ (by decide), map_skel_setAttrAll _ _ _ _ (by decide)]
  have hid' : elementId (removeAttribute t "filter" s) t = elementId s t := by
    apply elementId_skel
    exact map_skel_removeAttrAt _ _ _ (by decide)
  unfold getAttribute at h
  unfold reattach getAttribute
  dsimp only
  split_ifs with h1 h2 h3
  · rw [hid]
    simp [changeSelectedAttributeNoUndoMethod, setAttribute, removeAttribute, attrOf_setAttrAt,
      length_removeAttrAt, length_setAttrAll, ht]
  · simp only [changeSelectedAttributeNoUndoMethod, attrOf_setAttrAll]
    split_ifs <;> simp [h]
  · rw [hid']
    simp [setAttribute, removeAttribute, attrOf_setAttrAt, length_removeAttrAt, ht]
  · exact h

/-! ## The document after a complete call -/

theorem resolved_selectedElements (v : ℚ) (t : Ref) (s : State) :
    (resolved v t s).selectedElements = s.selectedElements := by
  rw [resolved_frame]

theorem resolved_defs (v : ℚ) (t : Ref) (s : State) : (resolved v t s).defs = s.defs := by
  rw [resolved_frame]

/-- A nonzero preview writes the deviation on the first child of the edited filter and
leaves the target's `filter` attribute pointing at the filter when it already did. -/
theorem setBlurNoUndo_nonzero_doc (v : ℚ) (s : State) (f t : Ref) (sel : List Ref)
    (hf : s.filter = some f) (hsel : s.selectedElements = t :: sel) (hv : v ≠ 0) :
    ∃ s', setBlurNoUndo v s = some s' ∧
      s'.nodes.map skel = s.nodes.map skel ∧
      (t < s.nodes.length → getAttribute s t "filter" = some (blurUrl (elementId s t)) →
        getAttribute s' t "filter" = some (blurUrl (elementId s t))) ∧
      (∀ p, firstChild s f = some p → p < s.nodes.length →
        getAttribute s' p "stdDeviation" = some (.num v)) ∧
      (∀ r k, k ≠ "filter" → k ≠ "stdDeviation" →
        k ≠ "x" → k ≠ "y" → k ≠ "width" → k ≠ "height" →
        getAttribute s' r k = getAttribute s r k) := by
  have h := setBlurNoUndo_nonzero v s f t sel hf hsel hv
  refine ⟨_, h, map_skel_setBlurNoUndo v s _ f t sel hf hsel h, ?_, ?_, ?_⟩
  · intro ht hattr
    rw [attr_setBlurOffsets_other _ _ _ _ _ (Or.inr (by decide))]
    show attrOf (setAttrAll "stdDeviation" _ _ (reattach t s).nodes) t "filter" = _
    rw [attrOf_setAttrAll]
    simp only [show ¬ ("filter" = "stdDeviation") from by decide, false_and, and_false, if_false]
    exact attr_reattach_filter t s ht hattr
  · intro p hp hlt
    rw [attr_setBlurOffsets_other _ _ _ _ _ (Or.inr (by decide))]
    show attrOf (setAttrAll "stdDeviation" _ _ (reattach t s).nodes) p "stdDeviation" = _
    rw [attrOf_setAttrAll, firstChild_skel s _ f (map_skel_reattach t s), hp, length_reattach]
    simp [hlt]
  · intro r k h1 h2 h3 h4 h5 h6
    rw [attr_setBlurOffsets_other _ _ _ _ _ (Or.inr ⟨h3, h4, h5, h6⟩)]
    show attrOf (setAttrAll "stdDeviation" _ _ (reattach t s).nodes) r k = _
    rw [attrOf_setAttrAll]
    simp only [h2, false_and, and_false, if_false]
    exact attr_reattach_other t s r k h1

/-- The state after `setBlur(v, true)` with `v ≠ 0` and no transaction open. -/
theorem setBlur_complete_doc (v : ℚ) (s : State) (t : Ref) (sel : List Ref)
    (hidle : s.curCommand = none) (hsel : s.selectedElements = t :: sel) (hv : v ≠ 0)
    (ht : t < s.nodes.length) :
    ∃ s3 F, setBlur v true s = some s3 ∧ (resolved v t s).filter = some F ∧
      s3.nodes.map skel = (resolved v t s).nodes.map skel ∧
      s3.curCommand = none ∧ s3.filter = none ∧ s3.defs = s.defs ∧
      (∃ rec cmd, s3.history = s.history ++ [rec, cmd]) ∧
      getAttribute s3 t "filter" = some (blurUrl (elementId s t)) ∧
      (∀ p, firstChild (resolved v t s) F = some p → p < (resolved v t s).nodes.length →
        getAttribute s3 p "stdDeviation" = some (.num v)) ∧
      (∀ r k, k ≠ "filter" → k ≠ "stdDeviation" →
        k ≠ "x" → k ≠ "y" → k ≠ "width" → k ≠ "height" →
        getAttribute s3 r k = getAttribute (resolved v t s) r k) := by
  obtain ⟨s1, s2, F, b, sc, rec, h1, hf1, hF, hsel1, hb1, hsc1, hh1, hn1, -, -, h2, h3⟩ :=
    setBlur_complete_steps v s t sel hidle hsel hv
  have hsk1 : s1.nodes.map skel = (resolved v t s).nodes.map skel := by
    rw [hn1, map_skel_setBlurOffsets, map_skel_changeSelectedAttributeMethod]
  have hlen1 : s1.nodes.length = (resolved v t s).nodes.length := length_skel _ _ hsk1
  have htR : t < (resolved v t s).nodes.length := Nat.lt_of_lt_of_le ht (resolved_length v t s)
  have hid1 : elementId s1 t = elementId s t := by
    rw [elementId_skel _ s1 t hsk1, resolved_elementId v t s t ht]
  have hattr1 : ∀ r k, k ≠ "filter" → k ≠ "x" → k ≠ "y" → k ≠ "width" → k ≠ "height" →
      getAttribute s1 r k = getAttribute (resolved v t s) r k := by
    intro r k k1 k2 k3 k4 k5
    unfold getAttribute
    rw [hn1]
    have := attr_setBlurOffsets_other F v
      (changeSelectedAttributeMethod "filter" (blurUrl (elementId s t)) (resolved v t s)) r k
      (Or.inr ⟨k2, k3, k4, k5⟩)
    unfold getAttribute at this
    rw [this]
    show attrOf (setAttrAll "filter" _ _ (resolved v t s).nodes) r k = _
    rw [attrOf_setAttrAll]
    simp [k1]
  have hfil1 : getAttribute s1 t "filter" = some (blurUrl (elementId s1 t)) := by
    rw [hid1]
    unfold getAttribute
    rw [hn1]
    have := attr_setBlurOffsets_other F v
      (changeSelectedAttributeMethod "filter" (blurUrl (elementId s t)) (resolved v t s)) t "filter"
      (Or.inr (by decide))
    unfold getAttribute at this
    rw [this]
    show attrOf (setAttrAll "filter" _ ((resolved v t s).selectedElements.map some)
      (resolved v t s).nodes) t "filter" = _
    rw [attrOf_setAttrAll, resolved_selectedElements, hsel]
    simp [htR]
  obtain ⟨s2', h2', hsk2, hfil2, hdev2, hoth2⟩ :=
    setBlurNoUndo_nonzero_doc v s1 F t sel hf1 hsel1 hv
  rw [h2] at h2'
  cases h2'
  refine ⟨_, F, h3, hF, hsk2.trans hsk1, rfl, rfl, ?_, ⟨_, _, rfl⟩, ?_, ?_, ?_⟩
  · obtain ⟨ns, hfr⟩ := setBlurNoUndo_frame v s1 F t sel hf1 hsel1
    rw [h2] at hfr
    cases hfr
    have h1' := setBlur_open_state v s t sel F hidle hsel hv hF
    rw [h1] at h1'
    cases h1'
    rfl
  · have := hfil2 (by rw [hlen1]; exact htR) hfil1
    rw [hid1] at this
    exact this
  · intro p hp hlt
    exact hdev2 p (by rw [firstChild_skel _ s1 F hsk1]; exact hp) (by rw [hlen1]; exact hlt)
  · intro r k k1 k2 k3 k4 k5 k6
    exact (hoth2 r k k1 k2 k3 k4 k5 k6).trans (hattr1 r k k1 k3 k4 k5 k6)

/-! ## Sequences of `setBlur` calls on a sound document -/

theorem setBlur_sound (v : ℚ) (c : Bool) (s : State) (t : Ref) (sel : List Ref)
    (hst : Steady t sel s) (hs : ResourceSound t s) :
    ∃ s', setBlur v c s = some s' ∧ Steady t sel s' ∧ ResourceSound t s' ∧
      elementId s' t = elementId s t := by
  obtain ⟨s', h, hst', hopen, hidle⟩ := setBlur_steady v c s t sel hst
  refine ⟨s', h, hst', ?_⟩
  cases hcur : s.curCommand with
  | some b =>
    obtain ⟨hn, -⟩ := hopen b hcur
    have hsk : s'.nodes.map skel = s.nodes.map skel := by rw [hn]
    exact ⟨resourceSound_skel t s s' hsk hs, elementId_skel s s' t hsk⟩
  | none =>
    have hsk := hidle hcur
    refine ⟨resourceSound_skel t _ s' hsk (resolved_sound v t s hs), ?_⟩
    rw [elementId_skel _ s' t hsk, resolved_elementId v t s t hs.1]

theorem runSetBlur_sound (calls : List (ℚ × Bool)) (s : State) (t : Ref) (sel : List Ref)
    (hst : Steady t sel s) (hs : ResourceSound t s) :
    ∃ s', runSetBlur calls s = some s' ∧ Steady t sel s' ∧ ResourceSound t s' ∧
      elementId s' t = elementId s t := by
  induction calls generalizing s with
  | nil => exact ⟨s, rfl, hst, hs, rfl⟩
  | cons vc calls ih =>
    obtain ⟨v, c⟩ := vc
    obtain ⟨s1, h1, hst1, hs1, hid1⟩ := setBlur_sound v c s t sel hst hs
    obtain ⟨s2, h2, hst2, hs2, hid2⟩ := ih s1 hst1 hs1
    exact ⟨s2, by simp [runSetBlur, h1, h2], hst2, hs2, hid2.trans hid1⟩

/-! ## The document after the opening call -/

/-- The state after `setBlur(v, false)` with `v ≠ 0` and no transaction open. -/
theorem setBlur_open_doc (v : ℚ) (s : State) (t : Ref) (sel : List Ref)
    (hidle : s.curCommand = none) (hsel : s.selectedElements = t :: sel) (hv : v ≠ 0) :
    ∃ s1 F b sc rec,
      setBlur v false s = some s1 ∧ (resolved v t s).filter = some F ∧
      s1.filter = some F ∧ s1.selectedElements = t :: sel ∧
      s1.curCommand = some b ∧ s1.scopes = sc :: s.scopes ∧ s1.history = s.history ++ [rec] ∧
      s1.isWebkit = s.isWebkit ∧ s1.filterHidden = s.filterHidden ∧ s1.defs = s.defs ∧
      s1.nodes.map skel = (resolved v t s).nodes.map skel ∧
      (∀ r k, k ≠ "filter" → k ≠ "x" → k ≠ "y" → k ≠ "width" → k ≠ "height" →
        getAttribute s1 r k = getAttribute (resolved v t s) r k) ∧
      (t < s.nodes.length →
        getAttribute s1 t "filter" = some (blurUrl (elementId s t)) ∧
        elementId s1 t = elementId s t ∧ filterResource s1 t = some F) := by
  obtain ⟨s1, s2, F, b, sc, rec, h1, hf1, hF, hsel1, hb1, hsc1, hh1, hn1, hw1, hhid1, -, -⟩ :=
    setBlur_complete_steps v s t sel hidle hsel hv
  have hsk1 : s1.nodes.map skel = (resolved v t s).nodes.map skel := by
    rw [hn1, map_skel_setBlurOffsets, map_skel_changeSelectedAttributeMethod]
  have hd1 : s1.defs = s.defs := by
    have h1' := setBlur_open_state v s t sel F hidle hsel hv hF
    rw [h1] at h1'
    cases h1'
    rfl
  refine ⟨s1, F, b, sc, rec, h1, hF, hf1, hsel1, hb1, hsc1, hh1, hw1, hhid1, hd1, hsk1, ?_, ?_⟩
  · intro r k k1 k2 k3 k4 k5
    unfold getAttribute
    rw [hn1]
    have := attr_setBlurOffsets_other F v
      (changeSelectedAttributeMethod "filter" (blurUrl (elementId s t)) (resolved v t s)) r k
      (Or.inr ⟨k2, k3, k4, k5⟩)
    unfold getAttribute at this
    rw [this]
    show attrOf (setAttrAll "filter" _ _ (resolved v t s).nodes) r k = _
    rw [attrOf_setAttrAll]
    simp [k1]
  · intro ht
    have htR : t < (resolved v t s).nodes.length := Nat.lt_of_lt_of_le ht (resolved_length v t s)
    refine ⟨?_, ?_, ?_⟩
    · unfold getAttribute
      rw [hn1]
      have := attr_setBlurOffsets_other F v
        (changeSelectedAttributeMethod "filter" (blurUrl (elementId s t)) (resolved v t s)) t
        "filter" (Or.inr (by decide))
      unfold getAttribute at this
      rw [this]
      show attrOf (setAttrAll "filter" _ ((resolved v t s).selectedElements.map some)
        (resolved v t s).nodes) t "filter" = _
      rw [attrOf_setAttrAll, resolved_selectedElements, hsel]
      simp [htR]
    · rw [elementId_skel _ s1 t hsk1, resolved_elementId v t s t ht]
    · rw [filterResource_skel _ s1 t hsk1, resolved_filterResource v t s ht, hF]

/-! ## Removing an attribute twice -/

theorem removeAttr_idem (k : String) (l : Attrs) :
    removeAttr k (removeAttr k l) = removeAttr k l := by
  induction l with
  | nil => rfl
  | cons p rest ih =>
    obtain ⟨k', v⟩ := p
    by_cases h : k' = k <;> simp [removeAttr, h, ih]

theorem removeAttrAt_idem (e : Ref) (k : String) (ns : List Node) :
    removeAttrAt e k (removeAttrAt e k ns) = removeAttrAt e k ns := by
  apply List.ext_getElem?
  intro i
  unfold removeAttrAt
  rw [getElem?_updateNode, getElem?_updateNode, getElem?_updateNode]
  by_cases hi : i = e
  · subst hi
    cases ns[i]? <;> simp [removeAttr_idem]
  · simp [hi]

/-- With value 0, no transaction open and the target in the document, a second
`setBlur(0, c')` only clears the edited-filter reference. -/
theorem setBlur_zero_twice (c c' : Bool) (s : State) (t : Ref) (sel : List Ref)
    (hidle : s.curCommand = none) (hsel : s.selectedElements = t :: sel)
    (ht : t < s.nodes.length) :
    ∃ s1, setBlur 0 c s = some s1 ∧ s1.curCommand = none ∧
      setBlur 0 c' s1 = some { s1 with filter := none } := by
  have h0 := setBlur_zero c s t sel hidle hsel
  cases hfound : getElem s (elementId s t ++ "_blur") with
  | some f =>
    rw [hfound] at h0
    refine ⟨_, h0, hidle, ?_⟩
    have hsk : (removeAttribute t "filter" (setFilter none s)).nodes.map skel = s.nodes.map skel :=
      map_skel_removeAttrAt t "filter" s.nodes (by decide)
    rw [setBlur_zero c' (removeAttribute t "filter" (setFilter none s)) t sel hidle hsel,
      elementId_skel s _ t hsk, getElem_skel s _ _ hsk, hfound]
    simp only [removeAttribute, setFilter, removeAttrAt_idem]
  | none =>
    rw [hfound] at h0
    have hsk : (removeAttribute t "filter" (createFilter 0 (elementId s t) (setFilter none s))).nodes.map
        skel = (createFilter 0 (elementId s t) (setFilter none s)).nodes.map skel :=
      map_skel_removeAttrAt t "filter" _ (by decide)
    have hid : elementId (createFilter 0 (elementId s t) (setFilter none s)) t = elementId s t := by
      unfold elementId getAttribute
      rw [attrOf_createFilter_old 0 _ (setFilter none s) t "id" ht]
      rfl
    have hcur : (removeAttribute t "filter"
        (createFilter 0 (elementId s t) (setFilter none s))).curCommand = none := by
      rw [createFilter_eq]; exact hidle
    have hsel1 : (removeAttribute t "filter"
        (createFilter 0 (elementId s t) (setFilter none s))).selectedElements = t :: sel := by
      rw [createFilter_eq]; exact hsel
    refine ⟨_, h0, hcur, ?_⟩
    rw [setBlur_zero c' (removeAttribute t "filter"
        (createFilter 0 (elementId s t) (setFilter none s))) t sel hcur hsel1,
      elementId_skel _ _ t hsk, getElem_skel _ _ _ hsk, hid,
      getElem_createFilter 0 (elementId s t) (setFilter none s) hfound]
    simp only [removeAttribute, setFilter, removeAttrAt_idem]

/-! ## Calls of either kind -/

theorem setBlurNoUndo_defer (v : ℚ) (s : State) (hf : s.filter = none) :
    setBlurNoUndo v s = setBlur v false s := by
  unfold setBlurNoUndo setBlurNoUndoWith setBlur
  simp only [hf]
  unfold setBlurWith
  cases s.curCommand with
  | some b => rfl
  | none =>
    simp only [Option.bind_eq_bind]
    cases s.selectedElements.head? with
    | none => rfl
    | some e => rfl

/-- What one `setBlur` call from a steady state does to the hidden flag and to the
edited-filter reference. -/
theorem setBlur_light (v : ℚ) (c : Bool) (s : State) (t : Ref) (sel : List Ref)
    (hst : Steady t sel s) :
    ∃ s', setBlur v c s = some s' ∧ Steady t sel s' ∧
      s'.filterHidden = s.filterHidden ∧
      (∀ b, s'.curCommand = some b → ∃ f, s'.filter = some f) := by
  obtain ⟨hsel, hcs⟩ := hst
  obtain ⟨s', h, hst', -, -⟩ := setBlur_steady v c s t sel ⟨hsel, hcs⟩
  refine ⟨s', h, hst', ?_⟩
  cases hcur : s.curCommand with
  | some b =>
    have hne : s.scopes ≠ [] := by
      rcases hcs with h' | h'
      · rw [hcur] at h'; cases h'
      · exact h'
    obtain ⟨sc, rest, hsc⟩ := List.exists_cons_of_ne_nil hne
    rw [setBlur_of_open v c s b hcur, finishChange_eq s b sc rest hcur hsc] at h
    cases h
    exact ⟨rfl, fun b hb => by cases hb⟩
  | none =>
    by_cases hv : v = 0
    · subst hv
      rw [setBlur_zero c s t sel hcur hsel] at h
      cases hfound : getElem s (elementId s t ++ "_blur") with
      | none =>
        rw [hfound] at h
        cases h
        refine ⟨by rw [createFilter_eq]; rfl, fun b hb => ?_⟩
        rw [createFilter_eq] at hb
        exact absurd (hcur.symm.trans hb) (by simp)
      | some f =>
        rw [hfound] at h
        cases h
        exact ⟨rfl, fun b hb => absurd (hcur.symm.trans hb) (by simp)⟩
    · obtain ⟨s1, s2, F, b, sc, rec, h1, hf1, -, hsel1, -, -, -, -, -, hhid1, h2, h3⟩ :=
        setBlur_complete_steps v s t sel hcur hsel hv
      cases c with
      | false =>
        rw [h1] at h
        cases h
        exact ⟨hhid1, fun _ _ => ⟨F, hf1⟩⟩
      | true =>
        obtain ⟨ns, hfr⟩ := setBlurNoUndo_frame v s1 F t sel hf1 hsel1
        rw [h2] at hfr
        cases hfr
        rw [h3] at h
        cases h
        refine ⟨?_, fun b hb => by cases hb⟩
        simp only [hv, if_false]
        exact hhid1

/-- Ids, read off the skeletons. -/
theorem uniqueIds_skel (s s' : State) (h : s'.nodes.map skel = s.nodes.map skel)
    (hu : UniqueIds s) : UniqueIds s' := by
  intro id i j hi hj
  unfold getAttribute at hi hj
  rw [attrOf_id_skel s.nodes s'.nodes _ h] at hi hj
  exact hu id i j hi hj

theorem findId_none (id : String) (ns : List Node) (i : Nat) (h : findId id ns i = none)
    (r : Ref) : attrOf ns r "id" ≠ some (.str id) := by
  induction ns generalizing i r with
  | nil => simp [attrOf]
  | cons n rest ih =>
    simp only [findId] at h
    split at h
    · cases h
    · rename_i hne
      cases r with
      | zero => simpa [attrOf] using hne
      | succ r' =>
        have := ih (i + 1) h r'
        simpa [attrOf] using this

theorem uniqueIds_resolved (v : ℚ) (t : Ref) (s : State) (hu : UniqueIds s) :
    UniqueIds (resolved v t s) := by
  unfold resolved
  cases hfound : getElem s (elementId s t ++ "_blur") with
  | some f => exact hu
  | none =>
    have hno := findId_none _ _ _ hfound
    have hval : ∀ (id : String) (i : Ref),
        getAttribute (createFilter v (elementId s t) (setFilter none s)) i "id" = some (.str id) →
        (i < s.nodes.length ∧ getAttribute s i "id" = some (.str id)) ∨
        (i = s.nodes.length + 1 ∧ id = elementId s t ++ "_blur") := by
      intro id i hi
      unfold getAttribute at hi
      rw [createFilter_nodes] at hi
      simp only [attrOf_appendAt, attrOf_snoc, List.length_append, List.length_singleton,
        setFilter] at hi
      by_cases h1 : i < s.nodes.length
      · have h2 : i < s.nodes.length + 1 := Nat.lt_succ_of_lt h1
        simp only [h1, h2, if_true] at hi
        exact Or.inl ⟨h1, hi⟩
      · by_cases h2 : i < s.nodes.length + 1
        · simp [h1, h2, getAttr] at hi
        · by_cases h3 : i = s.nodes.length + 1
          · simp [h1, h2, h3, getAttr] at hi
            exact Or.inr ⟨h3, hi.symm⟩
          · simp [h1, h2, h3] at hi
    intro id i j hi hj
    rcases hval id i hi with ⟨-, hi'⟩ | ⟨hi1, hi2⟩ <;> rcases hval id j hj with ⟨-, hj'⟩ | ⟨hj1, hj2⟩
    · exact hu id i j hi' hj'
    · subst hj2
      exact absurd hi' (hno i)
    · subst hi2
      exact absurd hj' (hno j)
    · rw [hi1, hj1]

theorem setBlur_uniqueIds (v : ℚ) (c : Bool) (s s' : State) (t : Ref) (sel : List Ref)
    (hst : Steady t sel s) (h : setBlur v c s = some s') (hu : UniqueIds s) : UniqueIds s' := by
  obtain ⟨s'', h', -, hopen, hidle⟩ := setBlur_steady v c s t sel hst
  rw [h] at h'
  cases h'
  cases hcur : s.curCommand with
  | some b =>
    obtain ⟨hn, -⟩ := hopen b hcur
    exact uniqueIds_skel s s' (by rw [hn]) hu
  | none => exact uniqueIds_skel _ s' (hidle hcur) (uniqueIds_resolved v t s hu)

/-- One call of either kind, from a steady state: the call returns, in a steady state
in which a current command comes with an edited-filter reference; the hidden flag, once
true, stays true; ids stay unique. -/
theorem call_light (c : Call) (s : State) (t : Ref) (sel : List Ref)
    (hst : Steady t sel s) :
    ∃ s', c.run s = some s' ∧ Steady t sel s' ∧
      (∀ b, s'.curCommand = some b → ∃ f, s'.filter = some f) ∧
      (s.filterHidden = true → s'.filterHidden = true) ∧
      (UniqueIds s → UniqueIds s') := by
  have hsb : ∀ v c', ∃ s', setBlur v c' s = some s' ∧ Steady t sel s' ∧
      (∀ b, s'.curCommand = some b → ∃ f, s'.filter = some f) ∧
      (s.filterHidden = true → s'.filterHidden = true) ∧
      (UniqueIds s → UniqueIds s') := by
    intro v c'
    obtain ⟨s', h, hst', hhid, hl'⟩ := setBlur_light v c' s t sel hst
    exact ⟨s', h, hst', hl', fun hh => hhid.trans hh,
      fun hu => setBlur_uniqueIds v c' s s' t sel hst h hu⟩
  cases c with
  | setBlur v c' => exact hsb v c'
  | setBlurNoUndo v =>
    show ∃ s', setBlurNoUndo v s = some s' ∧ _
    cases hf : s.filter with
    | none =>
      rw [setBlurNoUndo_defer v s hf]
      exact hsb v false
    | some f =>
      obtain ⟨ns, h⟩ := setBlurNoUndo_frame v s f t sel hf hst.1
      have hsk := map_skel_setBlurNoUndo v s _ f t sel hf hst.1 h
      refine ⟨_, h, ⟨hst.1, hst.2⟩, fun b hb => ⟨f, hf⟩, ?_, fun hu => uniqueIds_skel s _ hsk hu⟩
      intro hh
      show (if v = 0 then true else s.filterHidden) = true
      split_ifs
      · rfl
      · exact hh

/-- Any sequence of calls from such a state. -/
theorem runCalls_light (calls : List Call) (s : State) (t : Ref) (sel : List Ref)
    (hst : Steady t sel s) (hl : ∀ b, s.curCommand = some b → ∃ f, s.filter = some f) :
    ∃ s', runCalls calls s = some s' ∧ Steady t sel s' ∧
      (∀ b, s'.curCommand = some b → ∃ f, s'.filter = some f) ∧
      (s.filterHidden = true → s'.filterHidden = true) ∧
      (UniqueIds s → UniqueIds s') := by
  induction calls generalizing s with
  | nil => exact ⟨s, rfl, hst, hl, id, id⟩
  | cons c calls ih =>
    obtain ⟨s1, h1, hst1, hl1, hh1, hu1⟩ := call_light c s t sel hst
    obtain ⟨s2, h2, hst2, hl2, hh2, hu2⟩ := ih s1 hst1 hl1
    exact ⟨s2, by simp [runCalls, h1, h2], hst2, hl2, fun h => hh2 (hh1 h), fun h => hu2 (hu1 h)⟩

theorem runCalls_append (calls calls' : List Call) (s : State) :
    runCalls (calls ++ calls') s = (runCalls calls s).bind (runCalls calls') := by
  induction calls generalizing s with
  | nil => rfl
  | cons c calls ih =>
    simp only [List.cons_append, runCalls]
    cases c.run s with
    | none => rfl
    | some s1 => simp [ih s1]

/-- With the hidden flag set, reattaching writes the filter reference on the target. -/
theorem attr_reattach_hidden (t : Ref) (sel : List Ref) (s : State)
    (hh : s.filterHidden = true) (hsel : s.selectedElements = t :: sel)
    (ht : t < s.nodes.length) :
    getAttribute (reattach t s) t "filter" = some (blurUrl (elementId s t)) := by
  have hid : ∀ (u : Value) (es : List (Option Ref)),
      elementId (removeAttribute t "filter"
        (changeSelectedAttributeNoUndoMethod "filter" u es s)) t = elementId s t := by
    intro u es
    apply elementId_skel
    show (removeAttrAt t "filter" (setAttrAll "filter" u es s.nodes)).map skel = _
    rw [map_skel_removeAttrAt _ _ _ (by decide), map_skel_setAttrAll _ _ _ _ (by decide)]
  unfold reattach getAttribute
  dsimp only
  simp only [hh, if_true]
  split_ifs
  · rw [hid]
    simp [changeSelectedAttributeNoUndoMethod, setAttribute, removeAttribute, attrOf_setAttrAt,
      length_removeAttrAt, length_setAttrAll, ht]
  · simp only [changeSelectedAttributeNoUndoMethod, attrOf_setAttrAll, hsel]
    simp [ht]

/-- A nonzero preview with the hidden flag set: the filter reference is written on the
target again, without a record. -/
theorem setBlurNoUndo_hidden (v : ℚ) (s : State) (f t : Ref) (sel : List Ref)
    (hf : s.filter = some f) (hsel : s.selectedElements = t :: sel) (hv : v ≠ 0)
    (hh : s.filterHidden = true) :
    ∃ s', setBlurNoUndo v s = some s' ∧ s'.filterHidden = true ∧
      (t < s.nodes.length → getAttribute s' t "filter" = some (blurUrl (elementId s t))) ∧
      s'.tracked = s.tracked ∧ s'.history = s.history ∧ s'.curCommand = s.curCommand := by
  have h := setBlurNoUndo_nonzero v s f t sel hf hsel hv
  obtain ⟨ns, hfr⟩ := setBlurNoUndo_frame v s f t sel hf hsel
  refine ⟨_, h, ?_, ?_, ?_, ?_, ?_⟩
  · rw [h] at hfr
    have := congrArg (Option.map State.filterHidden) hfr
    simp only [Option.map_some', hv, if_false, Option.some.injEq] at this
    rw [this]; exact hh
  · intro ht
    rw [attr_setBlurOffsets_other _ _ _ _ _ (Or.inr (by decide))]
    show attrOf (setAttrAll "stdDeviation" _ _ (reattach t s).nodes) t "filter" = _
    rw [attrOf_setAttrAll]
    simp only [show ¬ ("filter" = "stdDeviation") from by decide, false_and, and_false, if_false]
    exact attr_reattach_hidden t sel s hh hsel ht
  · rw [h] at hfr
    have := congrArg (Option.map State.tracked) hfr
    simpa using this
  · rw [h] at hfr
    have := congrArg (Option.map State.history) hfr
    simpa using this
  · rw [h] at hfr
    have := congrArg (Option.map State.curCommand) hfr
    simpa using this

/-- A call adds nodes to the document only when the lookup of the target's filter finds
none, and then the one new node with an id has the id `<targetId>_blur`. -/
theorem call_creation (c : Call) (s : State) (t : Ref) (sel : List Ref)
    (hst : Steady t sel s) :
    ∃ s', c.run s = some s' ∧
      (s'.nodes.length = s.nodes.length ∨
        (filterResource s t = none ∧ s'.nodes.length = s.nodes.length + 2 ∧
          getAttribute s' s.nodes.length "id" = none ∧
          getAttribute s' (s.nodes.length + 1) "id" =
            some (.str (elementId s t ++ "_blur")))) := by
  have hsb : ∀ v c', ∃ s', setBlur v c' s = some s' ∧
      (s'.nodes.length = s.nodes.length ∨
        (filterResource s t = none ∧ s'.nodes.length = s.nodes.length + 2 ∧
          getAttribute s' s.nodes.length "id" = none ∧
          getAttribute s' (s.nodes.length + 1) "id" =
            some (.str (elementId s t ++ "_blur")))) := by
    intro v c'
    obtain ⟨s', h, -, hopen, hidle⟩ := setBlur_steady v c' s t sel hst
    refine ⟨s', h, ?_⟩
    cases hcur : s.curCommand with
    | some b => exact Or.inl (by rw [(hopen b hcur).1])
    | none =>
      have hsk := hidle hcur
      cases hfound : getElem s (elementId s t ++ "_blur") with
      | some f =>
        left
        rw [length_skel _ _ hsk]
        unfold resolved
        rw [hfound]
        rfl
      | none =>
        right
        have hR : resolved v t s = createFilter v (elementId s t) (setFilter none s) := by
          unfold resolved
          rw [hfound]
        rw [hR] at hsk
        refine ⟨hfound, ?_, ?_, ?_⟩
        · rw [length_skel _ _ hsk]
          exact length_createFilter v _ (setFilter none s)
        · unfold getAttribute
          rw [attrOf_id_skel _ _ _ hsk]
          have := attrOf_createFilter_blur v (elementId s t) (setFilter none s) "id"
          simp only [setFilter] at this ⊢
          rw [this]
          simp [getAttr]
        · unfold getAttribute
          rw [attrOf_id_skel _ _ _ hsk]
          have := attrOf_createFilter_filter v (elementId s t) (setFilter none s) "id"
          simp only [setFilter] at this ⊢
          rw [this]
          simp [getAttr]
  cases c with
  | setBlur v c' => exact hsb v c'
  | setBlurNoUndo v =>
    show ∃ s', setBlurNoUndo v s = some s' ∧ _
    cases hf : s.filter with
    | none =>
      rw [setBlurNoUndo_defer v s hf]
      exact hsb v false
    | some f =>
      obtain ⟨ns, h⟩ := setBlurNoUndo_frame v s f t sel hf hst.1
      have hsk := map_skel_setBlurNoUndo v s _ f t sel hf hst.1 h
      exact ⟨_, h, Or.inl (length_skel _ _ hsk)⟩

/-! ## The drag invariant -/

/-- A `setBlur` call from a steady state leaves no current command, unless it is an
opening call. -/
theorem setBlur_result_cases (v : ℚ) (c : Bool) (s s' : State) (t : Ref) (sel : List Ref)
    (hst : Steady t sel s) (h : setBlur v c s = some s') :
    s'.curCommand = none ∨ (s.curCommand = none ∧ v ≠ 0 ∧ c = false) := by
  obtain ⟨hsel, hcs⟩ := hst
  cases hcur : s.curCommand with
  | some b =>
    obtain ⟨s'', h', -, hopen, -⟩ := setBlur_steady v c s t sel ⟨hsel, hcs⟩
    rw [h] at h'
    cases h'
    exact Or.inl (hopen b hcur).2
  | none =>
    by_cases hv : v = 0
    · subst hv
      rw [setBlur_zero c s t sel hcur hsel] at h
      cases hfound : getElem s (elementId s t ++ "_blur") with
      | none =>
        rw [hfound] at h
        cases h
        left
        rw [createFilter_eq]; exact hcur
      | some f =>
        rw [hfound] at h
        cases h
        exact Or.inl hcur
    · cases c with
      | false => exact Or.inr ⟨rfl, hv, rfl⟩
      | true =>
        obtain ⟨s1, s2, F, b, sc, rec, -, -, -, -, -, -, -, -, -, -, -, h3⟩ :=
          setBlur_complete_steps v s t sel hcur hsel hv
        rw [h3] at h
        cases h
        exact Or.inl rfl

theorem setBlur_dragging (v : ℚ) (c : Bool) (s s' : State) (t : Ref) (sel : List Ref)
    (hst : Steady t sel s) (ht : t < s.nodes.length) (h : setBlur v c s = some s') :
    Dragging t s' := by
  rcases setBlur_result_cases v c s s' t sel hst h with hnone | ⟨hidle, hv, hc⟩
  · intro b hb
    rw [hnone] at hb
    cases hb
  · subst hc
    obtain ⟨s1, F, b, sc, rec, h1, -, hf1, -, -, -, -, -, -, -, -, -, hdoc⟩ :=
      setBlur_open_doc v s t sel hidle hst.1 hv
    rw [h] at h1
    cases h1
    obtain ⟨hfil, hid, hfr⟩ := hdoc ht
    intro _ _
    exact ⟨⟨F, hf1, hfr⟩, Or.inr (by rw [hid]; exact hfil)⟩

theorem setBlurNoUndo_dragging (v : ℚ) (s s' : State) (f t : Ref) (sel : List Ref)
    (hf : s.filter = some f) (hsel : s.selectedElements = t :: sel) (ht : t < s.nodes.length)
    (hd : Dragging t s) (h : setBlurNoUndo v s = some s') : Dragging t s' := by
  have hsk := map_skel_setBlurNoUndo v s s' f t sel hf hsel h
  obtain ⟨ns, hfr⟩ := setBlurNoUndo_frame v s f t sel hf hsel
  rw [h] at hfr
  have hcur : s'.curCommand = s.curCommand := by
    have := congrArg (Option.map State.curCommand) hfr
    simpa using this
  have hfil : s'.filter = s.filter := by
    have := congrArg (Option.map State.filter) hfr
    simpa using this
  have hhid : s'.filterHidden = (if v = 0 then true else s.filterHidden) := by
    have := congrArg (Option.map State.filterHidden) hfr
    simpa using this
  intro b hb
  rw [hcur] at hb
  obtain ⟨⟨f', hf', hres'⟩, hor⟩ := hd b hb
  refine ⟨⟨f', by rw [hfil]; exact hf', by rw [filterResource_skel s s' t hsk]; exact hres'⟩, ?_⟩
  by_cases hv : v = 0
  · left
    rw [hhid]
    simp [hv]
  · rcases hor with hh | hattr
    · left
      rw [hhid]
      simp [hv, hh]
    · right
      obtain ⟨s'', h'', -, hkeep, -, -⟩ := setBlurNoUndo_nonzero_doc v s f t sel hf hsel hv
      rw [h] at h''
      cases h''
      rw [elementId_skel s s' t hsk]
      exact hkeep ht hattr

/-- One call of either kind keeps the drag invariant on a sound document. -/
theorem call_full (c : Call) (s : State) (t : Ref) (sel : List Ref)
    (hst : Steady t sel s) (hs : ResourceSound t s) (hd : Dragging t s) :
    ∃ s', c.run s = some s' ∧ Steady t sel s' ∧ ResourceSound t s' ∧ Dragging t s' ∧
      elementId s' t = elementId s t := by
  have hsb : ∀ v c', ∃ s', setBlur v c' s = some s' ∧ Steady t sel s' ∧ ResourceSound t s' ∧
      Dragging t s' ∧ elementId s' t = elementId s t := by
    intro v c'
    obtain ⟨s', h, hst', hs', hid'⟩ := setBlur_sound v c' s t sel hst hs
    exact ⟨s', h, hst', hs', setBlur_dragging v c' s s' t sel hst hs.1 h, hid'⟩
  cases c with
  | setBlur v c' => exact hsb v c'
  | setBlurNoUndo v =>
    show ∃ s', setBlurNoUndo v s = some s' ∧ _
    cases hf : s.filter with
    | none =>
      rw [setBlurNoUndo_defer v s hf]
      exact hsb v false
    | some f =>
      obtain ⟨ns, h⟩ := setBlurNoUndo_frame v s f t sel hf hst.1
      have hsk := map_skel_setBlurNoUndo v s _ f t sel hf hst.1 h
      exact ⟨_, h, ⟨hst.1, hst.2⟩, resourceSound_skel t s _ hsk hs,
        setBlurNoUndo_dragging v s _ f t sel hf hst.1 hs.1 hd h, elementId_skel s _ t hsk⟩

theorem runCalls_full (calls : List Call) (s : State) (t : Ref) (sel : List Ref)
    (hst : Steady t sel s) (hs : ResourceSound t s) (hd : Dragging t s) :
    ∃ s', runCalls calls s = some s' ∧ Steady t sel s' ∧ ResourceSound t s' ∧ Dragging t s' ∧
      elementId s' t = elementId s t := by
  induction calls generalizing s with
  | nil => exact ⟨s, rfl, hst, hs, hd, rfl⟩
  | cons c calls ih =>
    obtain ⟨s1, h1, hst1, hs1, hd1, hid1⟩ := call_full c s t sel hst hs hd
    obtain ⟨s2, h2, hst2, hs2, hd2, hid2⟩ := ih s1 hst1 hs1 hd1
    exact ⟨s2, by simp [runCalls, h1, h2], hst2, hs2, hd2, hid2.trans hid1⟩

/-- The element a lookup finds is a node of the document. -/
theorem getElem_lt (s : State) (id : String) (f : Nat) (h : getElem s id = some f) :
    f < s.nodes.length := by
  have := findId_lt id s.nodes 0 f h
  omega

/-- The region attributes of the edited filter after a nonzero preview. -/
theorem setBlurNoUndo_region (v : ℚ) (s : State) (f t : Ref) (sel : List Ref)
    (hf : s.filter = some f) (hsel : s.selectedElements = t :: sel) (hv : v ≠ 0)
    (hflt : f < s.nodes.length) :
    ∃ s', setBlurNoUndo v s = some s' ∧
      (3 < v →
        getAttribute s' f "x" = some (.str "-50%") ∧ getAttribute s' f "y" = some (.str "-50%") ∧
        getAttribute s' f "width" = some (.str "200%") ∧
        getAttribute s' f "height" = some (.str "200%")) ∧
      (v ≤ 3 → s.isWebkit = false →
        getAttribute s' f "x" = none ∧ getAttribute s' f "y" = none ∧
        getAttribute s' f "width" = none ∧ getAttribute s' f "height" = none) ∧
      (v ≤ 3 → s.isWebkit = true →
        getAttribute s' f "x" = getAttribute s f "x" ∧
        getAttribute s' f "y" = getAttribute s f "y" ∧
        getAttribute s' f "width" = getAttribute s f "width" ∧
        getAttribute s' f "height" = getAttribute s f "height") := by
  have h := setBlurNoUndo_nonzero v s f t sel hf hsel hv
  have hw : (changeSelectedAttributeNoUndoMethod "stdDeviation" (.num v)
      [firstChild (reattach t s) f] (reattach t s)).isWebkit = s.isWebkit := by
    show (reattach t s).isWebkit = s.isWebkit
    rw [reattach_frame]
  have hlen : f < (changeSelectedAttributeNoUndoMethod "stdDeviation" (.num v)
      [firstChild (reattach t s) f] (reattach t s)).nodes.length := by
    show f < (setAttrAll _ _ _ (reattach t s).nodes).length
    rw [length_setAttrAll, length_reattach]
    exact hflt
  have hkeep : ∀ k, k ≠ "filter" → k ≠ "stdDeviation" →
      getAttribute (changeSelectedAttributeNoUndoMethod "stdDeviation" (.num v)
        [firstChild (reattach t s) f] (reattach t s)) f k = getAttribute s f k := by
    intro k k1 k2
    show attrOf (setAttrAll "stdDeviation" _ _ (reattach t s).nodes) f k = _
    rw [attrOf_setAttrAll]
    simp only [k2, false_and, and_false, if_false]
    exact attr_reattach_other t s f k k1
  refine ⟨_, h, fun h3 => attr_setBlurOffsets_large f v _ h3 hlen,
    fun h3 hwf => attr_setBlurOffsets_small f v _ h3 (hw.trans hwf), fun h3 hwt => ?_⟩
  rw [setBlurOffsets_small_webkit f v _ h3 (hw.trans hwt)]
  exact ⟨hkeep "x" (by decide) (by decide), hkeep "y" (by decide) (by decide),
    hkeep "width" (by decide) (by decide), hkeep "height" (by decide) (by decide)⟩

/-! ## Sequences of `setBlur` calls and the attached filter -/

theorem findId_attr (id : String) (ns : List Node) (i r : Nat) (h : findId id ns i = some r) :
    ∃ j, r = i + j ∧ attrOf ns j "id" = some (.str id) := by
  induction ns generalizing i with
  | nil => simp [findId] at h
  | cons n rest ih =>
    simp only [findId] at h
    split at h
    · rename_i hn
      cases h
      exact ⟨0, rfl, by simpa [attrOf] using hn⟩
    · obtain ⟨j, hj, hattr⟩ := ih (i + 1) h
      refine ⟨j + 1, by omega, ?_⟩
      simpa [attrOf] using hattr

theorem filterResource_id (s : State) (t f : Ref) (h : filterResource s t = some f) :
    getAttribute s f "id" = some (.str (elementId s t ++ "_blur")) := by
  unfold filterResource getElem at h
  unfold getAttribute
  obtain ⟨j, hj, hattr⟩ := findId_attr _ s.nodes 0 f h
  have : f = j := hj.trans (Nat.zero_add j)
  rw [this]
  exact hattr

theorem resolved_created (v : ℚ) (t : Ref) (s : State) (hnone : filterResource s t = none) :
    (resolved v t s).filter = some (s.nodes.length + 1) ∧
    firstChild (resolved v t s) (s.nodes.length + 1) = some s.nodes.length ∧
    getAttribute (resolved v t s) s.nodes.length "stdDeviation" = some (.num v) ∧
    s.nodes.length < (resolved v t s).nodes.length := by
  have hR : resolved v t s = createFilter v (elementId s t) (setFilter none s) := by
    unfold filterResource at hnone
    unfold resolved
    rw [hnone]
  refine ⟨?_, ?_, ?_, ?_⟩
  rotate_right
  · rw [hR]
    exact Nat.lt_of_lt_of_le (Nat.lt_succ_self _)
      (Nat.le_of_lt (by rw [length_createFilter]; exact Nat.lt_succ_self _))
  · rw [hR, createFilter_eq]
    rfl
  · rw [firstChild_eq_kidsAt, hR]
    have := kidsAt_createFilter_filter v (elementId s t) (setFilter none s)
    simp only [setFilter] at this ⊢
    rw [this]
    by_cases hd : s.nodes.length + 1 = s.defs <;> simp [hd]
  · rw [hR]
    unfold getAttribute
    have := attrOf_createFilter_blur v (elementId s t) (setFilter none s) "stdDeviation"
    simp only [setFilter] at this ⊢
    rw [this]
    simp [getAttr]

theorem setBlur_open_deviation (v : ℚ) (s : State) (t : Ref) (sel : List Ref)
    (hidle : s.curCommand = none) (hsel : s.selectedElements = t :: sel) (hv : v ≠ 0)
    (ht : t < s.nodes.length) :
    ∃ s1 F, setBlur v false s = some s1 ∧
      getAttribute s1 t "filter" = some (blurUrl (elementId s t)) ∧
      filterResource s1 t = some F ∧
      (filterResource s t = none → blurDeviation s1 t = some (.num v)) ∧
      (∀ f, filterResource s t = some f → blurDeviation s1 t = blurDeviation s t) := by
  obtain ⟨s1, F, b, sc, rec, h1, hF, -, -, -, -, -, -, -, -, hsk, hoth, hdoc⟩ :=
    setBlur_open_doc v s t sel hidle hsel hv
  obtain ⟨hfil, -, hfr⟩ := hdoc ht
  have hdev : ∀ r, getAttribute s1 r "stdDeviation" =
      getAttribute (resolved v t s) r "stdDeviation" :=
    fun r => hoth r "stdDeviation" (by decide) (by decide) (by decide) (by decide) (by decide)
  refine ⟨s1, F, h1, hfil, hfr, ?_, ?_⟩
  · intro hnone
    obtain ⟨hF', hkid, hattr, -⟩ := resolved_created v t s hnone
    rw [hF'] at hF
    cases hF
    unfold blurDeviation
    rw [hfr]
    simp only [Option.some_bind]
    rw [firstChild_skel _ s1 _ hsk, hkid]
    simp only [Option.some_bind]
    rw [hdev, hattr]
  · intro f hres
    have hR : resolved v t s = setFilter (some f) s := by
      unfold filterResource at hres
      unfold resolved
      rw [hres]
    rw [hR] at hF hsk hdev
    have hFf : F = f := by
      simp only [setFilter, Option.some.injEq] at hF
      exact hF.symm
    subst hFf
    unfold blurDeviation
    rw [hfr, hres]
    simp only [Option.some_bind]
    rw [firstChild_skel (setFilter (some F) s) s1 F hsk]
    show ((firstChild s F).bind fun p => getAttribute s1 p "stdDeviation") = _
    cases firstChild s F with
    | none => rfl
    | some p => exact hdev p

theorem setBlur_attached (v : ℚ) (c : Bool) (s s' : State) (t : Ref) (sel : List Ref)
    (hst : Steady t sel s) (ht : t < s.nodes.length) (h : setBlur v c s = some s') :
    ∀ b, s'.curCommand = some b →
      getAttribute s' t "filter" = some (blurUrl (elementId s' t)) ∧
      ∃ f, filterResource s' t = some f := by
  intro b hb
  rcases setBlur_result_cases v c s s' t sel hst h with hn | ⟨hidle, hv, hc⟩
  · rw [hn] at hb
    cases hb
  · subst hc
    obtain ⟨s1, F, b1, sc, rec, h1, -, -, -, -, -, -, -, -, -, -, -, hdoc⟩ :=
      setBlur_open_doc v s t sel hidle hst.1 hv
    rw [h] at h1
    cases h1
    obtain ⟨hfil, hid, hfr⟩ := hdoc ht
    rw [hid]
    exact ⟨hfil, F, hfr⟩

theorem setBlur_target (v : ℚ) (c : Bool) (s s' : State) (t : Ref) (sel : List Ref)
    (hst : Steady t sel s) (ht : t < s.nodes.length) (h : setBlur v c s = some s') :
    t < s'.nodes.length ∧ elementId s' t = elementId s t := by
  obtain ⟨s1, h1, -, hopen, hidle⟩ := setBlur_steady v c s t sel hst
  rw [h] at h1
  cases h1
  cases hc : s.curCommand with
  | some b =>
    obtain ⟨hn, -⟩ := hopen b hc
    refine ⟨by rw [hn]; exact ht, ?_⟩
    unfold elementId getAttribute
    rw [hn]
  | none =>
    have hsk := hidle hc
    refine ⟨?_, ?_⟩
    · rw [length_skel _ _ hsk]
      exact Nat.lt_of_lt_of_le ht (resolved_length v t s)
    · rw [elementId_skel _ s' t hsk, resolved_elementId v t s t ht]

theorem runSetBlur_attached (calls : List (ℚ × Bool)) (s : State) (t : Ref) (sel : List Ref)
    (hst : Steady t sel s) (ht : t < s.nodes.length)
    (ha : ∀ b, s.curCommand = some b →
      getAttribute s t "filter" = some (blurUrl (elementId s t)) ∧
      ∃ f, filterResource s t = some f) :
    ∃ s', runSetBlur calls s = some s' ∧ Steady t sel s' ∧ t < s'.nodes.length ∧
      elementId s' t = elementId s t ∧
      (∀ b, s'.curCommand = some b →
        getAttribute s' t "filter" = some (blurUrl (elementId s' t)) ∧
        ∃ f, filterResource s' t = some f) ∧
      (UniqueIds s → UniqueIds s') := by
  induction calls generalizing s with
  | nil => exact ⟨s, rfl, hst, ht, rfl, ha, id⟩
  | cons vc rest ih =>
    obtain ⟨v, c⟩ := vc
    obtain ⟨s1, h1, hst1, -, -⟩ := setBlur_steady v c s t sel hst
    obtain ⟨ht1, hid1⟩ := setBlur_target v c s s1 t sel hst ht h1
    obtain ⟨s2, h2, hst2, ht2, hid2, ha2, hu2⟩ :=
      ih s1 hst1 ht1 (setBlur_attached v c s s1 t sel hst ht h1)
    refine ⟨s2, ?_, hst2, ht2, hid2.trans hid1, ha2,
      fun hu => hu2 (setBlur_uniqueIds v c s s1 t sel hst h1 hu)⟩
    simp only [runSetBlur, h1, Option.some_bind]
    exact h2

/-! ## Claims -/

/-- C1, as stated, fails: on `rect1Doc` (empty history, no current command) the drag
`setBlur(5, false)`, previews 6 and 7, `setBlur(7, true)` leaves two history entries, not
one; and on the document left by scenario A (two history entries) the drag of scenario
B, `setBlur(8, false)`, previews 9 and 10, `setBlur(10, true)`, adds two entries as well.
The opening call already leaves one, because its tracked write of the `filter` attribute
records into history, and the closing call pushes the composite. -/
theorem C1_counterexample :
    rect1Doc.curCommand = none ∧ rect1Doc.history = [] ∧
    (setBlur 5 false rect1Doc).map (fun s => s.history.length) = some 1 ∧
    (dragSequence 5 [6, 7] 7 true rect1Doc).map (fun s => s.history.length) = some 2 ∧
    blurredDoc.curCommand = none ∧ blurredDoc.history.length = 2 ∧
    (setBlur 8 false blurredDoc).map (fun s => s.history.length) = some 3 ∧
    (dragSequence 8 [9, 10] 10 true blurredDoc).map (fun s => s.history.length) = some 4 := by
  decide

/-- C1, amended: in a drag started with no current command, `setBlur(v1, false)` with
`v1 ≠ 0`, then any previews `setBlurNoUndo(vi)`, then a closing `setBlur(vn, c)`, the
opening call adds one history entry, the record of its tracked write of the `filter`
attribute; the previews add none; the closing call pushes one, the composite command,
which is the last entry; so two entries are added over the sequence, and afterwards the
current command and the edited-filter reference are both cleared. In scenario B
(resource with deviation 5; `setBlur(8, false)`, previews 9 and 10, `setBlur(10, true)`)
the final deviation on the blur primitive is 10. -/
theorem C1_drag_history_entries (s : State) (t : Ref) (sel : List Ref)
    (v1 : ℚ) (vs : List ℚ) (vn : ℚ) (c : Bool)
    (hidle : s.curCommand = none) (hsel : s.selectedElements = t :: sel) (hv1 : v1 ≠ 0) :
    (∃ s1 s2 s3 cmd,
      setBlur v1 false s = some s1 ∧
      s1.history = s.history ++
        [trackedEntry "filter" (blurUrl (elementId s t)) (resolved v1 t s)] ∧
      previews vs s1 = some s2 ∧ s2.history = s1.history ∧
      setBlur vn c s2 = some s3 ∧ s3.history = s2.history ++ [cmd] ∧
      s3.history = s.history ++
        [trackedEntry "filter" (blurUrl (elementId s t)) (resolved v1 t s), cmd] ∧
      s3.curCommand = none ∧ s3.filter = none ∧
      dragSequence v1 vs vn c s = some s3) ∧
    scenarioA.map (fun a => blurDeviation a 1) = some (some (.num 5)) ∧
    scenarioB.map (fun b => blurDeviation b 1) = some (some (.num 10)) := by
  refine ⟨?_, by decide, by decide⟩
  obtain ⟨F, hF⟩ : ∃ F, (resolved v1 t s).filter = some F := ⟨_, resolved_filter v1 t s⟩
  have h1 := setBlur_open_state v1 s t sel F hidle hsel hv1 hF
  obtain ⟨ns, hid, h2⟩ := previews_frame vs _ F t sel
    (show ({ s with nodes := (setBlurOffsets F v1 (changeSelectedAttributeMethod "filter" (blurUrl (elementId s t)) (resolved v1 t s))).nodes, filter := some F, curCommand := some (insertion t s ++ [ChangeElementCommand (changeSelectedAttributeMethod "filter" (blurUrl (elementId s t)) (resolved v1 t s)) t [("filter", getAttribute s t "filter")]]), scopes := newScope (setBlurOffsets F v1 (changeSelectedAttributeMethod "filter" (blurUrl (elementId s t)) (resolved v1 t s))) "stdDeviation" [firstChild (setBlurOffsets F v1 (changeSelectedAttributeMethod "filter" (blurUrl (elementId s t)) (resolved v1 t s))) F] :: s.scopes, history := s.history ++ [trackedEntry "filter" (blurUrl (elementId s t)) (resolved v1 t s)], tracked := s.tracked ++ [("filter", blurUrl (elementId s t), s.selectedElements)] } : State).filter = some F from rfl) hsel
  have h3 := (setBlur_of_open vn c _ _ rfl).trans (finishChange_eq
    ({ ({ s with nodes := (setBlurOffsets F v1 (changeSelectedAttributeMethod "filter" (blurUrl (elementId s t)) (resolved v1 t s))).nodes, filter := some F, curCommand := some (insertion t s ++ [ChangeElementCommand (changeSelectedAttributeMethod "filter" (blurUrl (elementId s t)) (resolved v1 t s)) t [("filter", getAttribute s t "filter")]]), scopes := newScope (setBlurOffsets F v1 (changeSelectedAttributeMethod "filter" (blurUrl (elementId s t)) (resolved v1 t s))) "stdDeviation" [firstChild (setBlurOffsets F v1 (changeSelectedAttributeMethod "filter" (blurUrl (elementId s t)) (resolved v1 t s))) F] :: s.scopes, history := s.history ++ [trackedEntry "filter" (blurUrl (elementId s t)) (resolved v1 t s)], tracked := s.tracked ++ [("filter", blurUrl (elementId s t), s.selectedElements)] } : State) with nodes := ns, filterHidden := hid }) _ _ s.scopes rfl rfl)
  refine ⟨_, _, _, _, h1, rfl, h2, rfl, h3, rfl, ?_, rfl, rfl, ?_⟩
  · simp
  · simp only [dragSequence, h1, h2, Option.some_bind]
    exact h3

/-- Witness of C1: the drag of scenario B on the document left by scenario A. -/
theorem C1_witness :
    (blurredDoc.curCommand = none ∧ blurredDoc.selectedElements = [1] ∧ (8 : ℚ) ≠ 0) ∧
    (∃ s1 s2 s3 cmd,
      setBlur 8 false blurredDoc = some s1 ∧
      s1.history = blurredDoc.history ++
        [trackedEntry "filter" (blurUrl (elementId blurredDoc 1)) (resolved 8 1 blurredDoc)] ∧
      previews [9, 10] s1 = some s2 ∧ s2.history = s1.history ∧
      setBlur 10 true s2 = some s3 ∧ s3.history = s2.history ++ [cmd] ∧
      s3.history = blurredDoc.history ++
        [trackedEntry "filter" (blurUrl (elementId blurredDoc 1)) (resolved 8 1 blurredDoc), cmd] ∧
      s3.curCommand = none ∧ s3.filter = none ∧
      dragSequence 8 [9, 10] 10 true blurredDoc = some s3) :=
  ⟨⟨rfl, rfl, by decide⟩,
    (C1_drag_history_entries blurredDoc 1 [] 8 [9, 10] 10 true rfl rfl (by decide)).1⟩

/-- C2, as stated, fails: scenario A, `setBlur(5, true)` on `rect1Doc` (`rect1` selected,
no element `rect1_blur`, empty history, no current command), pushes two history entries,
not one: the record of the tracked write of the `filter` attribute and the composite
command. -/
theorem C2_counterexample :
    rect1Doc.curCommand = none ∧ rect1Doc.selectedElements = [1] ∧
    filterResource rect1Doc 1 = none ∧ rect1Doc.history = [] ∧
    (setBlur 5 true rect1Doc).map (fun s => s.history.length) = some 2 ∧
    (setBlur 5 true rect1Doc).map (fun s => s.history) =
      some [[.undoableChange "filter" [(1, none, some (.str "url(#rect1_blur)"))]],
        [.insertElement 3,
          .changeElement 1 [("filter", none)] [("filter", some (.str "url(#rect1_blur)"))],
          .undoableChange "stdDeviation" [(2, some (.num 5), some (.num 5))]]] := by
  decide

/-- C2, amended: for a selected target `t` of the document with no element named
`<id>_blur`, and `v ≠ 0`, `setBlur(v, true)` with no transaction open adds two nodes
to the document: a `filter` with id `<id>_blur`, which becomes the last child of the defs
container and is what the lookup by that id now finds, and its only child, a
`feGaussianBlur` whose `stdDeviation` is `v`; the target's `filter` attribute becomes
`url(#<id>_blur)`; two history entries are pushed, the record of the tracked write of the
`filter` attribute and then the composite command, and nothing is left open. -/
theorem C2_setBlur_creates_filter (s : State) (t : Ref) (sel : List Ref) (v : ℚ)
    (hidle : s.curCommand = none) (hsel : s.selectedElements = t :: sel) (hv : v ≠ 0)
    (ht : t < s.nodes.length) (hdefs : s.defs < s.nodes.length)
    (hnone : filterResource s t = none) :
    ∃ s', setBlur v true s = some s' ∧
      s'.nodes.length = s.nodes.length + 2 ∧
      tagOf s' (s.nodes.length + 1) = some "filter" ∧
      getAttribute s' (s.nodes.length + 1) "id" = some (.str (elementId s t ++ "_blur")) ∧
      filterResource s' t = some (s.nodes.length + 1) ∧
      s'.defs = s.defs ∧
      childrenOf s' s.defs =
        ((childrenOf s s.defs).filter (fun x => x != s.nodes.length)).filter
          (fun x => x != s.nodes.length + 1) ++ [s.nodes.length + 1] ∧
      childrenOf s' (s.nodes.length + 1) = [s.nodes.length] ∧
      tagOf s' s.nodes.length = some "feGaussianBlur" ∧
      getAttribute s' s.nodes.length "stdDeviation" = some (.num v) ∧
      getAttribute s' t "filter" = some (.str ("url(#" ++ elementId s t ++ "_blur)")) ∧
      (∃ rec cmd, s'.history = s.history ++ [rec, cmd]) ∧
      s'.curCommand = none ∧ s'.filter = none := by
  obtain ⟨s3, F, h3, hF, hsk, hcur, hfil, hd, hhist, hattr, hdev, hoth⟩ :=
    setBlur_complete_doc v s t sel hidle hsel hv ht
  have hR : resolved v t s = createFilter v (elementId s t) (setFilter none s) := by
    unfold filterResource at hnone
    unfold resolved
    rw [hnone]
  have hFeq : F = s.nodes.length + 1 := by
    rw [hR, createFilter_eq] at hF
    simp only [setFilter, Option.some.injEq] at hF
    exact hF.symm
  subst hFeq
  have hne : s.nodes.length + 1 ≠ s.defs := Ne.symm (Nat.ne_of_lt (Nat.lt_succ_of_lt hdefs))
  have hkF : kidsAt (resolved v t s).nodes (s.nodes.length + 1) = some [s.nodes.length] := by
    rw [hR]
    have := kidsAt_createFilter_filter v (elementId s t) (setFilter none s)
    simp only [setFilter] at this ⊢
    rw [this]
    simp [hne]
  have hlenR : (resolved v t s).nodes.length = s.nodes.length + 2 := by
    rw [hR]; exact length_createFilter v _ (setFilter none s)
  refine ⟨s3, h3, ?_, ?_, ?_, ?_, hd, ?_, ?_, ?_, ?_, hattr, hhist, hcur, hfil⟩
  · rw [length_skel _ _ hsk, hlenR]
  · rw [tagOf_skel _ s3 _ hsk, hR]
    exact (tag_createFilter v (elementId s t) (setFilter none s)).2
  · unfold getAttribute
    rw [attrOf_id_skel _ _ _ hsk, hR]
    have := attrOf_createFilter_filter v (elementId s t) (setFilter none s) "id"
    simp only [setFilter] at this ⊢
    rw [this]
    simp [getAttr]
  · rw [filterResource_skel _ s3 t hsk, resolved_filterResource v t s ht, hF]
  · rw [childrenOf_eq_kidsAt, kidsAt_skel _ _ _ hsk, hR]
    have := kidsAt_createFilter_old v (elementId s t) (setFilter none s) s.defs hdefs
    simp only [setFilter] at this ⊢
    rw [this, childrenOf_eq_kidsAt]
    cases hk : kidsAt s.nodes s.defs with
    | none =>
      exfalso
      unfold kidsAt at hk
      rw [List.getElem?_eq_getElem hdefs] at hk
      cases hk
    | some l => simp
  · rw [childrenOf_eq_kidsAt, kidsAt_skel _ _ _ hsk, hkF]
    rfl
  · rw [tagOf_skel _ s3 _ hsk, hR]
    exact (tag_createFilter v (elementId s t) (setFilter none s)).1
  · apply hdev
    · rw [firstChild_eq_kidsAt, hkF]; rfl
    · rw [hlenR]; exact Nat.lt_add_of_pos_right (by decide)

/-- Witness of C2: scenario A, `setBlur(5, true)` on `rect1`, which has no filter. -/
theorem C2_witness :
    (rect1Doc.curCommand = none ∧ rect1Doc.selectedElements = [1] ∧ (5 : ℚ) ≠ 0 ∧
      (1 : Ref) < rect1Doc.nodes.length ∧ rect1Doc.defs < rect1Doc.nodes.length ∧
      filterResource rect1Doc 1 = none) ∧
    ∃ s', setBlur 5 true rect1Doc = some s' ∧
      s'.nodes.length = rect1Doc.nodes.length + 2 ∧
      tagOf s' (rect1Doc.nodes.length + 1) = some "filter" ∧
      getAttribute s' (rect1Doc.nodes.length + 1) "id" =
        some (.str (elementId rect1Doc 1 ++ "_blur")) ∧
      filterResource s' 1 = some (rect1Doc.nodes.length + 1) ∧
      s'.defs = rect1Doc.defs ∧
      childrenOf s' rect1Doc.defs =
        ((childrenOf rect1Doc rect1Doc.defs).filter (fun x => x != rect1Doc.nodes.length)).filter
          (fun x => x != rect1Doc.nodes.length + 1) ++ [rect1Doc.nodes.length + 1] ∧
      childrenOf s' (rect1Doc.nodes.length + 1) = [rect1Doc.nodes.length] ∧
      tagOf s' rect1Doc.nodes.length = some "feGaussianBlur" ∧
      getAttribute s' rect1Doc.nodes.length "stdDeviation" = some (.num 5) ∧
      getAttribute s' 1 "filter" = some (.str ("url(#" ++ elementId rect1Doc 1 ++ "_blur)")) ∧
      (∃ rec cmd, s'.history = rect1Doc.history ++ [rec, cmd]) ∧
      s'.curCommand = none ∧ s'.filter = none :=
  ⟨⟨rfl, rfl, by decide, by decide, by decide, by decide⟩,
    C2_setBlur_creates_filter rect1Doc 1 [] 5 rfl rfl (by decide) (by decide) (by decide)
      (by decide)⟩

/-- C3: at the failing input, the document left by scenario B (`rect1` with
`filter="url(#rect1_blur)"`, four history entries, nothing being edited), `setBlur(0, true)`
removes the `filter` attribute and returns on line 147: the history still has the same
four entries and no command is current, so the batch command built on line 146 is
dropped. -/
theorem C3_setBlur_zero_pushes_nothing :
    scenarioB.map (fun s => (s.history.length, s.curCommand, getAttribute s 1 "filter")) =
      some (4, none, some (.str "url(#rect1_blur)")) ∧
    scenarioC.map (fun s => (s.history.length, s.curCommand, getAttribute s 1 "filter")) =
      some (4, none, none) ∧
    scenarioC.map (fun s => s.history) = scenarioB.map (fun s => s.history) := by
  decide

/-- C4: for a target whose FilterResource `f` exists, `setBlur(0, c)` with no transaction
open removes the target's `filter` attribute and touches nothing else in the document:
every child list (that of the defs container and that of the filter included), every tag,
every other attribute of every element (each `stdDeviation` included) and the lookup of
the resource are as before. -/
theorem C4_setBlur_zero_keeps_resource (s : State) (t f : Ref) (sel : List Ref) (c : Bool)
    (hidle : s.curCommand = none) (hsel : s.selectedElements = t :: sel)
    (hres : filterResource s t = some f) :
    ∃ s', setBlur 0 c s = some s' ∧
      getAttribute s' t "filter" = none ∧
      s'.defs = s.defs ∧
      (∀ r, childrenOf s' r = childrenOf s r) ∧
      (∀ r, firstChild s' r = firstChild s r) ∧
      (∀ r, tagOf s' r = tagOf s r) ∧
      (∀ r k, (r ≠ t ∨ k ≠ "filter") → getAttribute s' r k = getAttribute s r k) ∧
      filterResource s' t = some f ∧
      blurDeviation s' t = blurDeviation s t := by
  have h0 := setBlur_zero c s t sel hidle hsel
  unfold filterResource at hres
  rw [hres] at h0
  have hsk : (removeAttribute t "filter" (setFilter none s)).nodes.map skel = s.nodes.map skel :=
    map_skel_removeAttrAt t "filter" s.nodes (by decide)
  have hattr : ∀ r k, (r ≠ t ∨ k ≠ "filter") →
      getAttribute (removeAttribute t "filter" (setFilter none s)) r k = getAttribute s r k := by
    intro r k h
    show attrOf (removeAttrAt t "filter" s.nodes) r k = attrOf s.nodes r k
    rw [attrOf_removeAttrAt]
    rcases h with h | h <;> simp [h]
  have hfr : filterResource (removeAttribute t "filter" (setFilter none s)) t = some f := by
    rw [filterResource_skel s _ t hsk]
    exact hres
  refine ⟨_, h0, ?_, rfl, fun r => childrenOf_skel s _ r hsk, fun r => firstChild_skel s _ r hsk,
    fun r => tagOf_skel s _ r hsk, hattr, hfr, ?_⟩
  · show attrOf (removeAttrAt t "filter" s.nodes) t "filter" = none
    rw [attrOf_removeAttrAt]
    simp
  · unfold blurDeviation
    rw [hfr]
    have : filterResource s t = some f := hres
    rw [this]
    simp only [Option.some_bind, firstChild_skel s _ f hsk]
    cases firstChild s f with
    | none => rfl
    | some p => exact hattr p "stdDeviation" (Or.inr (by decide))

/-- Witness of C4: `setBlur(0, true)` on the document left by scenario A. -/
theorem C4_witness :
    (blurredDoc.curCommand = none ∧ blurredDoc.selectedElements = [1] ∧
      filterResource blurredDoc 1 = some 3) ∧
    ∃ s', setBlur 0 true blurredDoc = some s' ∧
      getAttribute s' 1 "filter" = none ∧
      s'.defs = blurredDoc.defs ∧
      (∀ r, childrenOf s' r = childrenOf blurredDoc r) ∧
      (∀ r, firstChild s' r = firstChild blurredDoc r) ∧
      (∀ r, tagOf s' r = tagOf blurredDoc r) ∧
      (∀ r k, (r ≠ 1 ∨ k ≠ "filter") → getAttribute s' r k = getAttribute blurredDoc r k) ∧
      filterResource s' 1 = some 3 ∧
      blurDeviation s' 1 = blurDeviation blurredDoc 1 :=
  ⟨⟨rfl, rfl, by decide⟩,
    C4_setBlur_zero_keeps_resource blurredDoc 1 3 [] true rfl rfl (by decide)⟩

/-- C5, as stated, fails. From `rect1Doc`, `setBlur(5, false)` then `setBlur(8, false)`
ends with a call of value 8, but that call only closes the transaction: the deviation on
the primitive is the 5 the filter was created with. From `blurredDoc` (deviation 5) the
single opening call `setBlur(8, false)` leaves the deviation at 5 as well. In both runs
the target's `filter` attribute is `url(#rect1_blur)`. -/
theorem C5_counterexample :
    rect1Doc.curCommand = none ∧
    (runSetBlur [(5, false), (8, false)] rect1Doc).map (fun s => blurDeviation s 1) =
      some (some (.num 5)) ∧
    blurredDoc.curCommand = none ∧
    (runSetBlur [(8, false)] blurredDoc).map (fun s => blurDeviation s 1) =
      some (some (.num 5)) ∧
    Value.num 5 ≠ Value.num 8 := by
  decide

/-- C5, amended: for a target that is an element of the document, every sequence of
`setBlur` calls started with no current command and ending with a call `setBlur(v, c)`,
`v > 0`, returns, and afterwards the target's `filter` attribute is `url(#<id>_blur)` and
the lookup of that id finds a FilterResource `f`, the only element with that id when the
starting document has at most one element per id. The `stdDeviation` on its blur
primitive is `v` when the last call finds no transaction open and either creates the
resource or has `complete` set (an existing resource having its primitive); when the last
call finds a transaction open, or opens one on an existing resource without `complete`,
the deviation is what it was before that call. -/
theorem C5_filter_reference_after_positive_call (s : State) (t : Ref) (sel : List Ref)
    (calls : List (ℚ × Bool)) (v : ℚ) (c : Bool)
    (hidle : s.curCommand = none) (hsel : s.selectedElements = t :: sel)
    (ht : t < s.nodes.length) (hv : 0 < v) :
    ∃ s1 s2 f, runSetBlur calls s = some s1 ∧
      runSetBlur (calls ++ [(v, c)]) s = some s2 ∧
      getAttribute s2 t "filter" = some (.str ("url(#" ++ elementId s t ++ "_blur)")) ∧
      elementId s2 t = elementId s t ∧
      filterResource s2 t = some f ∧
      (UniqueIds s → ∀ f',
        getAttribute s2 f' "id" = some (.str (elementId s t ++ "_blur")) → f' = f) ∧
      (s1.curCommand = none → filterResource s1 t = none →
        blurDeviation s2 t = some (.num v)) ∧
      ((∀ r, filterResource s t = some r →
          ∃ p, firstChild s r = some p ∧ p < s.nodes.length) →
        s1.curCommand = none → c = true → blurDeviation s2 t = some (.num v)) ∧
      (((∃ b, s1.curCommand = some b) ∨ (c = false ∧ ∃ r, filterResource s1 t = some r)) →
        blurDeviation s2 t = blurDeviation s1 t) := by
  obtain ⟨s1, h1, hst1, ht1, hid1, ha1, hu1⟩ :=
    runSetBlur_attached calls s t sel ⟨hsel, Or.inl hidle⟩ ht
      (fun b hb => by rw [hidle] at hb; cases hb)
  have happ : runSetBlur (calls ++ [(v, c)]) s = setBlur v c s1 := by
    rw [runSetBlur_append, h1]
    simp only [Option.some_bind, runSetBlur]
    cases setBlur v c s1 <;> rfl
  have hurl : blurUrl (elementId s t) = .str ("url(#" ++ elementId s t ++ "_blur)") := rfl
  rcases hc1 : s1.curCommand with _ | b
  · cases c with
    | true =>
      obtain ⟨s3, F, h3, hF, hsk, -, -, -, -, hattr, hdev, -⟩ :=
        setBlur_complete_doc v s1 t sel hc1 hst1.1 (ne_of_gt hv) ht1
      have hfr : filterResource s3 t = some F := by
        rw [filterResource_skel _ s3 t hsk, resolved_filterResource v t s1 ht1, hF]
      have hid3 : elementId s3 t = elementId s t :=
        (setBlur_target v true s1 s3 t sel hst1 ht1 h3).2.trans hid1
      refine ⟨s1, s3, F, h1, happ.trans h3, ?_, hid3, hfr, ?_, ?_, ?_, ?_⟩
      · rw [hattr, hid1, hurl]
      · intro hu f' hf'
        have hfid := filterResource_id s3 t F hfr
        rw [hid3] at hfid
        exact setBlur_uniqueIds v true s1 s3 t sel hst1 h3 (hu1 hu) _ f' F hf' hfid
      · intro _ hnone
        obtain ⟨hF', hkid, -, hlt⟩ := resolved_created v t s1 hnone
        rw [hF'] at hF
        cases hF
        unfold blurDeviation
        rw [hfr]
        simp only [Option.some_bind]
        rw [firstChild_skel _ s3 _ hsk, hkid]
        exact hdev _ hkid hlt
      · intro hres _ _
        obtain ⟨s1', h1', -, hs1, -⟩ :=
          runSetBlur_sound calls s t sel ⟨hsel, Or.inl hidle⟩ ⟨ht, hres⟩
        rw [h1] at h1'
        cases h1'
        obtain ⟨p, hp, hlt⟩ := (resolved_sound v t s1 hs1).2 F
          (by rw [resolved_filterResource v t s1 ht1, hF])
        unfold blurDeviation
        rw [hfr]
        simp only [Option.some_bind]
        rw [firstChild_skel _ s3 F hsk, hp]
        exact hdev p hp hlt
      · intro h
        rcases h with ⟨b, hb⟩ | ⟨hc, -⟩
        · rw [hc1] at hb
          cases hb
        · cases hc
    | false =>
      obtain ⟨s2, F, h2, hfil, hfr, hcre, hkeep⟩ :=
        setBlur_open_deviation v s1 t sel hc1 hst1.1 (ne_of_gt hv) ht1
      have hid2 : elementId s2 t = elementId s t :=
        (setBlur_target v false s1 s2 t sel hst1 ht1 h2).2.trans hid1
      refine ⟨s1, s2, F, h1, happ.trans h2, ?_, hid2, hfr, ?_, ?_, ?_, ?_⟩
      · rw [hfil, hid1, hurl]
      · intro hu f' hf'
        have hfid := filterResource_id s2 t F hfr
        rw [hid2] at hfid
        exact setBlur_uniqueIds v false s1 s2 t sel hst1 h2 (hu1 hu) _ f' F hf' hfid
      · intro _ hnone
        exact hcre hnone
      · intro _ _ hc
        cases hc
      · intro h
        rcases h with ⟨b, hb⟩ | ⟨-, r, hr⟩
        · rw [hc1] at hb
          cases hb
        · exact hkeep r hr
  · obtain ⟨hattr, fr, hfr⟩ := ha1 b hc1
    obtain ⟨sc, rest, hsc⟩ : ∃ sc rest, s1.scopes = sc :: rest := by
      rcases hst1.2 with hn | hne
      · rw [hc1] at hn
        cases hn
      · cases hs : s1.scopes with
        | nil => exact absurd hs hne
        | cons sc rest => exact ⟨sc, rest, rfl⟩
    have h2 := (setBlur_of_open v c s1 b hc1).trans (finishChange_eq s1 b sc rest hc1 hsc)
    refine ⟨s1, _, fr, h1, happ.trans h2, ?_, hid1, hfr, ?_, ?_, ?_, ?_⟩
    · show getAttribute s1 t "filter" = _
      rw [hattr, hid1, hurl]
    · intro hu f' hf'
      have hfid := filterResource_id s1 t fr hfr
      rw [hid1] at hfid
      exact hu1 hu _ f' fr hf' hfid
    · intro h
      rw [hc1] at h
      cases h
    · intro _ h
      rw [hc1] at h
      cases h
    · intro _
      rfl

/-- Witness of C5: on `blurredDoc` (deviation 5), the calls `setBlur(8, false)`,
`setBlur(8, false)` and then `setBlur(9, true)`. -/
theorem C5_witness :
    (blurredDoc.curCommand = none ∧ blurredDoc.selectedElements = [1] ∧
      (1 : Ref) < blurredDoc.nodes.length ∧ (0 : ℚ) < 9) ∧
    ∃ s1 s2 f, runSetBlur [(8, false), (8, false)] blurredDoc = some s1 ∧
      runSetBlur ([(8, false), (8, false)] ++ [(9, true)]) blurredDoc = some s2 ∧
      getAttribute s2 1 "filter" =
        some (.str ("url(#" ++ elementId blurredDoc 1 ++ "_blur)")) ∧
      elementId s2 1 = elementId blurredDoc 1 ∧
      filterResource s2 1 = some f ∧
      (UniqueIds blurredDoc → ∀ f',
        getAttribute s2 f' "id" = some (.str (elementId blurredDoc 1 ++ "_blur")) → f' = f) ∧
      (s1.curCommand = none → filterResource s1 1 = none →
        blurDeviation s2 1 = some (.num 9)) ∧
      ((∀ r, filterResource blurredDoc 1 = some r →
          ∃ p, firstChild blurredDoc r = some p ∧ p < blurredDoc.nodes.length) →
        s1.curCommand = none → true = true → blurDeviation s2 1 = some (.num 9)) ∧
      (((∃ b, s1.curCommand = some b) ∨
          (true = false ∧ ∃ r, filterResource s1 1 = some r)) →
        blurDeviation s2 1 = blurDeviation s1 1) :=
  ⟨⟨rfl, rfl, by decide, by decide⟩,
    C5_filter_reference_after_positive_call blurredDoc 1 [] [(8, false), (8, false)] 9 true
      rfl rfl (by decide) (by decide)⟩

/-- C6, as stated, fails: from `rect1Doc`, `setBlur(5, false)` then `setBlur(0, true)` ends
with a call of value 0, but that call finds the transaction open and only closes it, so
`rect1` still has `filter="url(#rect1_blur)"`. -/
theorem C6_counterexample :
    rect1Doc.curCommand = none ∧
    (runSetBlur [(5, false), (0, true)] rect1Doc).map (fun s => getAttribute s 1 "filter") =
      some (some (.str "url(#rect1_blur)")) := by
  decide

/-- C6, amended: every sequence of `setBlur` calls on a selected target, started with no
current command, returns; if the state it leaves has no transaction open, a further
`setBlur(0, c)` leaves the target without a `filter` attribute; if a transaction is open,
that call only closes it and the attribute stays as it was. -/
theorem C6_filter_absent_after_zero_call_when_idle (s : State) (t : Ref) (sel : List Ref)
    (calls : List (ℚ × Bool)) (c : Bool)
    (hidle : s.curCommand = none) (hsel : s.selectedElements = t :: sel) :
    ∃ s1, runSetBlur calls s = some s1 ∧
      (s1.curCommand = none →
        ∃ s2, runSetBlur (calls ++ [(0, c)]) s = some s2 ∧ getAttribute s2 t "filter" = none) ∧
      (∀ b, s1.curCommand = some b →
        ∃ s2, runSetBlur (calls ++ [(0, c)]) s = some s2 ∧ s2.curCommand = none ∧
          getAttribute s2 t "filter" = getAttribute s1 t "filter") := by
  obtain ⟨s1, h1, hst1⟩ := runSetBlur_steady calls s t sel ⟨hsel, Or.inl hidle⟩
  have happ : runSetBlur (calls ++ [(0, c)]) s = setBlur 0 c s1 := by
    rw [runSetBlur_append, h1]
    simp only [Option.some_bind, runSetBlur]
    cases setBlur 0 c s1 <;> rfl
  refine ⟨s1, h1, ?_, ?_⟩
  · intro hidle1
    rw [happ, setBlur_zero c s1 t sel hidle1 hst1.1]
    cases getElem s1 (elementId s1 t ++ "_blur") with
    | none =>
      refine ⟨_, rfl, ?_⟩
      show attrOf (removeAttrAt t "filter" _) t "filter" = none
      rw [attrOf_removeAttrAt]; simp
    | some f =>
      refine ⟨_, rfl, ?_⟩
      show attrOf (removeAttrAt t "filter" _) t "filter" = none
      rw [attrOf_removeAttrAt]; simp
  · intro b hb
    obtain ⟨s2, h2, -, h3, -⟩ := setBlur_steady 0 c s1 t sel hst1
    obtain ⟨hn, hc⟩ := h3 b hb
    refine ⟨s2, happ.trans h2, hc, ?_⟩
    unfold getAttribute
    rw [hn]

/-- Witness of C6: `setBlur(5, true)` then `setBlur(0, true)` on `rect1Doc`. -/
theorem C6_witness :
    (rect1Doc.curCommand = none ∧ rect1Doc.selectedElements = [1]) ∧
    ∃ s1, runSetBlur [(5, true)] rect1Doc = some s1 ∧
      (s1.curCommand = none →
        ∃ s2, runSetBlur ([(5, true)] ++ [(0, true)]) rect1Doc = some s2 ∧
          getAttribute s2 1 "filter" = none) ∧
      (∀ b, s1.curCommand = some b →
        ∃ s2, runSetBlur ([(5, true)] ++ [(0, true)]) rect1Doc = some s2 ∧ s2.curCommand = none ∧
          getAttribute s2 1 "filter" = getAttribute s1 1 "filter") :=
  ⟨⟨rfl, rfl⟩,
    C6_filter_absent_after_zero_call_when_idle rect1Doc 1 [] [(5, true)] true rfl rfl⟩

/-- C7: with a transaction open (current command `b`, innermost scope `sc`), `setBlur(v, c)`
is `finishChange` for every `v` and `c`: it closes the scope, appends the scope's command as
the last sub-command of `b`, pushes that composite once, clears the current command and the
edited-filter reference, and leaves everything else, the whole document included, as it was;
the result does not depend on `v` or `c`. -/
theorem C7_setBlur_with_open_transaction_is_finishChange (s : State) (b : BatchCommand)
    (sc : Scope) (rest : List Scope) (v : ℚ) (c : Bool)
    (hb : s.curCommand = some b) (hsc : s.scopes = sc :: rest) :
    setBlur v c s = finishChange s ∧
    setBlur v c s = some { s with
      history := s.history ++ [b ++ [closeScope s sc]],
      curCommand := none, filter := none, scopes := rest } ∧
    (∀ (v' : ℚ) (c' : Bool), setBlur v' c' s = setBlur v c s) ∧
    (∀ s', setBlur v c s = some s' →
      s'.nodes = s.nodes ∧ s'.defs = s.defs ∧
      (∀ r k, getAttribute s' r k = getAttribute s r k) ∧
      (∀ r, childrenOf s' r = childrenOf s r)) := by
  have h1 := setBlur_of_open v c s b hb
  have h2 := finishChange_eq s b sc rest hb hsc
  refine ⟨h1, h1.trans h2, ?_, ?_⟩
  · intro v' c'
    rw [h1, setBlur_of_open v' c' s b hb]
  · intro s' hs'
    rw [h1, h2] at hs'
    cases hs'
    exact ⟨rfl, rfl, fun _ _ => rfl, fun _ => rfl⟩

/-- Witness of C7: the closing call of a drag on `draggingDoc`. -/
theorem C7_witness :
    (draggingDoc.curCommand = some [.changeElement 1
        [("filter", some (.str "url(#rect1_blur)"))] [("filter", some (.str "url(#rect1_blur)"))]] ∧
      draggingDoc.scopes = [⟨"stdDeviation", [(2, some (.num 5))]⟩]) ∧
    setBlur 10 true draggingDoc = finishChange draggingDoc :=
  ⟨⟨rfl, rfl⟩,
    (C7_setBlur_with_open_transaction_is_finishChange draggingDoc _ _ _ 10 true rfl rfl).1⟩

/-- C8: `setBlurOffsets(filterElem, stdDev)` on an element of the document. If
`stdDev > 3` the region attributes become `x="-50%"`, `y="-50%"`, `width="200%"`,
`height="200%"`, whatever the quirk flag; if `stdDev ≤ 3` and the flag is off the four
attributes are absent afterwards; if `stdDev ≤ 3` and the flag is on the whole state is
left as it was. In every case no other attribute of the element, no attribute of another
element, no child list, no tag and nothing outside the document changes. -/
theorem C8_setBlurOffsets_geometry (s : State) (filterElem : Ref) (stdDev : ℚ)
    (helem : filterElem < s.nodes.length) :
    (3 < stdDev →
      getAttribute (setBlurOffsets filterElem stdDev s) filterElem "x" = some (.str "-50%") ∧
      getAttribute (setBlurOffsets filterElem stdDev s) filterElem "y" = some (.str "-50%") ∧
      getAttribute (setBlurOffsets filterElem stdDev s) filterElem "width" = some (.str "200%") ∧
      getAttribute (setBlurOffsets filterElem stdDev s) filterElem "height" = some (.str "200%")) ∧
    (stdDev ≤ 3 → s.isWebkit = false →
      getAttribute (setBlurOffsets filterElem stdDev s) filterElem "x" = none ∧
      getAttribute (setBlurOffsets filterElem stdDev s) filterElem "y" = none ∧
      getAttribute (setBlurOffsets filterElem stdDev s) filterElem "width" = none ∧
      getAttribute (setBlurOffsets filterElem stdDev s) filterElem "height" = none) ∧
    (stdDev ≤ 3 → s.isWebkit = true → setBlurOffsets filterElem stdDev s = s) ∧
    (∀ r k, (r ≠ filterElem ∨ (k ≠ "x" ∧ k ≠ "y" ∧ k ≠ "width" ∧ k ≠ "height")) →
      getAttribute (setBlurOffsets filterElem stdDev s) r k = getAttribute s r k) ∧
    (∀ r, childrenOf (setBlurOffsets filterElem stdDev s) r = childrenOf s r) ∧
    (∀ r, tagOf (setBlurOffsets filterElem stdDev s) r = tagOf s r) ∧
    setBlurOffsets filterElem stdDev s =
      { s with nodes := (setBlurOffsets filterElem stdDev s).nodes } :=
  ⟨fun hv => attr_setBlurOffsets_large filterElem stdDev s hv helem,
    fun hv hw => attr_setBlurOffsets_small filterElem stdDev s hv hw,
    fun hv hw => setBlurOffsets_small_webkit filterElem stdDev s hv hw,
    fun r k h => attr_setBlurOffsets_other filterElem stdDev s r k h,
    fun r => childrenOf_skel s _ r (map_skel_setBlurOffsets filterElem stdDev s),
    fun r => tagOf_skel s _ r (map_skel_setBlurOffsets filterElem stdDev s),
    setBlurOffsets_frame filterElem stdDev s⟩

/-- Witness of C8: the filter `rect1_blur` of `blurredDoc` with deviation 5. -/
theorem C8_witness :
    (3 : Ref) < blurredDoc.nodes.length ∧
    getAttribute (setBlurOffsets 3 5 blurredDoc) 3 "x" = some (.str "-50%") ∧
    getAttribute (setBlurOffsets 3 5 blurredDoc) 3 "y" = some (.str "-50%") ∧
    getAttribute (setBlurOffsets 3 5 blurredDoc) 3 "width" = some (.str "200%") ∧
    getAttribute (setBlurOffsets 3 5 blurredDoc) 3 "height" = some (.str "200%") :=
  ⟨by decide, (C8_setBlurOffsets_geometry blurredDoc 3 5 (by decide)).1 (by decide)⟩

/-- C9: the composite command a transaction of this module pushes, whether by a drag
(`setBlur(v1, false)`, previews, closing `setBlur(vn, c)`) or by the single call
`setBlur(v1, true)`, is the last entry of the history, after the record `rec` that the
tracked write of the `filter` attribute left there, and has its sub-commands in this
order: the `InsertElementCommand` of the new filter, present exactly when the lookup
found no filter and one was created; then the `ChangeElementCommand` holding the target's
previous `filter` attribute; then, last, the command returned by closing the
`stdDeviation` scope. -/
theorem C9_subcommand_order (s : State) (t : Ref) (sel : List Ref)
    (v1 : ℚ) (vs : List ℚ) (vn : ℚ) (c : Bool)
    (hidle : s.curCommand = none) (hsel : s.selectedElements = t :: sel) (hv1 : v1 ≠ 0) :
    (∃ s3 rec n changes, dragSequence v1 vs vn c s = some s3 ∧
      s3.history = s.history ++
        [rec,
         (match filterResource s t with
          | some _ => []
          | none => [Command.insertElement (s.nodes.length + 1)]) ++
         [Command.changeElement t [("filter", getAttribute s t "filter")] [("filter", n)],
          Command.undoableChange "stdDeviation" changes]]) ∧
    (∃ s3 rec n changes, setBlur v1 true s = some s3 ∧
      s3.history = s.history ++
        [rec,
         (match filterResource s t with
          | some _ => []
          | none => [Command.insertElement (s.nodes.length + 1)]) ++
         [Command.changeElement t [("filter", getAttribute s t "filter")] [("filter", n)],
          Command.undoableChange "stdDeviation" changes]]) ∧
    (filterResource s t = none → (resolved v1 t s).filter = some (s.nodes.length + 1)) := by
  obtain ⟨s1, f, n, sc, rec, h1, hh1, hc1, hf1, hs1, hscn, hsel1, -, -, -⟩ :=
    setBlur_open_control v1 s t sel hidle hsel hv1
  refine ⟨?_, ?_, ?_⟩
  · obtain ⟨ns, hid, h2⟩ := previews_frame vs s1 f t sel hf1 (hsel1.trans hsel)
    have h3 := setBlur_of_open vn c ({ s1 with nodes := ns, filterHidden := hid }) _ hc1
    rw [finishChange_eq ({ s1 with nodes := ns, filterHidden := hid }) _ sc s.scopes hc1 hs1] at h3
    have hdrag := h3
    rw [show setBlur vn c ({ s1 with nodes := ns, filterHidden := hid }) =
      dragSequence v1 vs vn c s from by simp only [dragSequence, h1, h2, Option.some_bind]] at hdrag
    refine ⟨_, rec, n, sc.oldValues.map (fun p => (p.1, p.2,
      getAttribute ({ s1 with nodes := ns, filterHidden := hid }) p.1 sc.attrName)), hdrag, ?_⟩
    simp only [hh1, closeScope, hscn, filterResource, List.append_assoc, List.singleton_append,
      List.cons_append, List.nil_append]
  · obtain ⟨s1', s2, F, b, sc', rec', h1', -, -, -, hb, hsc, -, -, -, -, h2, h3⟩ :=
      setBlur_complete_steps v1 s t sel hidle hsel hv1
    rw [h1] at h1'
    cases h1'
    rw [hc1] at hb
    rw [hs1] at hsc
    cases hb
    cases hsc
    refine ⟨_, rec', n, sc.oldValues.map (fun p => (p.1, p.2, getAttribute s2 p.1 sc.attrName)),
      h3, ?_⟩
    simp only [closeScope, hscn, filterResource, List.append_assoc, List.singleton_append]
  · intro hnone
    rw [resolved_filter]
    unfold filterResource at hnone
    rw [hnone]

/-- Witness of C9: the drag of scenario B on the document left by scenario A. -/
theorem C9_witness :
    (blurredDoc.curCommand = none ∧ blurredDoc.selectedElements = [1] ∧ (8 : ℚ) ≠ 0) ∧
    ∃ s3 rec n changes, dragSequence 8 [9, 10] 10 true blurredDoc = some s3 ∧
      s3.history = blurredDoc.history ++
        [rec,
         (match filterResource blurredDoc 1 with
          | some _ => []
          | none => [Command.insertElement (blurredDoc.nodes.length + 1)]) ++
         [Command.changeElement 1 [("filter", getAttribute blurredDoc 1 "filter")] [("filter", n)],
          Command.undoableChange "stdDeviation" changes]] :=
  ⟨⟨rfl, rfl, by decide⟩,
    (C9_subcommand_order blurredDoc 1 [] 8 [9, 10] 10 true rfl rfl (by decide)).1⟩

/-- C10, as stated, fails: on `rect1Doc` no filter is being edited, so `setBlurNoUndo(5)`
defers to `setBlur(5)`, which makes a batch command current. -/
theorem C10_counterexample :
    rect1Doc.curCommand = none ∧
    (setBlurNoUndo 5 rect1Doc).map (fun s => s.curCommand) =
      some (some [.insertElement 3,
        .changeElement 1 [("filter", none)] [("filter", some (.str "url(#rect1_blur)"))]]) := by
  decide

/-- C10, amended: when the edited-filter reference is set, `setBlurNoUndo(value)` leaves the
current command (with its sub-commands), the history stack and the open scopes as they
were, and it returns whenever an element is selected; when the reference is `null` the
call is `setBlur(value)` with `complete` unset. -/
theorem C10_setBlurNoUndo_keeps_transaction (s : State) (v : ℚ) :
    (∀ f, s.filter = some f →
      (∀ s', setBlurNoUndo v s = some s' →
        s'.curCommand = s.curCommand ∧ s'.history = s.history ∧ s'.scopes = s.scopes) ∧
      (∀ t sel, s.selectedElements = t :: sel → ∃ s', setBlurNoUndo v s = some s')) ∧
    (s.filter = none → setBlurNoUndo v s = setBlur v false s) := by
  constructor
  · intro f hf
    constructor
    · intro s' hs'
      unfold setBlurNoUndo setBlurNoUndoWith at hs'
      simp only [hf] at hs'
      by_cases hv : v = 0
      · simp only [hv, if_true, Option.some.injEq] at hs'
        subst hs'
        exact ⟨rfl, rfl, rfl⟩
      · simp only [hv, if_false] at hs'
        cases hsel : s.selectedElements with
        | nil =>
          cases hh : s.filterHidden <;> cases hw : s.isWebkit <;>
            simp [hsel, hh, hw, hf, changeSelectedAttributeNoUndoMethod] at hs'
          rw [setBlurOffsets_frame] at hs'
          subst hs'
          exact ⟨rfl, rfl, rfl⟩
        | cons t sel =>
          obtain ⟨ns, h⟩ := setBlurNoUndo_frame v s f t sel hf hsel
          unfold setBlurNoUndo setBlurNoUndoWith at h
          simp only [hf, hv, if_false] at h
          rw [h] at hs'
          cases hs'
          exact ⟨rfl, rfl, rfl⟩
    · intro t sel hsel
      obtain ⟨ns, h⟩ := setBlurNoUndo_frame v s f t sel hf hsel
      exact ⟨_, h⟩
  · intro hf
    unfold setBlurNoUndo setBlurNoUndoWith setBlur
    simp only [hf]
    unfold setBlurWith
    cases s.curCommand with
    | some b => rfl
    | none =>
      simp only [Option.bind_eq_bind]
      cases s.selectedElements.head? with
      | none => rfl
      | some e => rfl

/-- Witness of C10: a preview on `draggingDoc`, whose edited-filter reference is set. -/
theorem C10_witness :
    draggingDoc.filter = some 3 ∧
    (∀ s', setBlurNoUndo 9 draggingDoc = some s' →
      s'.curCommand = draggingDoc.curCommand ∧ s'.history = draggingDoc.history ∧
        s'.scopes = draggingDoc.scopes) :=
  ⟨rfl, ((C10_setBlurNoUndo_keeps_transaction draggingDoc 9).1 3 rfl).1⟩

/-- C11: for a selected target in the document and no transaction open, calling
`setBlur(0, true)` twice leaves what the first call left: the second call returns the
state of the first with only the edited-filter reference cleared, so the whole document
(the target's `filter` attribute, the children of the defs container, every
`stdDeviation`) and the history stack are the same after the second call. -/
theorem C11_setBlur_zero_twice (s : State) (t : Ref) (sel : List Ref)
    (hidle : s.curCommand = none) (hsel : s.selectedElements = t :: sel)
    (ht : t < s.nodes.length) :
    ∃ s1 s2, setBlur 0 true s = some s1 ∧ setBlur 0 true s1 = some s2 ∧
      s2 = { s1 with filter := none } ∧
      s2.nodes = s1.nodes ∧ s2.history = s1.history ∧ s2.curCommand = s1.curCommand ∧
      getAttribute s2 t "filter" = getAttribute s1 t "filter" ∧
      childrenOf s2 s2.defs = childrenOf s1 s1.defs ∧
      (∀ r, getAttribute s2 r "stdDeviation" = getAttribute s1 r "stdDeviation") := by
  obtain ⟨s1, h1, -, h2⟩ := setBlur_zero_twice true true s t sel hidle hsel ht
  exact ⟨s1, _, h1, h2, rfl, rfl, rfl, rfl, rfl, rfl, fun _ => rfl⟩

/-- Witness of C11: `setBlur(0, true)` twice on `rect1Doc`. -/
theorem C11_witness :
    (rect1Doc.curCommand = none ∧ rect1Doc.selectedElements = [1] ∧
      (1 : Ref) < rect1Doc.nodes.length) ∧
    ∃ s1 s2, setBlur 0 true rect1Doc = some s1 ∧ setBlur 0 true s1 = some s2 ∧
      s2 = { s1 with filter := none } ∧
      s2.nodes = s1.nodes ∧ s2.history = s1.history ∧ s2.curCommand = s1.curCommand ∧
      getAttribute s2 1 "filter" = getAttribute s1 1 "filter" ∧
      childrenOf s2 s2.defs = childrenOf s1 s1.defs ∧
      (∀ r, getAttribute s2 r "stdDeviation" = getAttribute s1 r "stdDeviation") :=
  ⟨⟨rfl, rfl, by decide⟩, C11_setBlur_zero_twice rect1Doc 1 [] rfl rfl (by decide)⟩

/-- C12: at the failing input, `rect1Doc` (`rect1` has no element `rect1_blur`),
`setBlur(0, true)` is not a no-op on the document: two nodes are added, the filter
`rect1_blur` is the child of the defs container and is what the lookup now finds, its
primitive has `stdDeviation` 0, the edited-filter reference is left on it, and nothing
is pushed to the history. -/
theorem C12_setBlur_zero_creates_degenerate_filter :
    filterResource rect1Doc 1 = none ∧ rect1Doc.nodes.length = 2 ∧
    childrenOf rect1Doc rect1Doc.defs = [] ∧
    (setBlur 0 true rect1Doc).map (fun s => (s.nodes.length, filterResource s 1, tagOf s 3)) =
      some (4, some 3, some "filter") ∧
    (setBlur 0 true rect1Doc).map (fun s => (childrenOf s s.defs, blurDeviation s 1)) =
      some ([3], some (.num 0)) ∧
    (setBlur 0 true rect1Doc).map (fun s => (s.filter, s.curCommand, s.history)) =
      some (some 3, none, []) := by
  decide

/-- C13: for `v ≠ 0`, a selected target and no transaction open, the single call
`setBlur(v, true)` returns exactly the state of the three calls `setBlur(v, false)`,
`setBlurNoUndo(v)`, `setBlur(w, c)`, for every `w` and `c`; that state has no current
command, no edited-filter reference, and the transaction already pushed: its composite
command `cmd` is the last history entry, after the record `rec` of the tracked write of
the `filter` attribute. -/
theorem C13_complete_call_is_open_preview_close (s : State) (t : Ref) (sel : List Ref)
    (v w : ℚ) (c : Bool)
    (hidle : s.curCommand = none) (hsel : s.selectedElements = t :: sel) (hv : v ≠ 0) :
    ((setBlur v false s).bind (setBlurNoUndo v)).bind (setBlur w c) = setBlur v true s ∧
    ∃ s3 rec cmd, setBlur v true s = some s3 ∧
      s3.curCommand = none ∧ s3.filter = none ∧ s3.history = s.history ++ [rec, cmd] := by
  obtain ⟨s1, s2, F, b, sc, rec, h1, hf1, -, hsel1, hb1, -, -, -, -, -, h2, h3⟩ :=
    setBlur_complete_steps v s t sel hidle hsel hv
  obtain ⟨ns, hfr⟩ := setBlurNoUndo_frame v s1 F t sel hf1 hsel1
  rw [h2] at hfr
  cases hfr
  refine ⟨?_, _, _, _, h3, rfl, rfl, rfl⟩
  rw [setBlur_complete v s t sel hidle hsel hv, h1]
  simp only [Option.some_bind]
  rw [h2]
  simp only [Option.some_bind]
  exact setBlur_of_open w c _ b hb1

/-- Witness of C13: `setBlur(5, true)` on `rect1Doc` against the three calls with a
closing `setBlur(7, false)`. -/
theorem C13_witness :
    (rect1Doc.curCommand = none ∧ rect1Doc.selectedElements = [1] ∧ (5 : ℚ) ≠ 0) ∧
    ((setBlur 5 false rect1Doc).bind (setBlurNoUndo 5)).bind (setBlur 7 false) =
      setBlur 5 true rect1Doc :=
  ⟨⟨rfl, rfl, by decide⟩,
    (C13_complete_call_is_open_preview_close rect1Doc 1 [] 5 7 false rfl rfl (by decide)).1⟩

/-- C14: from a document with at most one element per id, a selected target and no
current command, every sequence of `setBlur` and `setBlurNoUndo` calls returns and
leaves a document with at most one element per id, so at most one filter `<id>_blur`
for any id; and a further call adds nodes only when the lookup of the target's filter
finds none, in which case it adds two, the primitive with no id and the filter with the
id `<targetId>_blur`. -/
theorem C14_at_most_one_filter_per_id (s : State) (t : Ref) (sel : List Ref)
    (calls : List Call)
    (hidle : s.curCommand = none) (hsel : s.selectedElements = t :: sel)
    (hu : UniqueIds s) :
    ∃ s', runCalls calls s = some s' ∧ UniqueIds s' ∧
      (∀ f f', filterResource s' t = some f →
        getAttribute s' f' "id" = some (.str (elementId s' t ++ "_blur")) → f' = f) ∧
      ∀ c : Call, ∃ s'', c.run s' = some s'' ∧
        (s''.nodes.length = s'.nodes.length ∨
          (filterResource s' t = none ∧ s''.nodes.length = s'.nodes.length + 2 ∧
            getAttribute s'' s'.nodes.length "id" = none ∧
            getAttribute s'' (s'.nodes.length + 1) "id" =
              some (.str (elementId s' t ++ "_blur")))) := by
  obtain ⟨s', h, hst', -, -, hu'⟩ :=
    runCalls_light calls s t sel ⟨hsel, Or.inl hidle⟩ (fun b hb => by rw [hidle] at hb; cases hb)
  refine ⟨s', h, hu' hu, ?_, fun c => call_creation c s' t sel hst'⟩
  intro f f' hf hf'
  have hfid : getAttribute s' f "id" = some (.str (elementId s' t ++ "_blur")) := by
    unfold filterResource getElem at hf
    unfold getAttribute
    generalize elementId s' t ++ "_blur" = id at hf
    have key : ∀ (ns : List Node) (i : Nat) (r : Nat), findId id ns i = some r →
        ∃ j, r = i + j ∧ attrOf ns j "id" = some (.str id) := by
      intro ns
      induction ns with
      | nil => intro i r hr; simp [findId] at hr
      | cons n rest ih =>
        intro i r hr
        simp only [findId] at hr
        split at hr
        · rename_i hn
          cases hr
          exact ⟨0, rfl, by simpa [attrOf] using hn⟩
        · obtain ⟨j, hj, hattr⟩ := ih (i + 1) r hr
          refine ⟨j + 1, by omega, ?_⟩
          simpa [attrOf] using hattr
    obtain ⟨j, hj, hattr⟩ := key s'.nodes 0 f hf
    have : f = j := hj.trans (Nat.zero_add j)
    rw [this]
    exact hattr
  exact hu' hu _ f' f hf' hfid

/-- Witness of C14: scenario A and the drag of scenario B, as calls on `rect1Doc`. -/
theorem C14_witness :
    (rect1Doc.curCommand = none ∧ rect1Doc.selectedElements = [1] ∧ UniqueIds rect1Doc) ∧
    ∃ s', runCalls [.setBlur 5 true, .setBlur 8 false, .setBlurNoUndo 9, .setBlur 9 true]
        rect1Doc = some s' ∧ UniqueIds s' :=
  have hu : UniqueIds rect1Doc := by
    intro id i j hi hj
    have h1 : ∀ k : Ref, getAttribute rect1Doc k "id" = some (.str id) → k = 1 := by
      intro k hk
      match k, hk with
      | 0, hk => simp [getAttribute, attrOf, rect1Doc, getAttr] at hk
      | 1, _ => rfl
      | k + 2, hk => simp [getAttribute, attrOf, rect1Doc] at hk
    rw [h1 i hi, h1 j hj]
  ⟨⟨rfl, rfl, hu⟩,
    let ⟨s', h, hu', _⟩ := C14_at_most_one_filter_per_id rect1Doc 1 []
      [.setBlur 5 true, .setBlur 8 false, .setBlurNoUndo 9, .setBlur 9 true] rfl rfl hu
    ⟨s', h, hu'⟩⟩

/-- C15, as stated, fails: on `rect1Doc`, after two `setBlur(5, false)` calls no command
is current and the history has two entries; the third `setBlur(5, false)` is not ignored:
it makes a new batch command current and leaves a third history entry. -/
theorem C15_counterexample :
    (runSetBlur [(5, false), (5, false)] rect1Doc).map (fun s => s.curCommand) = some none ∧
    (runSetBlur [(5, false), (5, false), (5, false)] rect1Doc).map (fun s => s.curCommand) =
      some (some [.changeElement 1 [("filter", some (.str "url(#rect1_blur)"))]
        [("filter", some (.str "url(#rect1_blur)"))]]) ∧
    (runSetBlur [(5, false), (5, false)] rect1Doc).map (fun s => s.history.length) = some 2 ∧
    (runSetBlur [(5, false), (5, false), (5, false)] rect1Doc).map
      (fun s => s.history.length) = some 3 := by
  decide

/-- C15, amended: for `v ≠ 0`, three `setBlur(v, false)` calls in a row with no
transaction open at the start behave as open, close, open. The first makes a command
current and leaves one history entry, the record of its tracked write of the `filter`
attribute; the second pushes the composite command and clears the current command and the
edited-filter reference; the third opens a new transaction (a current command, an
edited-filter reference) and leaves the record of its own tracked write in the history,
so the state after it differs from the state after the second. -/
theorem C15_third_call_opens_again (s : State) (t : Ref) (sel : List Ref) (v : ℚ)
    (hidle : s.curCommand = none) (hsel : s.selectedElements = t :: sel) (hv : v ≠ 0) :
    ∃ s1 s2 s3 b1 rec1 cmd b3 rec3 f3,
      setBlur v false s = some s1 ∧ s1.curCommand = some b1 ∧
      s1.history = s.history ++ [rec1] ∧
      setBlur v false s1 = some s2 ∧ s2.curCommand = none ∧ s2.filter = none ∧
      s2.history = s.history ++ [rec1, cmd] ∧
      setBlur v false s2 = some s3 ∧ s3.curCommand = some b3 ∧ s3.filter = some f3 ∧
      s3.history = s.history ++ [rec1, cmd, rec3] ∧ s3 ≠ s2 ∧
      runSetBlur [(v, false), (v, false), (v, false)] s = some s3 := by
  obtain ⟨s1, F, b, sc, rec1, h1, -, -, hsel1, hb1, hsc1, hh1, -, -, -, -, -, -⟩ :=
    setBlur_open_doc v s t sel hidle hsel hv
  have h2 := (setBlur_of_open v false s1 b hb1).trans (finishChange_eq s1 b sc s.scopes hb1 hsc1)
  obtain ⟨s3, F3, b3, sc3, rec3, h3, -, hf3, -, hb3, -, hh3, -, -, -, -, -, -⟩ :=
    setBlur_open_doc v ({ s1 with history := s1.history ++ [b ++ [closeScope s1 sc]], curCommand := none, filter := none, scopes := s.scopes }) t sel rfl hsel1 hv
  refine ⟨s1, _, s3, b, rec1, b ++ [closeScope s1 sc], b3, rec3, F3, h1, hb1, hh1, h2, rfl, rfl,
    ?_, h3, hb3, hf3, ?_, ?_, ?_⟩
  · simp [hh1]
  · rw [hh3]; simp [hh1]
  · intro heq
    have := congrArg State.curCommand heq
    rw [hb3] at this
    cases this
  · simp only [runSetBlur, h1, Option.some_bind, h2, h3]

/-- Witness of C15: three `setBlur(5, false)` calls on `rect1Doc`. -/
theorem C15_witness :
    (rect1Doc.curCommand = none ∧ rect1Doc.selectedElements = [1] ∧ (5 : ℚ) ≠ 0) ∧
    ∃ s1 s2 s3 b1 rec1 cmd b3 rec3 f3,
      setBlur 5 false rect1Doc = some s1 ∧ s1.curCommand = some b1 ∧
      s1.history = rect1Doc.history ++ [rec1] ∧
      setBlur 5 false s1 = some s2 ∧ s2.curCommand = none ∧ s2.filter = none ∧
      s2.history = rect1Doc.history ++ [rec1, cmd] ∧
      setBlur 5 false s2 = some s3 ∧ s3.curCommand = some b3 ∧ s3.filter = some f3 ∧
      s3.history = rect1Doc.history ++ [rec1, cmd, rec3] ∧ s3 ≠ s2 ∧
      runSetBlur [(5, false), (5, false), (5, false)] rect1Doc = some s3 :=
  ⟨⟨rfl, rfl, by decide⟩, C15_third_call_opens_again rect1Doc 1 [] 5 rfl rfl (by decide)⟩

/-- C16: every sequence of `setBlur` and `setBlurNoUndo` calls on a selected target,
started with no current command, returns; if the state it leaves has a current command
`b`, the edited-filter reference is set there, and `setBlurNoUndo(value)` for any value
returns with the same current command `b`, the same edited-filter reference, the same
history and the same open scopes. -/
theorem C16_preview_keeps_coordinator (s : State) (t : Ref) (sel : List Ref)
    (calls : List Call)
    (hidle : s.curCommand = none) (hsel : s.selectedElements = t :: sel) :
    ∃ s1, runCalls calls s = some s1 ∧
      ∀ b, s1.curCommand = some b →
        (∃ f, s1.filter = some f) ∧
        ∀ v, ∃ s2, setBlurNoUndo v s1 = some s2 ∧ s2.curCommand = some b ∧
          s2.filter = s1.filter ∧ s2.history = s1.history ∧ s2.scopes = s1.scopes := by
  obtain ⟨s1, h, hst1, hl1, -, -⟩ :=
    runCalls_light calls s t sel ⟨hsel, Or.inl hidle⟩ (fun b hb => by rw [hidle] at hb; cases hb)
  refine ⟨s1, h, fun b hb => ?_⟩
  obtain ⟨f, hf⟩ := hl1 b hb
  refine ⟨⟨f, hf⟩, fun v => ?_⟩
  obtain ⟨ns, h2⟩ := setBlurNoUndo_frame v s1 f t sel hf hst1.1
  exact ⟨_, h2, hb, rfl, rfl, rfl⟩

/-- Witness of C16: the opening call and one preview on `blurredDoc`. -/
theorem C16_witness :
    (blurredDoc.curCommand = none ∧ blurredDoc.selectedElements = [1]) ∧
    ∃ s1, runCalls [.setBlur 8 false, .setBlurNoUndo 9] blurredDoc = some s1 ∧
      ∀ b, s1.curCommand = some b →
        (∃ f, s1.filter = some f) ∧
        ∀ v, ∃ s2, setBlurNoUndo v s1 = some s2 ∧ s2.curCommand = some b ∧
          s2.filter = s1.filter ∧ s2.history = s1.history ∧ s2.scopes = s1.scopes :=
  ⟨⟨rfl, rfl⟩,
    C16_preview_keeps_coordinator blurredDoc 1 [] [.setBlur 8 false, .setBlurNoUndo 9] rfl rfl⟩

/-- C17: with the edited-filter reference set and the target in the document,
`setBlurNoUndo(0)` sets the `filter` attribute of the target (of every selected element)
to the empty string and the hidden flag to true, and changes nothing else: the
reference, every child list (that of the defs container included), every tag, every
attribute other than `filter` (each `stdDeviation` and the region attributes of the
filter included), the `filter` attribute of elements outside the selection, the current
command and the history are as before. -/
theorem C17_preview_zero_detaches (s : State) (f t : Ref) (sel : List Ref)
    (hf : s.filter = some f) (hsel : s.selectedElements = t :: sel)
    (ht : t < s.nodes.length) :
    ∃ s', setBlurNoUndo 0 s = some s' ∧
      getAttribute s' t "filter" = some (.str "") ∧
      s'.filterHidden = true ∧ s'.filter = some f ∧ s'.defs = s.defs ∧
      s'.nodes.length = s.nodes.length ∧
      (∀ r, childrenOf s' r = childrenOf s r) ∧
      (∀ r, tagOf s' r = tagOf s r) ∧
      (∀ r k, k ≠ "filter" → getAttribute s' r k = getAttribute s r k) ∧
      (∀ r k, r ∉ s.selectedElements → getAttribute s' r k = getAttribute s r k) ∧
      s'.curCommand = s.curCommand ∧ s'.history = s.history ∧ s'.scopes = s.scopes := by
  have h := setBlurNoUndo_zero s f hf
  have hsk : (setFilterHidden true (changeSelectedAttributeNoUndoMethod "filter" (.str "")
      (s.selectedElements.map some) s)).nodes.map skel = s.nodes.map skel :=
    map_skel_setAttrAll "filter" _ _ s.nodes (by decide)
  refine ⟨_, h, ?_, rfl, hf, rfl, length_setAttrAll _ _ _ _, fun r => childrenOf_skel s _ r hsk,
    fun r => tagOf_skel s _ r hsk, ?_, ?_, rfl, rfl, rfl⟩
  · show attrOf (setAttrAll "filter" _ _ s.nodes) t "filter" = _
    rw [attrOf_setAttrAll, hsel]
    simp [ht]
  · intro r k hk
    show attrOf (setAttrAll "filter" _ _ s.nodes) r k = _
    rw [attrOf_setAttrAll]
    simp only [hk, false_and, and_false, if_false]
    rfl
  · intro r k hr
    show attrOf (setAttrAll "filter" _ _ s.nodes) r k = _
    rw [attrOf_setAttrAll]
    have : ¬ (some r ∈ s.selectedElements.map some) := by simpa using hr
    simp only [this, false_and, if_false]
    rfl

/-- Witness of C17: a preview of 0 on `draggingDoc`. -/
theorem C17_witness :
    (draggingDoc.filter = some 3 ∧ draggingDoc.selectedElements = [1] ∧
      (1 : Ref) < draggingDoc.nodes.length) ∧
    ∃ s', setBlurNoUndo 0 draggingDoc = some s' ∧
      getAttribute s' 1 "filter" = some (.str "") ∧
      s'.filterHidden = true ∧ s'.filter = some 3 ∧ s'.defs = draggingDoc.defs ∧
      s'.nodes.length = draggingDoc.nodes.length ∧
      (∀ r, childrenOf s' r = childrenOf draggingDoc r) ∧
      (∀ r, tagOf s' r = tagOf draggingDoc r) ∧
      (∀ r k, k ≠ "filter" → getAttribute s' r k = getAttribute draggingDoc r k) ∧
      (∀ r k, r ∉ draggingDoc.selectedElements →
        getAttribute s' r k = getAttribute draggingDoc r k) ∧
      s'.curCommand = draggingDoc.curCommand ∧ s'.history = draggingDoc.history ∧
      s'.scopes = draggingDoc.scopes :=
  ⟨⟨rfl, rfl, by decide⟩, C17_preview_zero_detaches draggingDoc 3 1 [] rfl rfl (by decide)⟩

/-- C18: on a document where the target is an element and an existing FilterResource has
its primitive, every sequence of `setBlur` and `setBlurNoUndo` calls started with no
current command returns; if the state it leaves has a transaction open, then for every
`v ≠ 0` and either value of the quirk flag `setBlurNoUndo(v)` leaves the target's
`filter` attribute equal to `url(#<id>_blur)`, the `stdDeviation` of the blur primitive
equal to `v`, and the region attributes of the filter as `setBlurOffsets` sets them for
`v`; and a preview of 0, which empties the `filter` attribute, followed by
`setBlurNoUndo(v)` puts the reference back. -/
theorem C18_nonzero_preview_in_drag (s : State) (t : Ref) (sel : List Ref)
    (calls : List Call) (v : ℚ)
    (hidle : s.curCommand = none) (hsel : s.selectedElements = t :: sel)
    (ht : t < s.nodes.length)
    (hres : ∀ f, filterResource s t = some f →
      ∃ p, firstChild s f = some p ∧ p < s.nodes.length)
    (hv : v ≠ 0) :
    ∃ s1, runCalls calls s = some s1 ∧
      ∀ b, s1.curCommand = some b →
        ∃ s2 f, setBlurNoUndo v s1 = some s2 ∧ s1.filter = some f ∧
          filterResource s2 t = some f ∧
          getAttribute s2 t "filter" = some (.str ("url(#" ++ elementId s t ++ "_blur)")) ∧
          blurDeviation s2 t = some (.num v) ∧
          (3 < v →
            getAttribute s2 f "x" = some (.str "-50%") ∧
            getAttribute s2 f "y" = some (.str "-50%") ∧
            getAttribute s2 f "width" = some (.str "200%") ∧
            getAttribute s2 f "height" = some (.str "200%")) ∧
          (v ≤ 3 → s1.isWebkit = false →
            getAttribute s2 f "x" = none ∧ getAttribute s2 f "y" = none ∧
            getAttribute s2 f "width" = none ∧ getAttribute s2 f "height" = none) ∧
          (v ≤ 3 → s1.isWebkit = true →
            getAttribute s2 f "x" = getAttribute s1 f "x" ∧
            getAttribute s2 f "y" = getAttribute s1 f "y" ∧
            getAttribute s2 f "width" = getAttribute s1 f "width" ∧
            getAttribute s2 f "height" = getAttribute s1 f "height") ∧
          ∃ s0 s3, setBlurNoUndo 0 s1 = some s0 ∧
            getAttribute s0 t "filter" = some (.str "") ∧
            setBlurNoUndo v s0 = some s3 ∧
            getAttribute s3 t "filter" = some (.str ("url(#" ++ elementId s t ++ "_blur)")) := by
  obtain ⟨s1, h1, hst1, hs1, hd1, hid1⟩ := runCalls_full calls s t sel ⟨hsel, Or.inl hidle⟩
    ⟨ht, hres⟩ (fun b hb => by rw [hidle] at hb; cases hb)
  refine ⟨s1, h1, fun b hb => ?_⟩
  obtain ⟨⟨f, hf, hfr⟩, hor⟩ := hd1 b hb
  obtain ⟨s2, h2, hsk, hfil2, hdev2, -⟩ :=
    setBlurNoUndo_nonzero_doc v s1 f t sel hf hst1.1 hv
  have hflt : f < s1.nodes.length := getElem_lt s1 _ f hfr
  obtain ⟨s2', h2', hlarge, hsmall, hquirk⟩ :=
    setBlurNoUndo_region v s1 f t sel hf hst1.1 hv hflt
  rw [h2] at h2'
  cases h2'
  have hfr2 : filterResource s2 t = some f := by
    rw [filterResource_skel s1 s2 t hsk]; exact hfr
  have hattr : getAttribute s2 t "filter" = some (blurUrl (elementId s t)) := by
    rw [← hid1]
    rcases hor with hh | hurl
    · obtain ⟨s2'', h2'', -, ha, -, -, -⟩ :=
        setBlurNoUndo_hidden v s1 f t sel hf hst1.1 hv hh
      rw [h2] at h2''
      cases h2''
      exact ha hs1.1
    · exact hfil2 hs1.1 hurl
  have hdev : blurDeviation s2 t = some (.num v) := by
    obtain ⟨p, hp, hlt⟩ := hs1.2 f hfr
    unfold blurDeviation
    rw [hfr2]
    simp only [Option.some_bind]
    rw [firstChild_skel s1 s2 f hsk, hp]
    exact hdev2 p hp hlt
  refine ⟨s2, f, h2, hf, hfr2, hattr, hdev, hlarge, hsmall, hquirk, ?_⟩
  have h0 := setBlurNoUndo_zero s1 f hf
  have hsk0 : (setFilterHidden true (changeSelectedAttributeNoUndoMethod "filter" (.str "")
      (s1.selectedElements.map some) s1)).nodes.map skel = s1.nodes.map skel :=
    map_skel_setAttrAll "filter" _ _ s1.nodes (by decide)
  obtain ⟨s3, h3, -, ha3, -, -, -⟩ := setBlurNoUndo_hidden v
    (setFilterHidden true (changeSelectedAttributeNoUndoMethod "filter" (.str "")
      (s1.selectedElements.map some) s1)) f t sel hf hst1.1 hv rfl
  refine ⟨_, s3, h0, ?_, h3, ?_⟩
  · show attrOf (setAttrAll "filter" _ _ s1.nodes) t "filter" = _
    rw [attrOf_setAttrAll, hst1.1]
    simp [hs1.1]
  · have := ha3 (by rw [length_skel _ _ hsk0]; exact hs1.1)
    rw [elementId_skel s1 _ t hsk0, hid1] at this
    exact this

/-- Witness of C18: on `blurredDoc`, the opening call `setBlur(8, false)` and a preview
of 0, then `setBlurNoUndo(2)`. -/
theorem C18_witness :
    (blurredDoc.curCommand = none ∧ blurredDoc.selectedElements = [1] ∧
      (1 : Ref) < blurredDoc.nodes.length ∧
      (∀ f, filterResource blurredDoc 1 = some f →
        ∃ p, firstChild blurredDoc f = some p ∧ p < blurredDoc.nodes.length) ∧
      (2 : ℚ) ≠ 0) ∧
    ∃ s1, runCalls [.setBlur 8 false, .setBlurNoUndo 0] blurredDoc = some s1 ∧
      ∀ b, s1.curCommand = some b →
        ∃ s2 f, setBlurNoUndo 2 s1 = some s2 ∧ s1.filter = some f ∧
          filterResource s2 1 = some f ∧
          getAttribute s2 1 "filter" =
            some (.str ("url(#" ++ elementId blurredDoc 1 ++ "_blur)")) ∧
          blurDeviation s2 1 = some (.num 2) :=
  have hres : ∀ f, filterResource blurredDoc 1 = some f →
      ∃ p, firstChild blurredDoc f = some p ∧ p < blurredDoc.nodes.length := by
    intro f hf
    have h3 : filterResource blurredDoc 1 = some 3 := by decide
    rw [h3] at hf
    cases hf
    exact ⟨2, by decide, by decide⟩
  ⟨⟨rfl, rfl, by decide, hres, by decide⟩,
    let ⟨s1, h1, hall⟩ := C18_nonzero_preview_in_drag blurredDoc 1 []
      [.setBlur 8 false, .setBlurNoUndo 0] 2 rfl rfl (by decide) hres (by decide)
    ⟨s1, h1, fun b hb =>
      let ⟨s2, f, h2, hf, hfr, ha, hd, _⟩ := hall b hb
      ⟨s2, f, h2, hf, hfr, ha, hd⟩⟩⟩

/-- C19: for a target in the document whose FilterResource `f` exists, `v ≠ 0` and no
transaction open, the opening call `setBlur(v, false)` writes no `stdDeviation`: every
element has the `stdDeviation` it had, so the deviation of the target's blur primitive
is unchanged; the target's `filter` attribute becomes `url(#<id>_blur)`, and the
transaction is left open on `f`: its composite command is current and not yet pushed, the
history having grown only by the record `rec` of the tracked write of the `filter`
attribute. -/
theorem C19_opening_call_keeps_deviation (s : State) (t f : Ref) (sel : List Ref) (v : ℚ)
    (hidle : s.curCommand = none) (hsel : s.selectedElements = t :: sel) (hv : v ≠ 0)
    (ht : t < s.nodes.length) (hres : filterResource s t = some f) :
    ∃ s1 b, setBlur v false s = some s1 ∧
      (∀ r, getAttribute s1 r "stdDeviation" = getAttribute s r "stdDeviation") ∧
      blurDeviation s1 t = blurDeviation s t ∧
      getAttribute s1 t "filter" = some (.str ("url(#" ++ elementId s t ++ "_blur)")) ∧
      s1.curCommand = some b ∧ s1.filter = some f ∧
      ∃ rec, s1.history = s.history ++ [rec] := by
  obtain ⟨s1, F, b, sc, rec, h1, hF, hf1, -, hb1, -, hh1, -, -, -, hsk, hoth, hdoc⟩ :=
    setBlur_open_doc v s t sel hidle hsel hv
  have hR : resolved v t s = setFilter (some f) s := by
    unfold filterResource at hres
    unfold resolved
    rw [hres]
  rw [hR] at hF hsk hoth
  have hFf : F = f := by
    simp only [setFilter, Option.some.injEq] at hF
    exact hF.symm
  subst hFf
  obtain ⟨hfil, -, hfr⟩ := hdoc ht
  have hdev : ∀ r, getAttribute s1 r "stdDeviation" = getAttribute s r "stdDeviation" :=
    fun r => hoth r "stdDeviation" (by decide) (by decide) (by decide) (by decide) (by decide)
  refine ⟨s1, b, h1, hdev, ?_, hfil, hb1, hf1, rec, hh1⟩
  unfold blurDeviation
  rw [hfr, hres]
  simp only [Option.some_bind]
  rw [firstChild_skel (setFilter (some F) s) s1 F hsk]
  show ((firstChild s F).bind fun p => getAttribute s1 p "stdDeviation") = _
  cases firstChild s F with
  | none => rfl
  | some p => exact hdev p

/-- Witness of C19: the opening call `setBlur(8, false)` on `blurredDoc` (deviation 5). -/
theorem C19_witness :
    (blurredDoc.curCommand = none ∧ blurredDoc.selectedElements = [1] ∧ (8 : ℚ) ≠ 0 ∧
      (1 : Ref) < blurredDoc.nodes.length ∧ filterResource blurredDoc 1 = some 3) ∧
    ∃ s1 b, setBlur 8 false blurredDoc = some s1 ∧
      (∀ r, getAttribute s1 r "stdDeviation" = getAttribute blurredDoc r "stdDeviation") ∧
      blurDeviation s1 1 = blurDeviation blurredDoc 1 ∧
      getAttribute s1 1 "filter" = some (.str ("url(#" ++ elementId blurredDoc 1 ++ "_blur)")) ∧
      s1.curCommand = some b ∧ s1.filter = some 3 ∧
      ∃ rec, s1.history = blurredDoc.history ++ [rec] :=
  ⟨⟨rfl, rfl, by decide, by decide, by decide⟩,
    C19_opening_call_keeps_deviation blurredDoc 1 3 [] 8 rfl rfl (by decide) (by decide)
      (by decide)⟩

/-- C20: the hidden flag is sticky. From a steady state with the edited-filter reference
set, `setBlurNoUndo(0)` sets the flag; after any further sequence of `setBlur` and
`setBlurNoUndo` calls the flag is still true; and in such a state every
`setBlurNoUndo(v)` with `v ≠ 0` and an edited-filter reference keeps the flag and writes
`url(#<id>_blur)` on the target's `filter` attribute again, whatever it was, without a
record in the tracked log or the history. -/
theorem C20_hidden_flag_is_sticky (s : State) (f t : Ref) (sel : List Ref)
    (calls : List Call)
    (hst : Steady t sel s) (hf : s.filter = some f) :
    ∃ s1 s2, setBlurNoUndo 0 s = some s1 ∧ s1.filterHidden = true ∧
      runCalls calls s1 = some s2 ∧ s2.filterHidden = true ∧
      ∀ f2 v, s2.filter = some f2 → v ≠ 0 →
        ∃ s3, setBlurNoUndo v s2 = some s3 ∧ s3.filterHidden = true ∧
          (t < s2.nodes.length →
            getAttribute s3 t "filter" = some (.str ("url(#" ++ elementId s2 t ++ "_blur)"))) ∧
          s3.tracked = s2.tracked ∧ s3.history = s2.history := by
  have h1 := setBlurNoUndo_zero s f hf
  have hst1 : Steady t sel (setFilterHidden true (changeSelectedAttributeNoUndoMethod "filter"
      (.str "") (s.selectedElements.map some) s)) := ⟨hst.1, hst.2⟩
  obtain ⟨s2, h2, hst2, -, hh2, -⟩ := runCalls_light calls _ t sel hst1
    (fun b _ => ⟨f, hf⟩)
  refine ⟨_, s2, h1, rfl, h2, hh2 rfl, ?_⟩
  intro f2 v hf2 hv
  obtain ⟨s3, h3, hh3, hattr, htr, hhist, -⟩ :=
    setBlurNoUndo_hidden v s2 f2 t sel hf2 hst2.1 hv (hh2 rfl)
  exact ⟨s3, h3, hh3, hattr, htr, hhist⟩

/-- Witness of C20: a preview of 0 on `draggingDoc`, then the close of the drag and a
new opening call. -/
theorem C20_witness :
    (Steady 1 [] draggingDoc ∧ draggingDoc.filter = some 3) ∧
    ∃ s1 s2, setBlurNoUndo 0 draggingDoc = some s1 ∧ s1.filterHidden = true ∧
      runCalls [.setBlur 0 true, .setBlur 4 false] s1 = some s2 ∧ s2.filterHidden = true ∧
      ∀ f2 v, s2.filter = some f2 → v ≠ 0 →
        ∃ s3, setBlurNoUndo v s2 = some s3 ∧ s3.filterHidden = true ∧
          (1 < s2.nodes.length →
            getAttribute s3 1 "filter" = some (.str ("url(#" ++ elementId s2 1 ++ "_blur)"))) ∧
          s3.tracked = s2.tracked ∧ s3.history = s2.history :=
  ⟨⟨⟨rfl, Or.inr (by decide)⟩, rfl⟩,
    C20_hidden_flag_is_sticky draggingDoc 3 1 [] [.setBlur 0 true, .setBlur 4 false]
      ⟨rfl, Or.inr (by decide)⟩ rfl⟩

end Blur
